import Mathlib

/-!
# Echoes of the Forgotten Realm: world graph and combat state machine

A shallow embedding of the game core (`Item`, `Enemy`, `Player`, `Room`,
`WorldManager`, and the text-mode handlers of `GameEngine`) together with
theorems about it.

Modelling conventions.

* A C++ `int` value is an `Int`.  The arithmetic of the `Enemy` and `Player`
  methods (`takeDamage`, `getAttack`, `heal`, `addGold`, `spendGold`) is the
  32-bit two's complement arithmetic of the compiled program: the result of
  `+` and `-` is reduced by `wrapInt`, which is the identity on the values
  that fit in an `int` (`fitsInt`).  The counter `turnsPlayed` starts at 0 and
  is only incremented, once per command read; it is not reduced, so the
  embedding covers the runs of fewer than `2^31` commands.
* `std::shared_ptr<Item>` is modelled by the `Item` value (items are never
  mutated); a null pointer is `none`.
* Every `std::shared_ptr<Enemy>` is created by one `make_shared` and stored in
  exactly one room, so a room owns its enemies by value and the pointer held by
  a combat session is the index of the enemy in the current room.
* `std::map<std::string, T>` is an association list kept sorted by key.
* `GameEngine::currentRoom` points at one of the values of `rooms`; it is
  modelled by the key of that room.
* Console output is not modelled.  Lines read from `std::cin` and draws of the
  random generators are explicit arguments of the functions that consume them.
-/

namespace Realm

/-! ## Machine integers -/

/-- The value of type `int` that an arithmetic result is stored as: the
representative of `n` modulo `2^32` in `-2^31 .. 2^31 - 1`. -/
def wrapInt (n : Int) : Int :=
  (n + 2147483648) % 4294967296 - 2147483648

/-- The integer `n` is a value of type `int`: the operation that computes it
does not overflow. -/
def fitsInt (n : Int) : Prop :=
  -2147483648 ≤ n ∧ n ≤ 2147483647

instance (n : Int) : Decidable (fitsInt n) := by
  unfold fitsInt
  infer_instance

/-! ## Items -/

/-- The enumeration `Item::Type`. -/
inductive ItemType where
  | WEAPON
  | POTION
  | KEY
  | TREASURE
  | QUEST_ITEM
deriving DecidableEq, Repr

/-- The class `Item` (Item.h). -/
structure Item where
  name : String
  description : String
  type : ItemType
  value : Int
  effect : Int
deriving DecidableEq, Repr

/-! ## Enemies -/

/-- The enumeration `Enemy::Type`. -/
inductive EnemyType where
  | GOBLIN
  | WOLF
  | SKELETON
  | GHOST
  | BOSS
deriving DecidableEq, Repr

/-- The class `Enemy` (Enemy.h). -/
structure Enemy where
  name : String
  type : EnemyType
  health : Int
  maxHealth : Int
  attack : Int
  defense : Int
  goldReward : Int
  isAlive : Bool
deriving DecidableEq, Repr

namespace Enemy

/-- The constructor `Enemy::Enemy`: `maxHealth` is the initial health and the
flag `isAlive` starts true. -/
def new (name : String) (type : EnemyType) (health attack defense goldReward : Int) : Enemy :=
  { name := name, type := type, health := health, maxHealth := health, attack := attack,
    defense := defense, goldReward := goldReward, isAlive := true }

/-- The method `Enemy::alive`: `isAlive && health > 0`. -/
def alive (e : Enemy) : Bool :=
  e.isAlive && decide (e.health > 0)

/-- The method `Enemy::performAttack`; `roll` is the draw of
`uniform_int_distribution(attack - 2, attack + 2)`, which is only consulted
when the enemy is alive. -/
def performAttack (e : Enemy) (roll : Int) : Int :=
  if !e.alive then 0 else max 1 roll

/-- The method `Enemy::takeDamage`. -/
def takeDamage (e : Enemy) (damage : Int) : Enemy :=
  let actualDamage := max 1 (wrapInt (damage - e.defense))
  let health := max 0 (wrapInt (e.health - actualDamage))
  if health ≤ 0 then { e with health := health, isAlive := false }
  else { e with health := health }

/-- The factory `Enemy::createRandomEnemy`; `enemyType` is the draw of
`uniform_int_distribution(0, 3)`. -/
def createRandomEnemy (enemyType : Int) : Enemy :=
  if enemyType = 0 then Enemy.new "Goblin Scout" EnemyType.GOBLIN 25 8 2 15
  else if enemyType = 1 then Enemy.new "Wild Wolf" EnemyType.WOLF 30 10 1 20
  else if enemyType = 2 then Enemy.new "Ancient Skeleton" EnemyType.SKELETON 35 12 4 25
  else if enemyType = 3 then Enemy.new "Restless Ghost" EnemyType.GHOST 20 15 0 30
  else Enemy.new "Goblin Scout" EnemyType.GOBLIN 25 8 2 15

/-- The factory `Enemy::createBoss`. -/
def createBoss : Enemy :=
  Enemy.new "Shadow Lord" EnemyType.BOSS 100 20 8 100

end Enemy

/-! ## Player -/

/-- Erase the first element satisfying `q`, as `find_if` followed by
`erase`. -/
def eraseFirst {α : Type} (q : α → Bool) : List α → List α
  | [] => []
  | x :: xs => if q x then xs else x :: eraseFirst q xs

/-- The class `Player` (Player.h). -/
structure Player where
  name : String
  health : Int
  maxHealth : Int
  attack : Int
  defense : Int
  gold : Int
  inventory : List Item
  equippedWeapon : Option Item
  memoryJournal : List String
deriving DecidableEq, Repr

namespace Player

/-- The constructor `Player::Player`. -/
def new (name : String) : Player :=
  { name := name, health := 100, maxHealth := 100, attack := 10, defense := 5, gold := 50,
    inventory := [], equippedWeapon := none, memoryJournal := [] }

/-- The method `Player::getAttack`. -/
def getAttack (p : Player) : Int :=
  match p.equippedWeapon with
  | some w => wrapInt (p.attack + w.effect)
  | none => p.attack

/-- The method `Player::heal`. -/
def heal (p : Player) (amount : Int) : Player :=
  { p with health := min (wrapInt (p.health + amount)) p.maxHealth }

/-- The method `Player::takeDamage`. -/
def takeDamage (p : Player) (damage : Int) : Player :=
  let actualDamage := max 1 (wrapInt (damage - p.defense))
  { p with health := max 0 (wrapInt (p.health - actualDamage)) }

/-- The method `Player::isAlive`. -/
def isAlive (p : Player) : Bool :=
  decide (p.health > 0)

/-- The method `Player::addItem`: `push_back` on the inventory. -/
def addItem (p : Player) (item : Item) : Player :=
  { p with inventory := p.inventory ++ [item] }

/-- The method `Player::hasItem`. -/
def hasItem (p : Player) (itemName : String) : Bool :=
  p.inventory.any (fun item => item.name == itemName)

/-- The method `Player::getItem`: the first inventory item of that name. -/
def getItem (p : Player) (itemName : String) : Option Item :=
  p.inventory.find? (fun item => item.name == itemName)

/-- The method `Player::removeItem` (the new player; the boolean result is
`hasItem`). -/
def removeItem (p : Player) (itemName : String) : Player :=
  { p with inventory := eraseFirst (fun item => item.name == itemName) p.inventory }

/-- The method `Player::equipWeapon`; a null pointer is `none`. -/
def equipWeapon (p : Player) (weapon : Option Item) : Player :=
  match weapon with
  | some w => if w.type = ItemType.WEAPON then { p with equippedWeapon := some w } else p
  | none => p

/-- The method `Player::hasMemory`. -/
def hasMemory (p : Player) (memory : String) : Bool :=
  decide (memory ∈ p.memoryJournal)

/-- The method `Player::addMemory`. -/
def addMemory (p : Player) (memory : String) : Player :=
  if !p.hasMemory memory then { p with memoryJournal := p.memoryJournal ++ [memory] } else p

/-- The method `Player::addGold`. -/
def addGold (p : Player) (amount : Int) : Player :=
  { p with gold := wrapInt (p.gold + amount) }

/-- The method `Player::spendGold`: the new player and the returned flag. -/
def spendGold (p : Player) (amount : Int) : Player × Bool :=
  if p.gold ≥ amount then ({ p with gold := wrapInt (p.gold - amount) }, true) else (p, false)

end Player

/-- Apply `Enemy::takeDamage` once for every element of a list of damage
amounts, in order. -/
def takeDamages (e : Enemy) (ds : List Int) : Enemy :=
  ds.foldl Enemy.takeDamage e


/-! ## Ordered maps -/

/-- The lookup `std::map::find`: the value stored under key `k`, if any. -/
def mapFind {α : Type} : List (String × α) → String → Option α
  | [], _ => none
  | (k', v) :: rest, k => if k' = k then some v else mapFind rest k

/-- Lexicographic comparison of character sequences by character code. -/
def charsLt : List Char → List Char → Bool
  | [], [] => false
  | [], _ :: _ => true
  | _ :: _, [] => false
  | a :: as, b :: bs =>
    if a.toNat < b.toNat then true
    else if b.toNat < a.toNat then false
    else charsLt as bs

/-- The key order `std::less<std::string>` of the maps. -/
def keyLt (a b : String) : Bool :=
  charsLt a.data b.data

/-- The assignment `m[k] = v` on a `std::map`: overwrite the entry of key `k`
when there is one, insert at the sorted position otherwise. -/
def mapAssign {α : Type} : List (String × α) → String → α → List (String × α)
  | [], k, v => [(k, v)]
  | (k', v') :: rest, k, v =>
    if k' = k then (k, v) :: rest
    else if keyLt k k' then (k, v) :: (k', v') :: rest
    else (k', v') :: mapAssign rest k v

/-- Mutation, through the stored shared pointer, of the value held under key
`k`; the map itself (its keys and their order) does not change. -/
def mapModify {α : Type} : List (String × α) → String → (α → α) → List (String × α)
  | [], _, _ => []
  | (k', v) :: rest, k, f =>
    if k' = k then (k', f v) :: rest else (k', v) :: mapModify rest k f

/-- Mutation of the element at position `i` of a vector of shared pointers. -/
def modifyAt {α : Type} (f : α → α) : Nat → List α → List α
  | _, [] => []
  | 0, x :: xs => f x :: xs
  | n + 1, x :: xs => x :: modifyAt f n xs

/-! ## Rooms -/

/-- The enumeration `Room::HazardType`. -/
inductive HazardType where
  | NONE
  | POISON
  | CURSED
  | COLD
  | HOT
deriving DecidableEq, Repr

/-- The class `Room` (Room.h). -/
structure Room where
  id : String
  name : String
  description : String
  exits : List (String × String)
  items : List Item
  enemies : List Enemy
  visited : Bool
  hazard : HazardType
  specialEvent : String
deriving DecidableEq, Repr

/-- Position of the first alive enemy of a vector: the pointer that
`Room::getAliveEnemy` returns. -/
def firstAliveIdx : List Enemy → Option Nat
  | [] => none
  | e :: es => if e.alive then some 0 else (firstAliveIdx es).map (· + 1)

namespace Room

/-- The constructor `Room::Room`. -/
def new (id name description : String) : Room :=
  { id := id, name := name, description := description, exits := [], items := [],
    enemies := [], visited := false, hazard := HazardType.NONE, specialEvent := "" }

/-- The method `Room::setVisited`. -/
def setVisited (r : Room) (v : Bool) : Room :=
  { r with visited := v }

/-- The method `Room::setHazard`. -/
def setHazard (r : Room) (h : HazardType) : Room :=
  { r with hazard := h }

/-- The method `Room::setSpecialEvent`. -/
def setSpecialEvent (r : Room) (event : String) : Room :=
  { r with specialEvent := event }

/-- The method `Room::addExit`: `exits[direction] = roomId`. -/
def addExit (r : Room) (direction roomId : String) : Room :=
  { r with exits := mapAssign r.exits direction roomId }

/-- The method `Room::getExit`: the empty string when there is no exit. -/
def getExit (r : Room) (direction : String) : String :=
  match mapFind r.exits direction with
  | some target => target
  | none => ""

/-- The method `Room::getAvailableExits`: the keys in map order. -/
def getAvailableExits (r : Room) : List String :=
  r.exits.map Prod.fst

/-- The method `Room::addItem`. -/
def addItem (r : Room) (item : Item) : Room :=
  { r with items := r.items ++ [item] }

/-- The method `Room::takeItem`: the returned pointer and the room
afterwards. -/
def takeItem (r : Room) (itemName : String) : Option Item × Room :=
  match r.items.find? (fun item => item.name == itemName) with
  | some item =>
    (some item, { r with items := eraseFirst (fun item => item.name == itemName) r.items })
  | none => (none, r)

/-- The method `Room::hasItem`. -/
def hasItem (r : Room) (itemName : String) : Bool :=
  r.items.any (fun item => item.name == itemName)

/-- The method `Room::addEnemy`. -/
def addEnemy (r : Room) (enemy : Enemy) : Room :=
  { r with enemies := r.enemies ++ [enemy] }

/-- The method `Room::getAliveEnemy`, as the enemy pointed at. -/
def getAliveEnemy (r : Room) : Option Enemy :=
  r.enemies.find? Enemy.alive

/-- The method `Room::hasAliveEnemies`. -/
def hasAliveEnemies (r : Room) : Bool :=
  r.getAliveEnemy.isSome

/-- The method `Room::removeDeadEnemies`. -/
def removeDeadEnemies (r : Room) : Room :=
  { r with enemies := r.enemies.filter Enemy.alive }

end Room

/-! ## Game engine -/

/-- The fixed journal entry written when a BOSS is defeated. -/
def victoryMemory : String :=
  "You have defeated the Shadow Lord and restored balance to the realm!"

/-- The journal entry triggered by picking up the rusty sword. -/
def swordMemory : String :=
  "You remember wielding this blade in battle against the Shadow Forces..."

/-- The journal entry triggered by picking up the ancient key. -/
def keyMemory : String :=
  "This key once opened the doors to your forgotten castle..."

/-- The journal entry triggered by picking up the crystal shard. -/
def crystalMemory : String :=
  "The crystal resonates with power - a fragment of the Realm's heart..."

/-- The game-state fields of `GameEngine` (GameEngine.h); `currentRoom` is the
key under which the pointed-at room is stored in `rooms`. -/
structure GameState where
  player : Player
  rooms : List (String × Room)
  currentRoom : String
  gameRunning : Bool
  gameWon : Bool
  turnsPlayed : Int
  finalBossDefeated : Bool
deriving DecidableEq, Repr

namespace GameState

/-- Dereference `currentRoom`. -/
def room (s : GameState) : Option Room :=
  mapFind s.rooms s.currentRoom

/-- Mutate the room that `currentRoom` points at. -/
def modifyRoom (s : GameState) (f : Room → Room) : GameState :=
  { s with rooms := mapModify s.rooms s.currentRoom f }

/-- Dereference the enemy pointer `i` of the current room. -/
def enemyAt (s : GameState) (i : Nat) : Option Enemy :=
  match s.room with
  | some r => r.enemies[i]?
  | none => none

/-- The test `enemy->alive()` on the enemy pointer `i`. -/
def enemyAlive (s : GameState) (i : Nat) : Bool :=
  match s.enemyAt i with
  | some e => e.alive
  | none => false

end GameState

/-- The helper `GameEngine::toLowerCase`: `::tolower` on every character. -/
def toLowerCase (str : String) : String :=
  String.mk (str.data.map Char.toLower)

/-- Whether the characters `pat` start the characters `s`. -/
def beginsWith : List Char → List Char → Bool
  | _, [] => true
  | [], _ :: _ => false
  | c :: cs, p :: ps => c == p && beginsWith cs ps

/-- Whether `pat` occurs in `s` at some position. -/
def occursIn (pat : List Char) : List Char → Bool
  | [] => beginsWith [] pat
  | c :: cs => beginsWith (c :: cs) pat || occursIn pat cs

/-- The test `s.find(pat) != std::string::npos`. -/
def containsStr (s pat : String) : Bool :=
  occursIn pat.data s.data

/-- What one pass of the combat loop consumes from its environment. -/
structure CombatInput where
  /-- The line read at the combat prompt. -/
  choice : String
  /-- The line read at the "Use which item?" prompt; `none` when the stream
  has ended. -/
  itemName : Option String
  /-- The draw of `uniform_int_distribution(1, 100)` of the flee branch. -/
  fleeRoll : Int
  /-- The draw of `Enemy::performAttack` of this pass. -/
  attackRoll : Int
deriving DecidableEq, Repr

/-- The condition of the attack branch of `handleCombat`, on the lower-cased
line. -/
def isAttackChoice (choice : String) : Bool :=
  choice == "1" || choice == "attack" || choice == "a" || containsStr choice "attack"

/-- The condition of the use-item branch of `handleCombat`. -/
def isUseChoice (choice : String) : Bool :=
  choice == "2" || choice == "use" || choice == "use item"

/-- The condition of the flee branch of `handleCombat`. -/
def isFleeChoice (choice : String) : Bool :=
  choice == "3" || choice == "flee" || choice == "try to flee" || containsStr choice "flee"

/-- The method `GameEngine::playerAttack` on the enemy pointer `i`. -/
def playerAttack (i : Nat) (s : GameState) : GameState :=
  let damage := s.player.getAttack
  s.modifyRoom (fun r => { r with enemies := modifyAt (fun e => e.takeDamage damage) i r.enemies })

/-- The method `GameEngine::enemyAttack` on the enemy pointer `i`; `roll` is
the draw made by `performAttack`. -/
def enemyAttack (i : Nat) (roll : Int) (s : GameState) : GameState :=
  match s.enemyAt i with
  | some e => { s with player := s.player.takeDamage (e.performAttack roll) }
  | none => s

/-- The method `GameEngine::handleUse`. -/
def handleUse (itemName : String) (s : GameState) : GameState :=
  match s.player.getItem itemName with
  | none => s
  | some item =>
    if item.type = ItemType.POTION then
      { s with player := (s.player.heal item.effect).removeItem itemName }
    else if item.type = ItemType.KEY then
      match s.room with
      | some cur =>
        if cur.id = "temple" ∧ itemName = "ancient key" then
          s.modifyRoom (fun r =>
            (r.setSpecialEvent "You unlock the hidden chamber! A passage opens to the north.").addExit
              "north" "chamber")
        else s
      | none => s
    else s

/-- One pass through the body of the `while` loop of
`GameEngine::handleCombat` after a line was read: the state afterwards and
whether the pass left the loop by `break`.  The enemy pointer of a session
always points into the current room; the `none` case of the lookup only makes
the function total. -/
def combatRound (i : Nat) (inp : CombatInput) (s : GameState) : GameState × Bool :=
  let choice := toLowerCase inp.choice
  if isAttackChoice choice then
    let s1 := playerAttack i s
    if !s1.enemyAlive i then
      match s1.enemyAt i with
      | some e =>
        let s2 := { s1 with player := s1.player.addGold e.goldReward }
        let s3 :=
          if e.type = EnemyType.BOSS then
            { s2 with finalBossDefeated := true, player := s2.player.addMemory victoryMemory }
          else s2
        (s3.modifyRoom Room.removeDeadEnemies, true)
      | none => (s1, true)
    else
      let s2 := enemyAttack i inp.attackRoll s1
      if !s2.player.isAlive then (s2, true) else (s2, false)
  else if isUseChoice choice then
    match inp.itemName with
    | some itemName => (handleUse (toLowerCase itemName) s, false)
    | none => (s, false)
  else if isFleeChoice choice then
    if inp.fleeRoll ≤ 70 then (s, true)
    else
      let s1 := enemyAttack i inp.attackRoll s
      if !s1.player.isAlive then (s1, true) else (s1, false)
  else (s, false)

/-- The method `GameEngine::handleCombat` on the enemy pointer `i`.  Every pass
of the loop reads one line at the prompt; an exhausted input list is the end
of the input stream, on which the method returns. -/
def handleCombat (i : Nat) : List CombatInput → GameState → GameState
  | [], s => s
  | inp :: rest, s =>
    if s.enemyAlive i && s.player.isAlive && s.gameRunning then
      let r := combatRound i inp s
      if r.2 then r.1 else handleCombat i rest r.1
    else s

/-- The method `GameEngine::handleAttack`: combat against the first alive enemy
of the current room, if there is one. -/
def handleAttack (inputs : List CombatInput) (s : GameState) : GameState :=
  match s.room with
  | none => s
  | some cur =>
    match firstAliveIdx cur.enemies with
    | none => s
    | some i => handleCombat i inputs s

/-- The method `GameEngine::handleMove`; `roll` is the draw of
`uniform_int_distribution(1, 100)` and `enemyType` the draw made by
`Enemy::createRandomEnemy`, both consulted only in the encounter branch. -/
def handleMove (direction : String) (roll enemyType : Int) (s : GameState) : GameState :=
  match s.room with
  | none => s
  | some cur =>
    if cur.hasAliveEnemies then s
    else
      let nextRoomId := cur.getExit direction
      if nextRoomId = "" then s
      else
        match mapFind s.rooms nextRoomId with
        | some _ =>
          let s1 := { s with currentRoom := nextRoomId }
          let s2 := s1.modifyRoom (fun r => if !r.visited then r.setVisited true else r)
          if nextRoomId = "forest" ∨ nextRoomId = "cave" then
            if roll ≤ 60 then
              s2.modifyRoom (fun r => r.addEnemy (Enemy.createRandomEnemy enemyType))
            else s2
          else s2
        | none => s

/-- The method `GameEngine::handleTake`. -/
def handleTake (itemName : String) (s : GameState) : GameState :=
  match s.room with
  | none => s
  | some cur =>
    match (cur.takeItem itemName).1 with
    | some item =>
      let s1 := s.modifyRoom (fun r => (r.takeItem itemName).2)
      let p1 := s1.player.addItem item
      let p2 :=
        if item.name = "rusty sword" then p1.addMemory swordMemory
        else if item.name = "ancient key" then p1.addMemory keyMemory
        else if item.name = "crystal shard" then p1.addMemory crystalMemory
        else p1
      let p3 := if item.type = ItemType.WEAPON then p2.equipWeapon (some item) else p2
      { s1 with player := p3 }
    | none => s

/-- The method `GameEngine::checkWinCondition`. -/
def checkWinCondition (s : GameState) : GameState :=
  if s.finalBossDefeated && s.player.hasMemory victoryMemory then
    { s with gameWon := true, gameRunning := false }
  else s

/-- The method `GameEngine::checkRoomHazards`. -/
def checkRoomHazards (s : GameState) : GameState :=
  match s.room with
  | none => s
  | some cur =>
    match cur.hazard with
    | HazardType.NONE => s
    | HazardType.POISON => { s with player := s.player.takeDamage 2 }
    | HazardType.CURSED => { s with player := s.player.takeDamage 2 }
    | HazardType.COLD => { s with player := s.player.takeDamage 1 }
    | HazardType.HOT => { s with player := s.player.takeDamage 1 }

/-! ## Command processing -/

/-- The whitespace test of stream extraction (`std::isspace` in the "C"
locale): space, tab, newline, vertical tab, form feed, carriage return. -/
def isSpace (c : Char) : Bool :=
  c == ' ' || c == '\t' || c == '\n' || c == '\x0b' || c == '\x0c' || c == '\r'

/-- The loop `while (iss >> token)` on the characters still to read; `cur` is
the token being read, most recent character first. -/
def tokensAux : List Char → List Char → List (List Char)
  | [], cur => if cur.isEmpty then [] else [cur.reverse]
  | c :: cs, cur =>
    if isSpace c then
      if cur.isEmpty then tokensAux cs [] else cur.reverse :: tokensAux cs []
    else tokensAux cs (c :: cur)

/-- The method `GameEngine::parseCommand`. -/
def parseCommand (input : String) : List String :=
  (tokensAux input.data []).map (fun w => toLowerCase (String.mk w))

/-- What `processCommand` may consume from its environment while it handles
one command: the rounds of a combat session, the draws of a move, and the line
read at the quit prompt (`none` when the stream has ended). -/
structure CommandEnv where
  combat : List CombatInput
  moveRoll : Int
  enemyType : Int
  quitLine : Option String
deriving DecidableEq, Repr

/-- The method `GameEngine::handleLook`: output only. -/
def handleLook (s : GameState) : GameState := s

/-- The method `GameEngine::handleInventory`: output only. -/
def handleInventory (s : GameState) : GameState := s

/-- The method `GameEngine::handleMemory`: output only. -/
def handleMemory (s : GameState) : GameState := s

/-- The method `GameEngine::handleSave`: output only. -/
def handleSave (s : GameState) : GameState := s

/-- The method `GameEngine::handleLoad`: output only. -/
def handleLoad (s : GameState) : GameState := s

/-- The method `GameEngine::handleHelp`: output only. -/
def handleHelp (s : GameState) : GameState := s

/-- The method `GameEngine::displayGameInfo`: output only. -/
def displayGameInfo (s : GameState) : GameState := s

/-- The method `GameEngine::handleQuit`; `response` is the line read at the
prompt, `none` when the read fails. -/
def handleQuit (response : Option String) (s : GameState) : GameState :=
  match response with
  | some line =>
    let r := toLowerCase line
    if r = "y" ∨ r = "yes" ∨ r = "1" then { s with gameRunning := false } else s
  | none => { s with gameRunning := false }

/-- The item name that the take branch of `processCommand` builds from
`command[1..]`: the words joined by single spaces, left to right. -/
def fullItemName (first : String) (more : List String) : String :=
  more.foldl (fun acc w => acc ++ " " ++ w) first

/-- The method `GameEngine::processCommand`. -/
def processCommand (command : List String) (env : CommandEnv) (s : GameState) : GameState :=
  match command with
  | [] => s
  | action :: args =>
    if action = "look" ∨ action = "l" then handleLook s
    else if action = "move" ∨ action = "go" ∨ action = "m" then
      match args with
      | direction :: _ => handleMove direction env.moveRoll env.enemyType s
      | [] => s
    else if action = "north" ∨ action = "n" then
      handleMove "north" env.moveRoll env.enemyType s
    else if action = "south" ∨ action = "s" then
      handleMove "south" env.moveRoll env.enemyType s
    else if action = "east" ∨ action = "e" then
      handleMove "east" env.moveRoll env.enemyType s
    else if action = "west" ∨ action = "w" then
      handleMove "west" env.moveRoll env.enemyType s
    else if action = "take" ∨ action = "get" ∨ action = "pick" then
      match args with
      | first :: more => handleTake (fullItemName first more) s
      | [] => s
    else if action = "use" then
      match args with
      | first :: _ => handleUse first s
      | [] => s
    else if action = "attack" ∨ action = "fight" then handleAttack env.combat s
    else if action = "inventory" ∨ action = "i" ∨ action = "inv" then handleInventory s
    else if action = "memory" ∨ action = "journal" then handleMemory s
    else if action = "save" then handleSave s
    else if action = "load" then handleLoad s
    else if action = "help" ∨ action = "h" then handleHelp s
    else if action = "quit" ∨ action = "exit" ∨ action = "q" then handleQuit env.quitLine s
    else if action = "status" ∨ action = "stats" then displayGameInfo s
    else s

/-- One pass through the body of the `while` loop of `GameEngine::gameLoop`
after the line `input` was read. -/
def gameLoopStep (input : String) (env : CommandEnv) (s : GameState) : GameState :=
  if input = "" then s
  else
    match parseCommand input with
    | [] => s
    | action :: args =>
      let s1 := processCommand (action :: args) env s
      let s2 := { s1 with turnsPlayed := s1.turnsPlayed + 1 }
      let s3 := if s2.gameRunning && s2.player.isAlive then checkRoomHazards s2 else s2
      if s3.gameRunning && s3.player.isAlive then checkWinCondition s3 else s3

/-- The method `GameEngine::gameLoop` on the lines the input stream still
holds, each with what its command consumes; the end of the list is the end of
the stream. -/
def gameLoop : List (String × CommandEnv) → GameState → GameState
  | [], s => s
  | (input, env) :: rest, s =>
    if s.gameRunning && s.player.isAlive then gameLoop rest (gameLoopStep input env s) else s

/-! ## Real-time front end -/

/-- The method `GameEngine::pickupNearbyItem`; its sound, particle and mesh
calls do not touch the game state. -/
def pickupNearbyItem (s : GameState) : GameState :=
  match s.room with
  | none => s
  | some cur =>
    match cur.items with
    | [] => s
    | first :: _ =>
      match (cur.takeItem first.name).1 with
      | some item =>
        let s1 := s.modifyRoom (fun r => (r.takeItem first.name).2)
        let p1 := s1.player.addItem item
        let p2 :=
          if item.name = "rusty sword" then p1.addMemory swordMemory
          else if item.name = "ancient key" then p1.addMemory keyMemory
          else p1
        let p3 := if item.type = ItemType.WEAPON then p2.equipWeapon (some item) else p2
        { s1 with player := p3 }
      | none => s

/-- The game state together with the combat fields of the real-time front
end; `currentEnemy` points into the enemies of the current room. -/
structure RealTimeState where
  game : GameState
  inCombat : Bool
  currentEnemy : Option Nat
deriving DecidableEq, Repr

/-- The method `GameEngine::findNearestEnemy`: the returned mesh pointer and
the state afterwards.  The local `nearest` is never assigned, so the pointer
returned is always null; `hasRenderer` tells whether `renderer` is set. -/
def findNearestEnemy (hasRenderer : Bool) (rt : RealTimeState) : Option Unit × RealTimeState :=
  if !hasRenderer then (none, rt)
  else
    let nearest : Option Unit := none
    match rt.game.room with
    | none => (nearest, rt)
    | some cur =>
      if cur.hasAliveEnemies then
        match firstAliveIdx cur.enemies with
        | some i => (nearest, { rt with currentEnemy := some i, inCombat := true })
        | none => (nearest, rt)
      else (nearest, rt)

/-- The block of `GameEngine::processKeyboardInput` guarded by `if (enemy)`:
the attack on `currentEnemy`; `roll` is the draw of `performAttack`. -/
def attackBlock (roll : Int) (rt : RealTimeState) : RealTimeState :=
  match rt.currentEnemy with
  | none => rt
  | some i =>
    if rt.game.enemyAlive i then
      let g1 := playerAttack i rt.game
      if !g1.enemyAlive i then
        match g1.enemyAt i with
        | some e =>
          { game := { g1 with player := g1.player.addGold e.goldReward },
            inCombat := false,
            currentEnemy := none }
        | none => { rt with game := g1 }
      else { rt with game := enemyAttack i roll g1 }
    else rt

/-- The left-mouse-button branch of `GameEngine::processKeyboardInput` on a
fresh press; `cooldownExpired` is the test `combatCooldown <= 0.0f`. -/
def leftClickAttack (hasRenderer cooldownExpired : Bool) (roll : Int) (rt : RealTimeState) :
    RealTimeState :=
  if !hasRenderer then rt
  else if cooldownExpired then
    match findNearestEnemy hasRenderer rt with
    | (some _, rt1) => attackBlock roll rt1
    | (none, rt1) => rt1
  else rt

/-- The method `GameEngine::updateCombat`. -/
def updateCombat (rt : RealTimeState) : RealTimeState :=
  match rt.currentEnemy with
  | none => rt
  | some i =>
    if !rt.inCombat then rt
    else if !rt.game.enemyAlive i then
      { game := rt.game.modifyRoom Room.removeDeadEnemies, inCombat := false,
        currentEnemy := none }
    else rt

/-! ## World manager -/

/-- The constructor `Item::Item`; the C++ default arguments `value = 0` and
`effect = 0` are passed explicitly. -/
def Item.new (name description : String) (type : ItemType) (value effect : Int) : Item :=
  { name := name, description := description, type := type, value := value, effect := effect }

/-- The enumerators of `ItemType::` that WorldManager.cpp names.  No source
file declares an enumeration `ItemType`. -/
inductive WorldItemKind where
  | CONSUMABLE
  | EQUIPMENT
  | WEAPON
  | KEY
  | QUEST
deriving DecidableEq, Repr

/-- The declarations WorldManager.cpp relies on and no source file provides:
the meaning of the `ItemType::` enumerators as `Item::Type` values and the
four-argument constructor `Enemy(name, int, int, int)`. -/
structure WorldDecls where
  itemType : WorldItemKind → ItemType
  makeEnemy : String → Int → Int → Int → Enemy

namespace WorldManager

/-- The method `WorldManager::createRoom`; the biome argument is not stored. -/
def createRoom (rooms : List (String × Room)) (id name description _biome : String) :
    List (String × Room) :=
  mapAssign rooms id (Room.new id name description)

/-- The method `WorldManager::connectRooms`. -/
def connectRooms (rooms : List (String × Room)) (room1 room2 direction1 direction2 : String) :
    List (String × Room) :=
  if (mapFind rooms room1).isSome && (mapFind rooms room2).isSome then
    mapModify (mapModify rooms room1 (fun r => r.addExit direction1 room2)) room2
      (fun r => r.addExit direction2 room1)
  else rooms

/-- The guarded update `if (rooms.find(id) != rooms.end()) rooms[id]->...`. -/
def inRoom (rooms : List (String × Room)) (id : String) (f : Room → Room) :
    List (String × Room) :=
  if (mapFind rooms id).isSome then mapModify rooms id f else rooms

/-- The room creations of `WorldManager::createExpandedWorld`, in source
order. -/
def createdRooms (rooms : List (String × Room)) : List (String × Room) :=
  let r := createRoom rooms "village" "Peaceful Village"
    ("You stand in the heart of a small village. Wooden houses with thatched roofs " ++
     "surround a central well. Villagers go about their daily routines. " ++
     "To the north lies the dark forest, east leads to a stone bridge over a river, " ++
     "and south stretches the dusty desert road.") "village"
  let r := createRoom r "village_market" "Village Market"
    ("A bustling marketplace filled with colorful stalls. Merchants sell their wares " ++
     "and the smell of fresh bread fills the air. You can see the village square to the west.")
    "village"
  let r := createRoom r "dark_forest" "Dark Forest"
    ("Ancient trees tower above you, their branches forming a dense canopy that blocks " ++
     "most sunlight. Strange sounds echo in the distance. A path leads deeper north, " ++
     "while south returns to the village. East leads to a clearing.") "forest"
  let r := createRoom r "forest_clearing" "Forest Clearing"
    ("A peaceful clearing bathed in dappled sunlight. Wildflowers grow in abundance. " ++
     "To the west is the dark forest path, north leads to ancient ruins.") "forest"
  let r := createRoom r "ancient_ruins" "Ancient Ruins"
    ("Crumbling stone structures covered in moss and vines. Ancient runes are carved " ++
     "into weathered stones. A sense of old magic lingers here. South returns to the " ++
     "clearing, east leads to a cave entrance.") "forest"
  let r := createRoom r "cave_entrance" "Cave Entrance"
    ("A dark opening in the mountainside. Cool, damp air flows from within. " ++
     "Water drips echoing in the darkness. West returns to the ruins, " ++
     "deeper into the cave lies north.") "cave"
  let r := createRoom r "cave_depths" "Deep Cavern"
    ("The cave opens into a vast underground chamber. Stalactites hang from the ceiling " ++
     "and an underground stream flows through. Strange crystals glow faintly. " ++
     "South leads back to the entrance, north continues deeper.") "cave"
  let r := createRoom r "crystal_chamber" "Crystal Chamber"
    ("A magnificent chamber filled with glowing crystals of all colors. Their light " ++
     "creates dancing shadows on the walls. This appears to be a place of great power. " ++
     "South returns to the main cavern, west leads to an underground lake.") "cave"
  let r := createRoom r "stone_bridge" "Ancient Stone Bridge"
    ("An old but sturdy stone bridge spans a wide river. The water rushes below. " ++
     "You can see fish swimming in the clear water. West leads back to the village, " ++
     "east continues to the castle approach.") "village"
  let r := createRoom r "castle_approach" "Castle Approach"
    ("A foreboding castle looms ahead, its dark towers reaching into the clouds. " ++
     "The stone walls are covered in creeping vines. West returns to the bridge, " ++
     "north leads to the castle gate.") "castle"
  let r := createRoom r "castle_gate" "Castle Gate"
    ("Massive iron gates stand before you, partially rusted but still imposing. " ++
     "Gargoyles glare down from above. South leads back to the approach, " ++
     "north enters the castle courtyard.") "castle"
  let r := createRoom r "castle_courtyard" "Castle Courtyard"
    ("An overgrown courtyard filled with broken statues and dead fountains. " ++
     "The main keep looms to the north. South returns to the gate, " ++
     "east leads to the throne room.") "castle"
  let r := createRoom r "throne_room" "Dark Throne Room"
    ("A grand chamber with high vaulted ceilings. An ornate throne sits on a raised " ++
     "platform. Tattered banners hang from the walls. This is where the Dark Lord " ++
     "makes his stand. West returns to the courtyard.") "castle"
  let r := createRoom r "desert_road" "Desert Road"
    ("Hot sand stretches in all directions under a blazing sun. A worn path leads " ++
     "through the dunes. North returns to the village, east leads to an oasis.") "desert"
  let r := createRoom r "desert_oasis" "Desert Oasis"
    ("A welcome sight - palm trees surround a clear pool of water. The air is cooler " ++
     "here. West returns to the desert road, north leads to ancient ruins.") "desert"
  let r := createRoom r "mountain_path" "Mountain Path"
    ("A narrow path winds up the mountainside. The air grows thin. Spectacular views " ++
     "stretch in all directions. Down leads to the desert oasis, up continues to the peak.")
    "mountain"
  let r := createRoom r "mountain_peak" "Mountain Peak"
    ("The highest point for miles. Clouds drift below you. An ancient monastery " ++
     "sits here, abandoned long ago. Down returns to the path.") "mountain"
  createRoom r "underwater_grotto" "Underwater Grotto"
    ("You've found a magical air pocket in an underwater cave. Bioluminescent plants " ++
     "provide eerie blue light. Ancient treasure might be hidden here. " ++
     "East returns to the crystal chamber through a submerged passage.") "underwater"

/-- The method `WorldManager::createExpandedWorld`: the rooms, then the
connections in source order. -/
def createExpandedWorld (rooms : List (String × Room)) : List (String × Room) :=
  let r := createdRooms rooms
  let r := connectRooms r "village" "village_market" "east" "west"
  let r := connectRooms r "village" "dark_forest" "north" "south"
  let r := connectRooms r "village" "desert_road" "south" "north"
  let r := connectRooms r "village" "stone_bridge" "east" "west"
  let r := connectRooms r "dark_forest" "forest_clearing" "east" "west"
  let r := connectRooms r "forest_clearing" "ancient_ruins" "north" "south"
  let r := connectRooms r "ancient_ruins" "cave_entrance" "east" "west"
  let r := connectRooms r "cave_entrance" "cave_depths" "north" "south"
  let r := connectRooms r "cave_depths" "crystal_chamber" "north" "south"
  let r := connectRooms r "crystal_chamber" "underwater_grotto" "west" "east"
  let r := connectRooms r "stone_bridge" "castle_approach" "east" "west"
  let r := connectRooms r "castle_approach" "castle_gate" "north" "south"
  let r := connectRooms r "castle_gate" "castle_courtyard" "north" "south"
  let r := connectRooms r "castle_courtyard" "throne_room" "east" "west"
  let r := connectRooms r "desert_road" "desert_oasis" "east" "west"
  let r := connectRooms r "desert_oasis" "mountain_path" "north" "south"
  connectRooms r "mountain_path" "mountain_peak" "up" "down"

/-- The method `WorldManager::populateWorld`. -/
def populateWorld (d : WorldDecls) (rooms : List (String × Room)) : List (String × Room) :=
  let item := fun (name description : String) (k : WorldItemKind) (value : Int) =>
    Item.new name description (d.itemType k) value 0
  let r := inRoom rooms "village" (fun r =>
    (r.addItem (item "Health Potion" "Restores 50 health" WorldItemKind.CONSUMABLE 50)).addItem
      (item "Wooden Shield" "Basic protection" WorldItemKind.EQUIPMENT 20))
  let r := inRoom r "village_market" (fun r =>
    (r.addItem (item "Steel Sword" "A sharp blade" WorldItemKind.WEAPON 35)).addItem
      (item "Traveler's Cloak" "Provides warmth" WorldItemKind.EQUIPMENT 15))
  let r := inRoom r "dark_forest" (fun r =>
    (r.addEnemy (d.makeEnemy "Forest Wolf" 40 15 5)).addItem
      (item "Forest Berries" "Restores 20 health" WorldItemKind.CONSUMABLE 20))
  let r := inRoom r "forest_clearing" (fun r =>
    (r.addEnemy (d.makeEnemy "Giant Spider" 50 20 8)).addItem
      (item "Mana Potion" "Restores magic" WorldItemKind.CONSUMABLE 40))
  let r := inRoom r "ancient_ruins" (fun r =>
    ((r.addEnemy (d.makeEnemy "Stone Guardian" 80 25 15)).addItem
      (item "Ancient Key" "Opens ancient doors" WorldItemKind.KEY 0)).addItem
      (item "Rune Tablet" "Contains ancient knowledge" WorldItemKind.QUEST 0))
  let r := inRoom r "cave_entrance" (fun r => r.addEnemy (d.makeEnemy "Cave Bat" 25 10 3))
  let r := inRoom r "cave_depths" (fun r =>
    (r.addEnemy (d.makeEnemy "Cave Troll" 100 30 20)).addItem
      (item "Crystal Shard" "Glows with magic" WorldItemKind.QUEST 0))
  let r := inRoom r "crystal_chamber" (fun r =>
    (r.addEnemy (d.makeEnemy "Crystal Elemental" 90 35 18)).addItem
      (item "Crystal Staff" "Powerful magical weapon" WorldItemKind.WEAPON 60))
  let r := inRoom r "castle_gate" (fun r => r.addEnemy (d.makeEnemy "Dark Knight" 120 40 25))
  let r := inRoom r "castle_courtyard" (fun r =>
    (r.addEnemy (d.makeEnemy "Shadow Beast" 110 38 22)).addItem
      (item "Grand Health Potion" "Fully restores health" WorldItemKind.CONSUMABLE 100))
  let r := inRoom r "throne_room" (fun r =>
    (r.addEnemy (d.makeEnemy "Dark Lord Malachar" 200 50 40)).addItem
      (item "Crown of Power" "The Dark Lord's crown" WorldItemKind.QUEST 0))
  let r := inRoom r "desert_road" (fun r => r.addEnemy (d.makeEnemy "Desert Scorpion" 45 18 10))
  let r := inRoom r "desert_oasis" (fun r =>
    (r.addItem (item "Desert Rose" "Rare healing plant" WorldItemKind.CONSUMABLE 75)).addEnemy
      (d.makeEnemy "Sand Elemental" 70 25 15))
  let r := inRoom r "mountain_path" (fun r => r.addEnemy (d.makeEnemy "Mountain Goat" 35 12 8))
  let r := inRoom r "mountain_peak" (fun r =>
    ((r.addEnemy (d.makeEnemy "Ancient Monk Spirit" 95 35 20)).addItem
      (item "Wisdom Scroll" "Teaches ancient techniques" WorldItemKind.QUEST 0)).addItem
      (item "Monk's Staff" "Balanced weapon" WorldItemKind.WEAPON 45))
  inRoom r "underwater_grotto" (fun r =>
    ((r.addEnemy (d.makeEnemy "Sea Serpent" 130 42 28)).addItem
      (item "Trident of the Depths" "Legendary weapon" WorldItemKind.WEAPON 70)).addItem
      (item "Pearl of Power" "Mystical artifact" WorldItemKind.QUEST 0))

/-- The method `WorldManager::addQuestItems`. -/
def addQuestItems (d : WorldDecls) (rooms : List (String × Room)) : List (String × Room) :=
  let r := inRoom rooms "village" (fun r =>
    r.addItem (Item.new "Quest Journal" "Tracks your adventure"
      (d.itemType WorldItemKind.QUEST) 0 0))
  inRoom r "stone_bridge" (fun r =>
    r.addItem (Item.new "Bridge Toll Token" "Allows passage" (d.itemType WorldItemKind.KEY) 0 0))

/-- The method `WorldManager::addSecrets`. -/
def addSecrets (d : WorldDecls) (rooms : List (String × Room)) : List (String × Room) :=
  let r := inRoom rooms "ancient_ruins" (fun r =>
    r.addItem (Item.new "Hidden Gold" "A secret stash" (d.itemType WorldItemKind.QUEST) 0 0))
  inRoom r "crystal_chamber" (fun r =>
    r.addItem (Item.new "Prismatic Crystal" "Extremely rare"
      (d.itemType WorldItemKind.QUEST) 0 0))

/-- The method `WorldManager::initialize` on a fresh manager (empty room
map); the source name is a reserved word of Lean. -/
def initializeWorld (d : WorldDecls) : List (String × Room) :=
  addSecrets d (addQuestItems d (populateWorld d (createExpandedWorld [])))

end WorldManager

/-- The method `GameEngine::populateWorld`: the engine always owns a world
manager, so the room map is the one `WorldManager::initialize` builds. -/
def populateWorld (d : WorldDecls) : List (String × Room) :=
  WorldManager.initializeWorld d

/-- The state in which `GameEngine::startGame` enters the game loop, or
`none` when it throws because the room map has no `village`. -/
def startGame (d : WorldDecls) (playerName : String) : Option GameState :=
  let rooms := populateWorld d
  match mapFind rooms "village" with
  | some _ =>
    some { player := Player.new playerName,
           rooms := mapModify rooms "village" (fun r => r.setVisited true),
           currentRoom := "village",
           gameRunning := true,
           gameWon := false,
           turnsPlayed := 0,
           finalBossDefeated := false }
  | none => none

/-- The game states reachable from a new game in text mode: the state in
which `startGame` enters the loop, and every state produced from a reachable
one by a command, by one round of combat, by the hazard check, by the win
check, or by a whole pass of the game loop. -/
inductive Reachable (d : WorldDecls) (playerName : String) : GameState → Prop where
  | start (s0 : GameState) : startGame d playerName = some s0 → Reachable d playerName s0
  | command (command : List String) (env : CommandEnv) (s : GameState) :
      Reachable d playerName s → Reachable d playerName (processCommand command env s)
  | round (i : Nat) (inp : CombatInput) (s : GameState) :
      Reachable d playerName s → Reachable d playerName (combatRound i inp s).1
  | hazards (s : GameState) :
      Reachable d playerName s → Reachable d playerName (checkRoomHazards s)
  | winCheck (s : GameState) :
      Reachable d playerName s → Reachable d playerName (checkWinCondition s)
  | turn (input : String) (env : CommandEnv) (s : GameState) :
      Reachable d playerName s → Reachable d playerName (gameLoopStep input env s)

/-- A set boss flag is backed by the victory memory in the journal. -/
def FlagRecorded (s : GameState) : Prop :=
  s.finalBossDefeated = true → victoryMemory ∈ s.player.memoryJournal

/-! ## Example states -/

/-- The keep of the engine's fallback world, holding `boss`. -/
def exKeep (boss : Enemy) : Room :=
  (((Room.new "keep" "Ruined Keep"
    ("The once-mighty fortress now lies in ruins. A throne room opens before you, " ++
     "where shadows seem to gather with unnatural purpose.")).addExit
      "west" "forest").addExit "south" "temple").addEnemy boss

/-- The forest of the engine's fallback world. -/
def exForest : Room :=
  ((((Room.new "forest" "Misty Forest"
    ("Dense fog swirls between ancient trees. The forest feels alive with whispers " ++
     "of the past. Strange shadows dance between the branches.")).addExit
      "south" "village").addExit "north" "cave").addExit "east" "keep").addItem
    (Item.new "iron dagger" "A sharp, well-balanced dagger" ItemType.WEAPON 20 3)

/-- The village of the engine's fallback world. -/
def exVillage : Room :=
  ((((Room.new "village" "Wrecked Village"
    "You stand in the ruins of what was once a thriving village.").addExit
      "north" "forest").addExit "east" "temple").addItem
    (Item.new "rusty sword" "An old but serviceable blade" ItemType.WEAPON 10 5)).addItem
    (Item.new "health potion" "A small vial of red liquid" ItemType.POTION 25 20)

/-- A new player standing in the keep next to `boss`, in a running game. -/
def exState (boss : Enemy) : GameState :=
  { player := Player.new "Hero",
    rooms := mapAssign (mapAssign (mapAssign [] "village" exVillage) "forest" exForest)
      "keep" (exKeep boss),
    currentRoom := "keep",
    gameRunning := true,
    gameWon := false,
    turnsPlayed := 0,
    finalBossDefeated := false }

/-- A new player standing in the village of the same world. -/
def exVillageState : GameState :=
  { exState Enemy.createBoss with currentRoom := "village" }

/-- The factory boss with 2 health points left. -/
def exWeakBoss : Enemy :=
  { Enemy.createBoss with health := 2 }

/-- The factory boss with defense `-2147483648`. -/
def exHugeArmourBoss : Enemy :=
  Enemy.new "Shadow Lord" EnemyType.BOSS 100 20 (-2147483648) 100

/-- The factory boss with 2 health points left and gold reward `2147483647`. -/
def exRichBoss : Enemy :=
  { Enemy.createBoss with health := 2, goldReward := 2147483647 }

/-- The factory boss with 4 health points left. -/
def exWoundedBoss : Enemy :=
  { Enemy.createBoss with health := 4 }

/-- The factory boss with defense 20. -/
def exArmouredBoss : Enemy :=
  Enemy.new "Shadow Lord" EnemyType.BOSS 100 20 20 100

/-- A weapon of effect `-2147483648`. -/
def exCursedBlade : Item :=
  Item.new "cursed blade" "A blade that drains its bearer" ItemType.WEAPON 0 (-2147483648)

/-- The combat input "attack" with retaliation roll `roll`. -/
def exAttack (roll : Int) : CombatInput :=
  { choice := "attack", itemName := none, fleeRoll := 1, attackRoll := roll }

/-- The combat input "flee" with flee draw `draw` and retaliation roll
`roll`. -/
def exFlee (draw roll : Int) : CombatInput :=
  { choice := "flee", itemName := none, fleeRoll := draw, attackRoll := roll }

/-- The example declarations for the world: enumerators mapped to the
`Item::Type` of the nearest name, enemies built as goblins without reward. -/
def exDecls : WorldDecls :=
  { itemType := fun k =>
      match k with
      | WorldItemKind.CONSUMABLE => ItemType.POTION
      | WorldItemKind.EQUIPMENT => ItemType.TREASURE
      | WorldItemKind.WEAPON => ItemType.WEAPON
      | WorldItemKind.KEY => ItemType.KEY
      | WorldItemKind.QUEST => ItemType.QUEST_ITEM,
    makeEnemy := fun name health attack defense =>
      Enemy.new name EnemyType.GOBLIN health attack defense 0 }

/-- The temple of the engine's fallback world. -/
def exTemple : Room :=
  ((((Room.new "temple" "Abandoned Temple"
    ("Crumbling stone pillars support a partially collapsed roof. Ancient runes glow " ++
     "faintly on the walls, hinting at forgotten power.")).addExit
      "west" "village").addExit "north" "keep").addItem
    (Item.new "ancient key" "An ornate key humming with power" ItemType.KEY 0 0)).addItem
    (Item.new "crystal shard" "A glowing fragment of pure energy" ItemType.QUEST_ITEM 100 0)

/-- The hidden chamber of the engine's fallback world, with its hazard. -/
def exChamber : Room :=
  (((Room.new "chamber" "Hidden Chamber"
    ("A secret chamber revealed by the ancient key. Mystical energy fills the air, " ++
     "and a portal of swirling darkness dominates the center.")).addExit
      "south" "temple").setHazard HazardType.CURSED).addItem
    (Item.new "legendary blade" "The weapon of a forgotten hero" ItemType.WEAPON 200 15)

/-- A new player standing in the room stored under `key` of a map holding the
village, the temple and the chamber of the fallback world. -/
def exWorldState (key : String) : GameState :=
  { player := Player.new "Hero",
    rooms := mapAssign (mapAssign (mapAssign [] "village" exVillage) "temple" exTemple)
      "chamber" exChamber,
    currentRoom := key,
    gameRunning := true,
    gameWon := false,
    turnsPlayed := 0,
    finalBossDefeated := false }

/-- An environment for commands that consume nothing. -/
def exEnv : CommandEnv :=
  { combat := [], moveRoll := 100, enemyType := 0, quitLine := none }

/-- A new player who has equipped the cursed blade, in the keep next to the
armoured boss. -/
def exCursedState : GameState :=
  { exState exArmouredBoss with
    player := (Player.new "Hero").equipWeapon (some exCursedBlade) }

/-- A POTION of effect `2147483647`. -/
def exElixir : Item :=
  Item.new "elixir" "A vial that glows too brightly" ItemType.POTION 0 2147483647

/-- A new player in the village holding the elixir. -/
def exElixirState : GameState :=
  { exWorldState "village" with player := (Player.new "Hero").addItem exElixir }

/-- A player in the village who took the health potion and then lost 40 health
points to a hit of 45. -/
def exWoundedState : GameState :=
  { handleTake "health potion" (exWorldState "village") with
    player := (handleTake "health potion" (exWorldState "village")).player.takeDamage 45 }

/-! ## Call sequences on a player -/

/-- One call of a state-changing `Player` method of the stats group. -/
inductive PlayerOp where
  | takeDamage (damage : Int)
  | heal (amount : Int)
  | addGold (amount : Int)
  | spendGold (amount : Int)
deriving DecidableEq, Repr

/-- The player after the call. -/
def PlayerOp.run (p : Player) : PlayerOp → Player
  | PlayerOp.takeDamage damage => p.takeDamage damage
  | PlayerOp.heal amount => p.heal amount
  | PlayerOp.addGold amount => p.addGold amount
  | PlayerOp.spendGold amount => (p.spendGold amount).1

/-- The amounts of `heal`, `addGold` and `spendGold` are not negative. -/
def PlayerOp.valid : PlayerOp → Bool
  | PlayerOp.takeDamage _ => true
  | PlayerOp.heal amount => decide (0 ≤ amount)
  | PlayerOp.addGold amount => decide (0 ≤ amount)
  | PlayerOp.spendGold amount => decide (0 ≤ amount)

/-- No addition of the call sequence overflows: every `heal` finds
`health + amount` and every `addGold` finds `gold + amount` within the range of
`int`, on the player as the calls before it left it. -/
def PlayerOp.noOverflow : Player → List PlayerOp → Bool
  | _, [] => true
  | p, PlayerOp.heal amount :: rest =>
    decide (fitsInt (p.health + amount)) && PlayerOp.noOverflow (p.heal amount) rest
  | p, PlayerOp.addGold amount :: rest =>
    decide (fitsInt (p.gold + amount)) && PlayerOp.noOverflow (p.addGold amount) rest
  | p, op :: rest => PlayerOp.noOverflow (op.run p) rest

/-- A new player in the fallback temple after the ancient key was picked up:
the first item of the room is the crystal shard. -/
def exShardState : GameState :=
  handleTake "ancient key" (exWorldState "temple")

/-- The real-time state over `game` outside combat. -/
def exRealTime (game : GameState) : RealTimeState :=
  { game := game, inCombat := false, currentEnemy := none }

/-- Declarations for the world under which the 4-argument `Enemy` constructor
builds an enemy of type BOSS. -/
def exBossDecls : WorldDecls :=
  { exDecls with
    makeEnemy := fun name health attack defense =>
      Enemy.new name EnemyType.BOSS health attack defense 0 }

/-- The state in which a new game with these declarations starts. -/
def exBossStart : GameState :=
  (startGame exBossDecls "Hero").getD (exWorldState "village")

/-- An environment for an attack command answered by eight attack choices, the
enemy's retaliation roll being 13 each time. -/
def exWolfFight : CommandEnv :=
  { combat := List.replicate 8 (exAttack 13), moveRoll := 100, enemyType := 0,
    quitLine := none }

/-- The new game after the commands north and attack: the player has entered
the dark forest and fought the Forest Wolf (health 40, attack 15, defense 5)
for eight rounds. -/
def exVictoryState : GameState :=
  processCommand ["attack"] exWolfFight (processCommand ["north"] exEnv exBossStart)

/-! ## Specification predicates -/

/-- The state invariant of an enemy: the health stays within `0..maxHealth`
and a cleared `isAlive` flag means the health is zero. -/
def Enemy.Inv (e : Enemy) : Prop :=
  0 ≤ e.health ∧ e.health ≤ e.maxHealth ∧ (e.isAlive = false → e.health = 0)

/-- The boss has been defeated and recorded: the flag is set, the victory
memory is in the journal, and the journal has no repeated entry. -/
def BossRecorded (s : GameState) : Prop :=
  s.finalBossDefeated = true ∧ victoryMemory ∈ s.player.memoryJournal ∧
    s.player.memoryJournal.Nodup

/-- The room graph of a room map: every key with the id and the exits of the
room stored under it. -/
def exitTable (rooms : List (String × Room)) : List (String × String × List (String × String)) :=
  rooms.map (fun kv => (kv.1, kv.2.id, kv.2.exits))

/-- The room reached from the room stored under `start` by following the
directions in order, as `handleMove` resolves them when no enemy blocks the
way; `none` when a direction has no exit or the exit names no room. -/
def followExits (rooms : List (String × Room)) : String → List String → Option String
  | cur, [] => some cur
  | cur, direction :: rest =>
    match mapFind rooms cur with
    | none => none
    | some r =>
      if r.getExit direction = "" then none
      else if (mapFind rooms (r.getExit direction)).isSome then
        followExits rooms (r.getExit direction) rest
      else none

/-- The room ids of the world other than `village_market`, each with a list
of directions that leads there from the village. -/
def worldPaths : List (String × List String) :=
  [("village", []),
   ("dark_forest", ["north"]),
   ("forest_clearing", ["north", "east"]),
   ("ancient_ruins", ["north", "east", "north"]),
   ("cave_entrance", ["north", "east", "north", "east"]),
   ("cave_depths", ["north", "east", "north", "east", "north"]),
   ("crystal_chamber", ["north", "east", "north", "east", "north", "north"]),
   ("underwater_grotto", ["north", "east", "north", "east", "north", "north", "west"]),
   ("stone_bridge", ["east"]),
   ("castle_approach", ["east", "east"]),
   ("castle_gate", ["east", "east", "north"]),
   ("castle_courtyard", ["east", "east", "north", "north"]),
   ("throne_room", ["east", "east", "north", "north", "east"]),
   ("desert_road", ["south"]),
   ("desert_oasis", ["south", "east"]),
   ("mountain_path", ["south", "east", "north"]),
   ("mountain_peak", ["south", "east", "north", "up"])]

/-- The maximal whitespace-free runs of a character sequence, in order: the
pieces between whitespace characters that are not empty. -/
def specRuns (cs : List Char) : List (List Char) :=
  (cs.splitOnP isSpace).filter (fun w => !w.isEmpty)

/-- The token list the specification describes for `parseCommand`: the
maximal whitespace-free runs of the input, each lower-cased. -/
def parseCommandSpec (input : String) : List String :=
  (specRuns input.data).map (fun w => String.mk (w.map Char.toLower))

/-! ## Theorems -/

/-! ### Machine integers -/

theorem wrapInt_of_fits (n : Int) (h : fitsInt n) : wrapInt n = n := by
  unfold fitsInt at h
  unfold wrapInt
  omega

theorem fitsInt_wrapInt (n : Int) : fitsInt (wrapInt n) := by
  unfold fitsInt wrapInt
  omega

/-! ### Enemy health and the alive flag -/

theorem Enemy.takeDamage_health (e : Enemy) (damage : Int) :
    (e.takeDamage damage).health =
      max 0 (wrapInt (e.health - max 1 (wrapInt (damage - e.defense)))) := by
  unfold Enemy.takeDamage
  dsimp only
  split <;> rfl

theorem Enemy.takeDamage_maxHealth (e : Enemy) (damage : Int) :
    (e.takeDamage damage).maxHealth = e.maxHealth := by
  unfold Enemy.takeDamage
  dsimp only
  split <;> rfl

theorem Enemy.takeDamage_isAlive (e : Enemy) (damage : Int) :
    (e.takeDamage damage).isAlive =
      (e.isAlive &&
        decide (0 < max 0 (wrapInt (e.health - max 1 (wrapInt (damage - e.defense)))))) := by
  unfold Enemy.takeDamage
  dsimp only
  split
  · rename_i h
    have : ¬ (0 < max 0 (wrapInt (e.health - max 1 (wrapInt (damage - e.defense))))) := by
      omega
    simp [this]
  · rename_i h
    have : 0 < max 0 (wrapInt (e.health - max 1 (wrapInt (damage - e.defense)))) := by omega
    simp [this]

/-- When neither subtraction of `Enemy::takeDamage` overflows, the new health
is the one of the arithmetic over the integers. -/
theorem Enemy.takeDamage_health_of_fits (e : Enemy) (damage : Int)
    (h1 : fitsInt (damage - e.defense))
    (h2 : fitsInt (e.health - max 1 (damage - e.defense))) :
    (e.takeDamage damage).health = max 0 (e.health - max 1 (damage - e.defense)) := by
  rw [Enemy.takeDamage_health, wrapInt_of_fits _ h1, wrapInt_of_fits _ h2]

theorem Enemy.takeDamage_health_le (e : Enemy) (damage : Int) (h : 0 ≤ e.health) :
    (e.takeDamage damage).health ≤ e.health := by
  rw [Enemy.takeDamage_health]
  unfold wrapInt
  omega

theorem Enemy.Inv_new (name : String) (type : EnemyType) (health attack defense goldReward : Int)
    (hpos : 0 < health) : (Enemy.new name type health attack defense goldReward).Inv := by
  refine ⟨?_, ?_, ?_⟩
  · exact le_of_lt hpos
  · exact le_refl _
  · intro h
    exact absurd h (by simp [Enemy.new])

theorem Enemy.Inv_takeDamage (e : Enemy) (damage : Int) (h : e.Inv) :
    (e.takeDamage damage).Inv := by
  obtain ⟨h0, hmax, hflag⟩ := h
  refine ⟨?_, ?_, ?_⟩
  · rw [Enemy.takeDamage_health]
    exact le_max_left _ _
  · rw [Enemy.takeDamage_maxHealth]
    exact le_trans (Enemy.takeDamage_health_le e damage h0) hmax
  · intro hf
    rw [Enemy.takeDamage_isAlive] at hf
    rw [Enemy.takeDamage_health]
    cases hA : e.isAlive with
    | false =>
      have := hflag hA
      rw [this]
      unfold wrapInt
      omega
    | true =>
      rw [hA] at hf
      simp only [Bool.true_and, decide_eq_false_iff_not] at hf
      omega

theorem Enemy.Inv_takeDamages (ds : List Int) (e : Enemy) (h : e.Inv) :
    (takeDamages e ds).Inv := by
  induction ds generalizing e with
  | nil => exact h
  | cons d ds ih => exact ih (e.takeDamage d) (Enemy.Inv_takeDamage e d h)

theorem Enemy.alive_iff_of_Inv (e : Enemy) (h : e.Inv) : e.alive = true ↔ 0 < e.health := by
  obtain ⟨_, _, hflag⟩ := h
  unfold Enemy.alive
  constructor
  · intro ha
    simp at ha
    exact ha.2
  · intro hp
    cases hA : e.isAlive with
    | false => have := hflag hA; omega
    | true => simp [hp]

theorem Enemy.takeDamage_dead (e : Enemy) (damage : Int) (h0 : 0 ≤ e.health)
    (h : e.alive = false) : (e.takeDamage damage).alive = false := by
  unfold Enemy.alive at h ⊢
  rw [Enemy.takeDamage_isAlive, Enemy.takeDamage_health]
  cases hA : e.isAlive with
  | false => simp
  | true =>
    rw [hA] at h
    simp only [Bool.true_and, decide_eq_false_iff_not] at h
    have h3 : e.health = 0 := by omega
    have : ¬ (0 < max 0 (wrapInt (e.health - max 1 (wrapInt (damage - e.defense))))) := by
      rw [h3]
      unfold wrapInt
      omega
    simp [this]

theorem Enemy.takeDamage_nonneg_health (e : Enemy) (damage : Int) :
    0 ≤ (e.takeDamage damage).health := by
  rw [Enemy.takeDamage_health]
  exact le_max_left _ _

theorem Enemy.takeDamages_dead (ds : List Int) (e : Enemy) (h0 : 0 ≤ e.health)
    (h : e.alive = false) : (takeDamages e ds).alive = false := by
  induction ds generalizing e with
  | nil => exact h
  | cons d ds ih =>
    exact ih (e.takeDamage d) (Enemy.takeDamage_nonneg_health e d)
      (Enemy.takeDamage_dead e d h0 h)

/-! ### Maps, vectors and the current room -/

theorem mapFind_mapModify {α : Type} (m : List (String × α)) (k k' : String) (f : α → α) :
    mapFind (mapModify m k f) k' =
      if k' = k then (mapFind m k').map f else mapFind m k' := by
  induction m with
  | nil => simp [mapModify, mapFind]
  | cons hd tl ih =>
    obtain ⟨a, v⟩ := hd
    by_cases hak : a = k
    · by_cases hk : k' = k
      · simp [mapModify, mapFind, hak, hk]
      · have hk2 : ¬ k = k' := fun h => hk h.symm
        simp [mapModify, mapFind, hak, hk, hk2]
    · by_cases hk : k' = k
      · subst hk
        simp only [if_true] at ih
        simp [mapModify, mapFind, hak, ih]
      · by_cases hak2 : a = k'
        · subst hak2
          simp [mapModify, mapFind, hak]
        · simp [mapModify, mapFind, hak, hak2, ih, hk]

theorem mapModify_congr {α : Type} (m : List (String × α)) (k : String) (f g : α → α)
    (h : ∀ v, mapFind m k = some v → f v = g v) : mapModify m k f = mapModify m k g := by
  induction m with
  | nil => rfl
  | cons hd tl ih =>
    obtain ⟨a, v⟩ := hd
    by_cases hak : a = k
    · have := h v (by simp [mapFind, hak])
      simp [mapModify, hak, this]
    · have h2 : ∀ v, mapFind tl k = some v → f v = g v := by
        intro w hw
        exact h w (by simp [mapFind, hak, hw])
      simp [mapModify, hak, ih h2]

theorem mapModify_id {α : Type} (m : List (String × α)) (k : String) :
    mapModify m k (fun v => v) = m := by
  induction m with
  | nil => rfl
  | cons hd tl ih =>
    obtain ⟨a, v⟩ := hd
    by_cases hak : a = k
    · simp [mapModify, hak]
    · simp [mapModify, hak, ih]

theorem mapModify_mapModify {α : Type} (m : List (String × α)) (k : String) (f g : α → α) :
    mapModify (mapModify m k f) k g = mapModify m k (fun v => g (f v)) := by
  induction m with
  | nil => rfl
  | cons hd tl ih =>
    obtain ⟨a, v⟩ := hd
    by_cases hak : a = k
    · simp [mapModify, hak]
    · simp [mapModify, hak, ih]

theorem getElem?_modifyAt {α : Type} (f : α → α) (i : Nat) (l : List α) :
    (modifyAt f i l)[i]? = (l[i]?).map f := by
  induction l generalizing i with
  | nil => simp [modifyAt]
  | cons x xs ih =>
    cases i with
    | zero => simp [modifyAt]
    | succ n => simp [modifyAt, ih]

theorem length_modifyAt {α : Type} (f : α → α) (i : Nat) (l : List α) :
    (modifyAt f i l).length = l.length := by
  induction l generalizing i with
  | nil => simp [modifyAt]
  | cons x xs ih =>
    cases i with
    | zero => simp [modifyAt]
    | succ n => simp [modifyAt, ih]

theorem modifyAt_eq_set {α : Type} (f : α → α) (i : Nat) (l : List α) (x : α)
    (h : l[i]? = some x) : modifyAt f i l = l.set i (f x) := by
  induction l generalizing i with
  | nil => simp at h
  | cons y ys ih =>
    cases i with
    | zero =>
      simp at h
      simp [modifyAt, h]
    | succ n =>
      simp at h
      simp [modifyAt, ih n h]

theorem filter_modifyAt_dead {α : Type} (p : α → Bool) (f : α → α) (i : Nat) (l : List α)
    (x : α) (h : l[i]? = some x) (hd : p (f x) = false) :
    (modifyAt f i l).filter p = (l.eraseIdx i).filter p := by
  induction l generalizing i with
  | nil => simp at h
  | cons y ys ih =>
    cases i with
    | zero =>
      simp at h
      simp [modifyAt, h, hd]
    | succ n =>
      simp at h
      simp [modifyAt, List.filter_cons, ih n h]

namespace GameState

theorem room_modifyRoom (s : GameState) (f : Room → Room) :
    (s.modifyRoom f).room = s.room.map f := by
  simp [modifyRoom, room, mapFind_mapModify]

theorem enemyAt_of_room (s : GameState) (cur : Room) (i : Nat) (h : s.room = some cur) :
    s.enemyAt i = cur.enemies[i]? := by
  simp [enemyAt, h]

theorem modifyRoom_modifyRoom (s : GameState) (f g : Room → Room) :
    (s.modifyRoom f).modifyRoom g = s.modifyRoom (fun r => g (f r)) := by
  simp [modifyRoom, mapModify_mapModify]

end GameState

/-! ### Combat rounds -/

theorem playerAttack_room (s : GameState) (cur : Room) (i : Nat) (h : s.room = some cur) :
    (playerAttack i s).room =
      some { cur with
        enemies := modifyAt (fun e => e.takeDamage s.player.getAttack) i cur.enemies } := by
  simp [playerAttack, GameState.room_modifyRoom, h]

theorem playerAttack_enemyAt (s : GameState) (cur : Room) (i : Nat) (e : Enemy)
    (h : s.room = some cur) (he : cur.enemies[i]? = some e) :
    (playerAttack i s).enemyAt i = some (e.takeDamage s.player.getAttack) := by
  rw [GameState.enemyAt_of_room _ _ i (playerAttack_room s cur i h)]
  simp [getElem?_modifyAt, he]

theorem Enemy.takeDamage_type (e : Enemy) (damage : Int) :
    (e.takeDamage damage).type = e.type := by
  unfold Enemy.takeDamage
  dsimp only
  split <;> rfl

theorem Enemy.takeDamage_goldReward (e : Enemy) (damage : Int) :
    (e.takeDamage damage).goldReward = e.goldReward := by
  unfold Enemy.takeDamage
  dsimp only
  split <;> rfl

theorem Enemy.takeDamage_alive_iff (e : Enemy) (damage : Int) (h : e.alive = true)
    (h1 : fitsInt (damage - e.defense))
    (h2 : fitsInt (e.health - max 1 (damage - e.defense))) :
    (e.takeDamage damage).alive = true ↔ max 1 (damage - e.defense) < e.health := by
  unfold Enemy.alive at h ⊢
  rw [Enemy.takeDamage_isAlive, Enemy.takeDamage_health, wrapInt_of_fits _ h1,
    wrapInt_of_fits _ h2]
  simp only [Bool.and_eq_true, decide_eq_true_eq] at h
  constructor
  · intro ha
    simp only [Bool.and_eq_true, decide_eq_true_eq] at ha
    omega
  · intro hlt
    have : 0 < max 0 (e.health - max 1 (damage - e.defense)) := by omega
    simp [h.1, this]

theorem Player.mem_addMemory (p : Player) (m : String) : m ∈ (p.addMemory m).memoryJournal := by
  unfold Player.addMemory Player.hasMemory
  by_cases h : m ∈ p.memoryJournal
  · simp [h]
  · simp [h]

theorem Player.addMemory_nodup (p : Player) (m : String) (h : p.memoryJournal.Nodup) :
    (p.addMemory m).memoryJournal.Nodup := by
  unfold Player.addMemory Player.hasMemory
  by_cases hm : m ∈ p.memoryJournal
  · simp [hm, h]
  · simp only [hm, decide_False, Bool.not_false, if_true]
    exact List.Nodup.append h (List.nodup_singleton m) (by simpa using hm)

theorem Player.addMemory_subset (p : Player) (m x : String) (h : x ∈ p.memoryJournal) :
    x ∈ (p.addMemory m).memoryJournal := by
  unfold Player.addMemory
  split
  · simp [h]
  · exact h

theorem enemyAttack_alive (s : GameState) (i : Nat) (e : Enemy) (roll : Int)
    (he : s.enemyAt i = some e) (halive : e.alive = true) :
    enemyAttack i roll s = { s with player := s.player.takeDamage (max 1 roll) } := by
  simp [enemyAttack, he, Enemy.performAttack, halive]

theorem Enemy.takeDamage_of_survives (e : Enemy) (damage : Int)
    (h1 : fitsInt (damage - e.defense))
    (h2 : fitsInt (e.health - max 1 (damage - e.defense)))
    (h : max 1 (damage - e.defense) < e.health) :
    e.takeDamage damage = { e with health := e.health - max 1 (damage - e.defense) } := by
  have hm : max 0 (e.health - max 1 (damage - e.defense)) =
      e.health - max 1 (damage - e.defense) := max_eq_right (by omega)
  unfold Enemy.takeDamage
  dsimp only
  rw [wrapInt_of_fits _ h1, wrapInt_of_fits _ h2, hm]
  split
  · omega
  · rfl

theorem Player.isAlive_eq_false_iff (p : Player) (h : 0 ≤ p.health) :
    p.isAlive = false ↔ p.health = 0 := by
  unfold Player.isAlive
  simp
  omega

theorem Player.takeDamage_health_nonneg (p : Player) (damage : Int) :
    0 ≤ (p.takeDamage damage).health := le_max_left _ _

theorem Enemy.takeDamage_dead_of_le (e : Enemy) (damage : Int) (halive : e.alive = true)
    (h1 : fitsInt (damage - e.defense))
    (hkill : e.health ≤ max 1 (damage - e.defense)) : (e.takeDamage damage).alive = false := by
  have hpos : 0 < e.health := by
    unfold Enemy.alive at halive
    simp only [Bool.and_eq_true, decide_eq_true_eq] at halive
    exact halive.2
  have h2 : fitsInt (e.health - max 1 (damage - e.defense)) := by
    unfold fitsInt at h1 ⊢
    omega
  have := (Enemy.takeDamage_alive_iff e damage halive h1 h2).not
  simpa using this.mpr (by omega)

theorem combatRound_kill (s : GameState) (cur : Room) (i : Nat) (e : Enemy) (inp : CombatInput)
    (hroom : s.room = some cur) (he : cur.enemies[i]? = some e)
    (hchoice : isAttackChoice (toLowerCase inp.choice) = true)
    (hdead : (e.takeDamage s.player.getAttack).alive = false) :
    combatRound i inp s =
      ((if e.type = EnemyType.BOSS then
          { (playerAttack i s) with
            finalBossDefeated := true,
            player := ((playerAttack i s).player.addGold e.goldReward).addMemory victoryMemory }
        else { (playerAttack i s) with
            player := (playerAttack i s).player.addGold e.goldReward }).modifyRoom
          Room.removeDeadEnemies, true) := by
  have hat := playerAttack_enemyAt s cur i e hroom he
  have hal : (playerAttack i s).enemyAlive i = false := by
    simp [GameState.enemyAlive, hat, hdead]
  simp only [combatRound, hchoice, hal, hat, if_true, Bool.not_false,
    Enemy.takeDamage_type, Enemy.takeDamage_goldReward]

theorem combatRound_survive (s : GameState) (cur : Room) (i : Nat) (e : Enemy)
    (inp : CombatInput)
    (hroom : s.room = some cur) (he : cur.enemies[i]? = some e)
    (hchoice : isAttackChoice (toLowerCase inp.choice) = true)
    (hsurv : (e.takeDamage s.player.getAttack).alive = true) :
    combatRound i inp s =
      ({ (playerAttack i s) with
          player := (playerAttack i s).player.takeDamage (max 1 inp.attackRoll) },
        !((playerAttack i s).player.takeDamage (max 1 inp.attackRoll)).isAlive) := by
  have hat := playerAttack_enemyAt s cur i e hroom he
  have hal : (playerAttack i s).enemyAlive i = true := by
    simp [GameState.enemyAlive, hat, hsurv]
  have hea := enemyAttack_alive (playerAttack i s) i _ inp.attackRoll hat hsurv
  simp only [combatRound, hchoice, hal, if_true, Bool.not_true, hea]
  cases hA : ((playerAttack i s).player.takeDamage (max 1 inp.attackRoll)).isAlive <;> simp

theorem survive_room (s : GameState) (cur : Room) (i : Nat) (e : Enemy) (inp : CombatInput)
    (hroom : s.room = some cur) (he : cur.enemies[i]? = some e)
    (hchoice : isAttackChoice (toLowerCase inp.choice) = true)
    (hsurv : (e.takeDamage s.player.getAttack).alive = true) :
    (combatRound i inp s).1.room =
      some { cur with enemies := cur.enemies.set i (e.takeDamage s.player.getAttack) } := by
  rw [combatRound_survive s cur i e inp hroom he hchoice hsurv]
  have : ({ (playerAttack i s) with
        player := (playerAttack i s).player.takeDamage (max 1 inp.attackRoll) } :
        GameState).room = (playerAttack i s).room := rfl
  rw [this, playerAttack_room s cur i hroom, modifyAt_eq_set _ i cur.enemies e he]

theorem getElem?_lt {α : Type} (l : List α) (i : Nat) (x : α) (h : l[i]? = some x) :
    i < l.length := by
  rcases Nat.lt_or_ge i l.length with h1 | h1
  · exact h1
  · rw [List.getElem?_eq_none h1] at h; cases h

/-! ### The journal and the boss flag across combat -/

theorem firstAliveIdx_of_find (l : List Enemy) (e : Enemy) (h : l.find? Enemy.alive = some e) :
    ∃ i, firstAliveIdx l = some i ∧ l[i]? = some e ∧ e.alive = true := by
  induction l with
  | nil => simp at h
  | cons x xs ih =>
    by_cases hx : x.alive = true
    · simp [List.find?, hx] at h
      exact ⟨0, by simp [firstAliveIdx, hx], by simp [h], by rw [← h]; exact hx⟩
    · simp [List.find?, hx] at h
      obtain ⟨j, hj, hje, hja⟩ := ih h
      exact ⟨j + 1, by simp [firstAliveIdx, hx, hj], by simpa using hje, hja⟩

theorem find_of_firstAliveIdx (l : List Enemy) (i : Nat) (h : firstAliveIdx l = some i) :
    ∃ e, l.find? Enemy.alive = some e ∧ l[i]? = some e ∧ e.alive = true := by
  induction l generalizing i with
  | nil => simp [firstAliveIdx] at h
  | cons x xs ih =>
    by_cases hx : x.alive = true
    · simp [firstAliveIdx, hx] at h
      subst h
      exact ⟨x, by simp [List.find?, hx], by simp, hx⟩
    · simp [firstAliveIdx, hx] at h
      obtain ⟨j, hj, hji⟩ := h
      obtain ⟨e, h1, h2, h3⟩ := ih j hj
      subst hji
      exact ⟨e, by simp [List.find?, hx, h1], by simpa using h2, h3⟩

theorem Player.addMemory_journal (p : Player) (m : String) :
    (p.addMemory m).memoryJournal =
      if m ∈ p.memoryJournal then p.memoryJournal else p.memoryJournal ++ [m] := by
  unfold Player.addMemory Player.hasMemory
  by_cases h : m ∈ p.memoryJournal <;> simp [h]

theorem enemyAttack_frame (i : Nat) (roll : Int) (s : GameState) :
    (enemyAttack i roll s).finalBossDefeated = s.finalBossDefeated ∧
    (enemyAttack i roll s).player.memoryJournal = s.player.memoryJournal := by
  unfold enemyAttack
  cases s.enemyAt i <;> exact ⟨rfl, rfl⟩

theorem handleUse_frame (itemName : String) (s : GameState) :
    (handleUse itemName s).finalBossDefeated = s.finalBossDefeated ∧
    (handleUse itemName s).player.memoryJournal = s.player.memoryJournal := by
  unfold handleUse
  cases s.player.getItem itemName with
  | none => exact ⟨rfl, rfl⟩
  | some item =>
    dsimp only
    split
    · exact ⟨rfl, rfl⟩
    · split
      · cases s.room with
        | none => exact ⟨rfl, rfl⟩
        | some cur =>
          dsimp only
          split <;> exact ⟨rfl, rfl⟩
      · exact ⟨rfl, rfl⟩

/-- What one pass of the combat loop can do to the boss flag and the journal:
nothing, or set the flag and add the victory memory. -/
theorem combatRound_flags (i : Nat) (inp : CombatInput) (s : GameState) :
    ((combatRound i inp s).1.finalBossDefeated = s.finalBossDefeated ∧
      (combatRound i inp s).1.player.memoryJournal = s.player.memoryJournal) ∨
    ((combatRound i inp s).1.finalBossDefeated = true ∧
      (combatRound i inp s).1.player.memoryJournal =
        (s.player.addMemory victoryMemory).memoryJournal) := by
  unfold combatRound
  dsimp only
  split
  · split
    · cases hE : (playerAttack i s).enemyAt i with
      | none => exact Or.inl ⟨rfl, rfl⟩
      | some e =>
        dsimp only
        split
        · right
          refine ⟨rfl, ?_⟩
          simp only [GameState.modifyRoom, Player.addMemory_journal]
          rfl
        · exact Or.inl ⟨rfl, rfl⟩
    · have := enemyAttack_frame i inp.attackRoll (playerAttack i s)
      split <;> exact Or.inl this
  · split
    · cases inp.itemName with
      | none => exact Or.inl ⟨rfl, rfl⟩
      | some n => exact Or.inl (handleUse_frame _ s)
    · split
      · split
        · exact Or.inl ⟨rfl, rfl⟩
        · have := enemyAttack_frame i inp.attackRoll s
          split <;> exact Or.inl this
      · exact Or.inl ⟨rfl, rfl⟩

theorem handleCombat_preserves (P : GameState → Prop)
    (hP : ∀ i inp s, P s → P (combatRound i inp s).1)
    (i : Nat) (inputs : List CombatInput) (s : GameState) (h : P s) :
    P (handleCombat i inputs s) := by
  induction inputs generalizing s with
  | nil => exact h
  | cons inp rest ih =>
    unfold handleCombat
    split
    · dsimp only
      split
      · exact hP i inp s h
      · exact ih _ (hP i inp s h)
    · exact h

theorem handleAttack_preserves (P : GameState → Prop)
    (hP : ∀ i inp s, P s → P (combatRound i inp s).1)
    (inputs : List CombatInput) (s : GameState) (h : P s) :
    P (handleAttack inputs s) := by
  unfold handleAttack
  cases s.room with
  | none => exact h
  | some cur =>
    dsimp only
    cases firstAliveIdx cur.enemies with
    | none => exact h
    | some i => exact handleCombat_preserves P hP i inputs s h

theorem combatRound_nodup (i : Nat) (inp : CombatInput) (s : GameState)
    (h : s.player.memoryJournal.Nodup) : (combatRound i inp s).1.player.memoryJournal.Nodup := by
  rcases combatRound_flags i inp s with ⟨_, h2⟩ | ⟨_, h2⟩
  · rw [h2]; exact h
  · rw [h2]; exact Player.addMemory_nodup _ _ h

theorem combatRound_bossRecorded (i : Nat) (inp : CombatInput) (s : GameState)
    (h : BossRecorded s) : BossRecorded (combatRound i inp s).1 := by
  obtain ⟨hf, hm, hn⟩ := h
  refine ⟨?_, ?_, combatRound_nodup i inp s hn⟩
  · rcases combatRound_flags i inp s with ⟨h1, _⟩ | ⟨h1, _⟩
    · rw [h1]; exact hf
    · exact h1
  · rcases combatRound_flags i inp s with ⟨_, h2⟩ | ⟨_, h2⟩
    · rw [h2]; exact hm
    · rw [h2]; exact Player.addMemory_subset _ _ _ hm

theorem Enemy.health_pos_of_alive (e : Enemy) (h : e.alive = true) : 0 < e.health := by
  unfold Enemy.alive at h
  simp at h
  exact h.2

theorem eraseIdx_set_self {α : Type} (l : List α) (i : Nat) (x : α) :
    (l.set i x).eraseIdx i = l.eraseIdx i := by
  induction l generalizing i with
  | nil => rfl
  | cons y ys ih =>
    cases i with
    | zero => rfl
    | succ n => simp [List.set, List.eraseIdx, ih n]

/-- The room and the gold after a round in which the hit kills the enemy. -/
theorem kill_room_gold (s : GameState) (cur : Room) (i : Nat) (e : Enemy) (inp : CombatInput)
    (hroom : s.room = some cur) (he : cur.enemies[i]? = some e)
    (hchoice : isAttackChoice (toLowerCase inp.choice) = true)
    (hdead : (e.takeDamage s.player.getAttack).alive = false) :
    (combatRound i inp s).1.room =
      some { cur with enemies := (cur.enemies.eraseIdx i).filter Enemy.alive } ∧
    (combatRound i inp s).1.player.gold = wrapInt (s.player.gold + e.goldReward) ∧
    (combatRound i inp s).1.player.health = s.player.health ∧
    (combatRound i inp s).1.currentRoom = s.currentRoom := by
  have hrm := playerAttack_room s cur i hroom
  have hfilter := filter_modifyAt_dead Enemy.alive
    (fun e => e.takeDamage s.player.getAttack) i cur.enemies e he hdead
  have hround := combatRound_kill s cur i e inp hroom he hchoice hdead
  have key : ∀ t : GameState, t.rooms = (playerAttack i s).rooms →
      t.currentRoom = (playerAttack i s).currentRoom →
      (t.modifyRoom Room.removeDeadEnemies).room =
        some { cur with enemies := (cur.enemies.eraseIdx i).filter Enemy.alive } := by
    intro t h1 h2
    have ht : t.room = (playerAttack i s).room := by
      simp [GameState.room, h1, h2]
    rw [GameState.room_modifyRoom, ht, hrm]
    simp [Room.removeDeadEnemies, hfilter]
  rw [hround]
  by_cases hb : e.type = EnemyType.BOSS
  · simp only [hb, if_true]
    refine ⟨key _ rfl rfl, ?_, ?_, rfl⟩
    · simp only [GameState.modifyRoom]
      unfold Player.addMemory
      split <;> rfl
    · simp only [GameState.modifyRoom]
      unfold Player.addMemory
      split <;> rfl
  · simp only [hb, if_false]
    exact ⟨key _ rfl rfl, rfl, rfl, rfl⟩

/-- Attacking every round with enough rounds to kill the enemy: if the player
is alive at the end, a BOSS has been defeated and recorded, it has left the
room together with every other dead enemy, and its gold was paid once. -/
theorem boss_loop (i : Nat) (inputs : List CombatInput) :
    ∀ (s : GameState) (cur : Room) (e : Enemy),
      s.room = some cur → cur.enemies[i]? = some e → e.alive = true →
      e.type = EnemyType.BOSS → s.gameRunning = true → s.player.memoryJournal.Nodup →
      (∀ inp ∈ inputs, isAttackChoice (toLowerCase inp.choice) = true) →
      (takeDamages e (List.replicate inputs.length s.player.getAttack)).alive = false →
      (handleCombat i inputs s).player.isAlive = true →
      BossRecorded (handleCombat i inputs s) ∧
      (handleCombat i inputs s).room =
        some { cur with enemies := (cur.enemies.eraseIdx i).filter Enemy.alive } ∧
      (handleCombat i inputs s).player.gold = wrapInt (s.player.gold + e.goldReward) ∧
      (handleCombat i inputs s).currentRoom = s.currentRoom := by
  induction inputs with
  | nil =>
    intro s cur e _ _ halive _ _ _ _ hlen _
    rw [show takeDamages e (List.replicate ([] : List CombatInput).length
      s.player.getAttack) = e from rfl, halive] at hlen
    cases hlen
  | cons inp rest ih =>
    intro s cur e hroom he halive htype hrun hj hatk hlen hend
    have hchoice := hatk inp (List.mem_cons_self _ _)
    have hloop : s.enemyAlive i = true := by
      simp [GameState.enemyAlive, GameState.enemyAt_of_room s cur i hroom, he, halive]
    by_cases hpl : s.player.isAlive = true
    · cases hk : (e.takeDamage s.player.getAttack).alive with
      | false =>
        have hround := combatRound_kill s cur i e inp hroom he hchoice hk
        have hfacts := kill_room_gold s cur i e inp hroom he hchoice hk
        have hres : handleCombat i (inp :: rest) s = (combatRound i inp s).1 := by
          simp [handleCombat, hloop, hpl, hrun, hround]
        rw [hres]
        refine ⟨⟨?_, ?_, combatRound_nodup i inp s hj⟩, hfacts.1, hfacts.2.1, hfacts.2.2.2⟩
        · rw [hround]
          simp only [htype, if_true, GameState.modifyRoom]
        · rw [hround]
          simp only [htype, if_true, GameState.modifyRoom]
          exact Player.mem_addMemory _ _
      | true =>
        have hround := combatRound_survive s cur i e inp hroom he hchoice hk
        have hroom2 := survive_room s cur i e inp hroom he hchoice hk
        cases hA : ((playerAttack i s).player.takeDamage (max 1 inp.attackRoll)).isAlive with
        | false =>
          have hres : handleCombat i (inp :: rest) s = (combatRound i inp s).1 := by
            simp [handleCombat, hloop, hpl, hrun, hround, hA]
          rw [hres, hround] at hend
          rw [hA] at hend
          cases hend
        | true =>
          have hres : handleCombat i (inp :: rest) s =
              handleCombat i rest (combatRound i inp s).1 := by
            simp [handleCombat, hloop, hpl, hrun, hround, hA]
          rw [hres] at hend ⊢
          have hatk2 : (combatRound i inp s).1.player.getAttack = s.player.getAttack := by
            rw [hround]; rfl
          have hgold2 : (combatRound i inp s).1.player.gold = s.player.gold := by
            rw [hround]; rfl
          have hcur2 : (combatRound i inp s).1.currentRoom = s.currentRoom := by
            rw [hround]; rfl
          have hrun2 : (combatRound i inp s).1.gameRunning = true := by
            rw [hround]; exact hrun
          have hlt : i < cur.enemies.length := getElem?_lt _ _ _ he
          have hlen2 : (takeDamages (e.takeDamage s.player.getAttack)
              (List.replicate rest.length (combatRound i inp s).1.player.getAttack)).alive =
                false := by
            rw [hatk2]
            exact hlen
          have hih := ih (combatRound i inp s).1 _ (e.takeDamage s.player.getAttack)
            hroom2 (by simp only [List.getElem?_set_self hlt]) hk
            (by rw [Enemy.takeDamage_type]; exact htype) hrun2
            (combatRound_nodup i inp s hj)
            (fun x hx => hatk x (List.mem_cons_of_mem _ hx)) hlen2 hend
          obtain ⟨hrec, hrm, hgold, hcur⟩ := hih
          refine ⟨hrec, ?_, ?_, ?_⟩
          · rw [hrm]
            simp only [eraseIdx_set_self]
          · rw [hgold, hgold2, Enemy.takeDamage_goldReward]
          · rw [hcur, hcur2]
    · have hres : handleCombat i (inp :: rest) s = s := by
        simp [handleCombat, hpl]
      rw [hres] at hend
      exact absurd hend hpl

/-- An enemy that is alive and is dead after `n` hits of `a` dies on one of
them: it is alive after some `k < n` hits and has health 0 after the next. -/
theorem dies_on_a_hit (a : Int) (n : Nat) :
    ∀ e : Enemy, e.alive = true → (takeDamages e (List.replicate n a)).alive = false →
      ∃ k, k < n ∧ (takeDamages e (List.replicate k a)).alive = true ∧
        (takeDamages e (List.replicate (k + 1) a)).alive = false ∧
        (takeDamages e (List.replicate (k + 1) a)).health = 0 := by
  induction n with
  | zero =>
    intro e halive hdead
    rw [show takeDamages e (List.replicate 0 a) = e from rfl, halive] at hdead
    cases hdead
  | succ n ih =>
    intro e halive hdead
    cases hk : (e.takeDamage a).alive with
    | false =>
      refine ⟨0, Nat.succ_pos n, halive, hk, ?_⟩
      show (e.takeDamage a).health = 0
      have hh := Enemy.takeDamage_health e a
      have hi := Enemy.takeDamage_isAlive e a
      unfold Enemy.alive at hk halive
      simp only [Bool.and_eq_true, decide_eq_true_eq] at halive
      rw [hi, hh, halive.1] at hk
      simp only [Bool.true_and, Bool.and_self, Bool.and_eq_false_imp, decide_eq_true_eq,
        decide_eq_false_iff_not] at hk
      rw [hh]
      omega
    | true =>
      obtain ⟨k, hkn, h1, h2, h3⟩ := ih (e.takeDamage a) hk hdead
      exact ⟨k + 1, Nat.succ_lt_succ hkn, h1, h2, h3⟩

theorem foldl_handleAttack_bossRecorded (further : List (List CombatInput)) (s : GameState)
    (h : BossRecorded s) :
    BossRecorded (further.foldl (fun t cmd => handleAttack cmd t) s) := by
  induction further generalizing s with
  | nil => exact h
  | cons cmd rest ih =>
    exact ih _ (handleAttack_preserves BossRecorded combatRound_bossRecorded cmd s h)

theorem BossRecorded.count_eq_one (s : GameState) (h : BossRecorded s) :
    s.player.memoryJournal.count victoryMemory = 1 :=
  List.count_eq_one_of_mem h.2.2 h.2.1

/-! ### Movement -/

theorem handleMove_success (s : GameState) (cur dest : Room) (direction : String)
    (roll enemyType : Int)
    (hroom : s.room = some cur) (hno : cur.hasAliveEnemies = false)
    (hexit : cur.getExit direction ≠ "")
    (hdest : mapFind s.rooms (cur.getExit direction) = some dest) :
    handleMove direction roll enemyType s =
      if cur.getExit direction = "forest" ∨ cur.getExit direction = "cave" then
        if roll ≤ 60 then
          (({ s with currentRoom := cur.getExit direction } : GameState).modifyRoom
            (fun r => if !r.visited then r.setVisited true else r)).modifyRoom
            (fun r => r.addEnemy (Enemy.createRandomEnemy enemyType))
        else
          ({ s with currentRoom := cur.getExit direction } : GameState).modifyRoom
            (fun r => if !r.visited then r.setVisited true else r)
      else
        ({ s with currentRoom := cur.getExit direction } : GameState).modifyRoom
          (fun r => if !r.visited then r.setVisited true else r) := by
  simp only [handleMove, hroom, hno, hexit, hdest, if_false, Bool.false_eq_true]

theorem visit_eq (r : Room) :
    (if !r.visited then r.setVisited true else r) = { r with visited := true } := by
  cases h : r.visited <;> simp [Room.setVisited, h]
  cases r
  simp_all

theorem moved_room (s : GameState) (dest : Room) (k : String) (f : Room → Room)
    (hdest : mapFind s.rooms k = some dest) :
    (({ s with currentRoom := k } : GameState).modifyRoom f).room = some (f dest) := by
  rw [GameState.room_modifyRoom]
  simp [GameState.room, hdest]

theorem createRandomEnemy_cases (enemyType : Int) :
    Enemy.createRandomEnemy enemyType = Enemy.new "Goblin Scout" EnemyType.GOBLIN 25 8 2 15 ∨
    Enemy.createRandomEnemy enemyType = Enemy.new "Wild Wolf" EnemyType.WOLF 30 10 1 20 ∨
    Enemy.createRandomEnemy enemyType =
      Enemy.new "Ancient Skeleton" EnemyType.SKELETON 35 12 4 25 ∨
    Enemy.createRandomEnemy enemyType = Enemy.new "Restless Ghost" EnemyType.GHOST 20 15 0 30 := by
  unfold Enemy.createRandomEnemy
  split
  · exact Or.inl rfl
  · split
    · exact Or.inr (Or.inl rfl)
    · split
      · exact Or.inr (Or.inr (Or.inl rfl))
      · split
        · exact Or.inr (Or.inr (Or.inr rfl))
        · exact Or.inl rfl

theorem mapFind_inRoom (rooms : List (String × Room)) (id k : String) (f : Room → Room) :
    mapFind (WorldManager.inRoom rooms id f) k =
      if k = id then (mapFind rooms k).map f else mapFind rooms k := by
  unfold WorldManager.inRoom
  split
  · exact mapFind_mapModify rooms id k f
  · rename_i h
    by_cases hk : k = id
    · subst hk
      cases hf : mapFind rooms k with
      | none => simp
      | some v => simp [hf] at h
    · simp [hk]

theorem startGame_some (d : WorldDecls) (playerName : String) (v : Room)
    (hv : mapFind (populateWorld d) "village" = some v) :
    ∃ s0, startGame d playerName = some s0 ∧
      s0.rooms = mapModify (populateWorld d) "village" (fun r => r.setVisited true) ∧
      s0.currentRoom = "village" ∧ s0.player = Player.new playerName ∧
      s0.gameRunning = true ∧ s0.finalBossDefeated = false := by
  unfold startGame
  dsimp only
  generalize populateWorld d = rooms at hv ⊢
  rw [hv]
  exact ⟨_, rfl, rfl, rfl, rfl, rfl, rfl⟩

/-! ### Picking up items -/

theorem find_split {α : Type} (q : α → Bool) (l : List α) (x : α) (h : l.find? q = some x) :
    ∃ pre post, l = pre ++ x :: post ∧ (∀ y ∈ pre, q y = false) ∧ q x = true ∧
      eraseFirst q l = pre ++ post := by
  induction l with
  | nil => simp at h
  | cons a as ih =>
    by_cases ha : q a = true
    · simp [List.find?, ha] at h
      subst h
      exact ⟨[], as, rfl, by simp, ha, by simp [eraseFirst, ha]⟩
    · simp [List.find?, ha] at h
      obtain ⟨pre, post, h1, h2, h3, h4⟩ := ih h
      refine ⟨a :: pre, post, by simp [h1], ?_, h3, by simp [eraseFirst, ha, h4]⟩
      intro y hy
      rcases List.mem_cons.mp hy with rfl | hy
      · simpa using ha
      · exact h2 y hy

theorem find_isSome_of_any {α : Type} (q : α → Bool) (l : List α) (h : l.any q = true) :
    ∃ x, l.find? q = some x := by
  induction l with
  | nil => simp at h
  | cons a as ih =>
    by_cases ha : q a = true
    · exact ⟨a, by simp [List.find?, ha]⟩
    · simp [ha] at h
      obtain ⟨x, hx⟩ := ih (by simpa using h)
      exact ⟨x, by simp [List.find?, ha, hx]⟩

theorem Player.addMemory_count (p : Player) (m : String) (h : p.memoryJournal.Nodup) :
    (p.addMemory m).memoryJournal.count m = 1 :=
  List.count_eq_one_of_mem (Player.addMemory_nodup p m h) (Player.mem_addMemory p m)

theorem Player.addMemory_of_mem (p : Player) (m : String) (h : m ∈ p.memoryJournal) :
    p.addMemory m = p := by
  simp [Player.addMemory, Player.hasMemory, h]

theorem Player.addMemory_inventory (p : Player) (m : String) :
    (p.addMemory m).inventory = p.inventory ∧
    (p.addMemory m).equippedWeapon = p.equippedWeapon := by
  unfold Player.addMemory
  split <;> exact ⟨rfl, rfl⟩

/-- The player after `handleTake` picked up `item`. -/
theorem handleTake_found (s : GameState) (cur : Room) (n : String) (item : Item)
    (hroom : s.room = some cur)
    (hfind : cur.items.find? (fun it => it.name == n) = some item) :
    handleTake n s =
      { (s.modifyRoom (fun r => (r.takeItem n).2)) with
        player :=
          if item.type = ItemType.WEAPON then
            (if item.name = "rusty sword" then (s.player.addItem item).addMemory swordMemory
             else if item.name = "ancient key" then (s.player.addItem item).addMemory keyMemory
             else if item.name = "crystal shard" then
               (s.player.addItem item).addMemory crystalMemory
             else s.player.addItem item).equipWeapon (some item)
          else
            (if item.name = "rusty sword" then (s.player.addItem item).addMemory swordMemory
             else if item.name = "ancient key" then (s.player.addItem item).addMemory keyMemory
             else if item.name = "crystal shard" then
               (s.player.addItem item).addMemory crystalMemory
             else s.player.addItem item) } := by
  simp only [handleTake, hroom, Room.takeItem, hfind]
  rfl

/-! ### Exits, items and enemies of a room -/

theorem mapFind_mapAssign {α : Type} (m : List (String × α)) (k k' : String) (v : α) :
    mapFind (mapAssign m k v) k' = if k' = k then some v else mapFind m k' := by
  induction m with
  | nil =>
    by_cases hk : k' = k
    · simp [mapAssign, mapFind, hk]
    · have hk2 : ¬ k = k' := fun h => hk h.symm
      simp [mapAssign, mapFind, hk, hk2]
  | cons hd tl ih =>
    obtain ⟨a, w⟩ := hd
    by_cases hak : a = k
    · subst hak
      by_cases hk : k' = a
      · simp [mapAssign, mapFind, hk]
      · have hk2 : ¬ a = k' := fun h => hk h.symm
        simp [mapAssign, mapFind, hk, hk2]
    · by_cases hlt : keyLt k a = true
      · by_cases hk : k' = k
        · simp [mapAssign, mapFind, hak, hlt, hk]
        · have hk2 : ¬ k = k' := fun h => hk h.symm
          simp [mapAssign, mapFind, hak, hlt, hk, hk2]
      · by_cases hk : k' = k
        · subst hk
          simp only [if_true] at ih
          simp [mapAssign, mapFind, hak, hlt, ih]
        · by_cases hak2 : a = k'
          · subst hak2
            simp [mapAssign, mapFind, hak, hlt]
          · simp [mapAssign, mapFind, hak, hlt, hk, hak2, ih]

theorem mapAssign_idem {α : Type} (m : List (String × α)) (k : String) (v : α) :
    mapAssign (mapAssign m k v) k v = mapAssign m k v := by
  induction m with
  | nil => simp [mapAssign]
  | cons hd tl ih =>
    obtain ⟨a, w⟩ := hd
    by_cases hak : a = k
    · simp [mapAssign, hak]
    · by_cases hlt : keyLt k a = true
      · simp [mapAssign, hak, hlt]
      · simp [mapAssign, hak, hlt, ih]

theorem find_none_of_any_false {α : Type} (q : α → Bool) (l : List α) (h : l.any q = false) :
    l.find? q = none := by
  induction l with
  | nil => rfl
  | cons a as ih =>
    simp only [List.any_cons, Bool.or_eq_false_iff] at h
    simp [List.find?, h.1, ih h.2]

theorem firstAliveIdx_none_of_find (l : List Enemy) (h : l.find? Enemy.alive = none) :
    firstAliveIdx l = none := by
  cases hi : firstAliveIdx l with
  | none => rfl
  | some i =>
    obtain ⟨e, he, _⟩ := find_of_firstAliveIdx l i hi
    rw [h] at he
    cases he

theorem find_filter_self {α : Type} (q : α → Bool) (l : List α) :
    (l.filter q).find? q = l.find? q := by
  induction l with
  | nil => rfl
  | cons a as ih =>
    by_cases ha : q a = true
    · simp [List.filter, List.find?, ha]
    · simp [List.filter, List.find?, ha, ih]

/-! ### Commands -/

theorem parseCommand_empty : parseCommand "" = [] := by decide

/-! ### Number of hits -/

theorem Enemy.takeDamage_defense (e : Enemy) (damage : Int) :
    (e.takeDamage damage).defense = e.defense := by
  unfold Enemy.takeDamage
  dsimp only
  split <;> rfl

/-- After `k` hits of amount `a`, where `a - defense` does not overflow, an
alive enemy is alive exactly when the total damage dealt is still below its
health. -/
theorem hits_alive_iff (a : Int) (k : Nat) :
    ∀ e : Enemy, e.alive = true → fitsInt (a - e.defense) → e.health ≤ 2147483647 →
      ((takeDamages e (List.replicate k a)).alive = true ↔
        (k : Int) * max 1 (a - e.defense) < e.health) := by
  induction k with
  | zero =>
    intro e halive _ _
    have := Enemy.health_pos_of_alive e halive
    simp [takeDamages, halive, this]
  | succ k ih =>
    intro e halive h1 h2
    have hpos := Enemy.health_pos_of_alive e halive
    have hm : (1 : Int) ≤ max 1 (a - e.defense) := le_max_left _ _
    have hfit : fitsInt (e.health - max 1 (a - e.defense)) := by
      unfold fitsInt at h1 ⊢
      omega
    have hk : (0 : Int) ≤ (k : Int) * max 1 (a - e.defense) :=
      mul_nonneg (Int.ofNat_nonneg k) (by omega)
    have hunfold : takeDamages e (List.replicate (k + 1) a) =
        takeDamages (e.takeDamage a) (List.replicate k a) := rfl
    have hcast : ((k + 1 : Nat) : Int) * max 1 (a - e.defense) =
        (k : Int) * max 1 (a - e.defense) + max 1 (a - e.defense) := by
      push_cast
      ring
    rw [hunfold, hcast]
    by_cases hs : max 1 (a - e.defense) < e.health
    · have h3 : (e.takeDamage a).alive = true :=
        (Enemy.takeDamage_alive_iff e a halive h1 hfit).mpr hs
      have h4 := ih (e.takeDamage a) h3 (by rw [Enemy.takeDamage_defense]; exact h1)
        (by rw [Enemy.takeDamage_of_survives e a h1 hfit hs]
            show e.health - max 1 (a - e.defense) ≤ 2147483647
            omega)
      rw [Enemy.takeDamage_defense] at h4
      rw [h4, Enemy.takeDamage_of_survives e a h1 hfit hs]
      constructor
      · intro h; show _ < e.health; have : (k : Int) * max 1 (a - e.defense) <
          e.health - max 1 (a - e.defense) := h
        omega
      · intro h; show _ < e.health - max 1 (a - e.defense); omega
    · have h3 : (e.takeDamage a).alive = false :=
        Enemy.takeDamage_dead_of_le e a halive h1 (by omega)
      have h5 := Enemy.takeDamages_dead (List.replicate k a) _
        (Enemy.takeDamage_nonneg_health e a) h3
      rw [h5]
      constructor
      · intro h; cases h
      · intro h; omega

theorem set_of_getElem? {α : Type} (l : List α) (i : Nat) (x : α) (h : l[i]? = some x) :
    l.set i x = l := by
  induction l generalizing i with
  | nil => rfl
  | cons y ys ih =>
    cases i with
    | zero =>
      simp only [List.getElem?_cons_zero, Option.some.injEq] at h
      rw [h]
      rfl
    | succ n =>
      simp only [List.getElem?_cons_succ] at h
      simp [List.set, ih n h]

/-- The state after `k` calls of `playerAttack` on the enemy pointer `i`: the
enemy has taken `k` hits of the player's effective attack, and nothing else
has changed. -/
theorem iterate_playerAttack (i : Nat) (k : Nat) :
    ∀ (s : GameState) (cur : Room) (e : Enemy),
      s.room = some cur → cur.enemies[i]? = some e →
      (Nat.iterate (playerAttack i) k s).room =
        some { cur with
          enemies := cur.enemies.set i
            (takeDamages e (List.replicate k s.player.getAttack)) } ∧
      (Nat.iterate (playerAttack i) k s).player = s.player := by
  induction k with
  | zero =>
    intro s cur e hroom he
    refine ⟨?_, rfl⟩
    show s.room = _
    rw [hroom, show takeDamages e (List.replicate 0 s.player.getAttack) = e from rfl,
      set_of_getElem? _ _ _ he]
  | succ k ih =>
    intro s cur e hroom he
    have hlt : i < cur.enemies.length := getElem?_lt _ _ _ he
    have hroom1 : (playerAttack i s).room =
        some { cur with enemies := cur.enemies.set i (e.takeDamage s.player.getAttack) } := by
      rw [playerAttack_room s cur i hroom, modifyAt_eq_set _ i cur.enemies e he]
    have hp1 : (playerAttack i s).player = s.player := rfl
    obtain ⟨h1, h2⟩ := ih (playerAttack i s) _ (e.takeDamage s.player.getAttack) hroom1
      (by simp only [List.getElem?_set_self hlt])
    rw [Function.iterate_succ_apply]
    refine ⟨?_, by rw [h2, hp1]⟩
    rw [h1, hp1]
    simp only [List.set_set]
    rfl

theorem iterate_playerAttack_alive (i : Nat) (k : Nat) (s : GameState) (cur : Room)
    (e : Enemy) (hroom : s.room = some cur) (he : cur.enemies[i]? = some e) :
    (Nat.iterate (playerAttack i) k s).enemyAt i =
      some (takeDamages e (List.replicate k s.player.getAttack)) ∧
    (Nat.iterate (playerAttack i) k s).enemyAlive i =
      (takeDamages e (List.replicate k s.player.getAttack)).alive := by
  have hlt : i < cur.enemies.length := getElem?_lt _ _ _ he
  have hat : (Nat.iterate (playerAttack i) k s).enemyAt i =
      some (takeDamages e (List.replicate k s.player.getAttack)) := by
    rw [GameState.enemyAt_of_room _ _ i (iterate_playerAttack i k s cur e hroom he).1]
    simp only [List.getElem?_set_self hlt]
  refine ⟨hat, ?_⟩
  simp [GameState.enemyAlive, hat]

/-- The rounded-up quotient form of the number of hits an enemy survives. -/
theorem hits_ceil (k : Nat) (h m : Int) (hm : 0 < m) :
    (k : Int) * m < h ↔ (k : Int) < (h + m - 1) / m := by
  constructor
  · intro hlt
    have h2 : ((k : Int) + 1) * m ≤ h + m - 1 := by
      have : ((k : Int) + 1) * m = (k : Int) * m + m := by ring
      omega
    have h3 := (Int.le_ediv_iff_mul_le hm).mpr h2
    omega
  · intro hlt
    have h3 : (k : Int) + 1 ≤ (h + m - 1) / m := by omega
    have h2 := (Int.le_ediv_iff_mul_le hm).mp h3
    have : ((k : Int) + 1) * m = (k : Int) * m + m := by ring
    omega

/-- An alive enemy whose health fits in an `int` is dead after as many hits as
it has health points, when `a - defense` does not overflow. -/
theorem dead_after_health_hits (a : Int) (e : Enemy) (halive : e.alive = true)
    (h1 : fitsInt (a - e.defense)) (h2 : e.health ≤ 2147483647) :
    (takeDamages e (List.replicate e.health.toNat a)).alive = false := by
  have hpos := Enemy.health_pos_of_alive e halive
  have h3 := (hits_alive_iff a e.health.toNat e halive h1 h2).not
  have hcast : ((e.health.toNat : Nat) : Int) = e.health := Int.toNat_of_nonneg (le_of_lt hpos)
  have hge : ¬ ((e.health.toNat : Int) * max 1 (a - e.defense) < e.health) := by
    rw [hcast]
    have : e.health * 1 ≤ e.health * max 1 (a - e.defense) :=
      mul_le_mul_of_nonneg_left (le_max_left _ _) (le_of_lt hpos)
    omega
  have := h3.mpr hge
  simpa using this

/-! ### The room graph of the world -/

theorem mapFind_map {α β : Type} (g : α → β) (m : List (String × α)) (k : String) :
    mapFind (m.map (fun kv => (kv.1, g kv.2))) k = (mapFind m k).map g := by
  induction m with
  | nil => rfl
  | cons hd tl ih =>
    obtain ⟨a, v⟩ := hd
    by_cases h : a = k
    · simp [mapFind, h]
    · simp [mapFind, h, ih]

theorem mapFind_exitTable (rooms : List (String × Room)) (k : String) :
    mapFind (exitTable rooms) k = (mapFind rooms k).map (fun r => (r.id, r.exits)) :=
  mapFind_map (fun r : Room => (r.id, r.exits)) rooms k

theorem exitTable_mapModify (rooms : List (String × Room)) (k : String) (f : Room → Room)
    (hf : ∀ r, (f r).id = r.id ∧ (f r).exits = r.exits) :
    exitTable (mapModify rooms k f) = exitTable rooms := by
  induction rooms with
  | nil => rfl
  | cons hd tl ih =>
    obtain ⟨a, v⟩ := hd
    by_cases h : a = k
    · simp [exitTable, mapModify, h, (hf v).1, (hf v).2]
    · have := ih
      simp only [exitTable] at this
      simp [exitTable, mapModify, h, this]

theorem exitTable_inRoom (rooms : List (String × Room)) (k : String) (f : Room → Room)
    (hf : ∀ r, (f r).id = r.id ∧ (f r).exits = r.exits) :
    exitTable (WorldManager.inRoom rooms k f) = exitTable rooms := by
  unfold WorldManager.inRoom
  split
  · exact exitTable_mapModify rooms k f hf
  · rfl

theorem exitTable_world (d : WorldDecls) :
    exitTable (populateWorld d) = exitTable (WorldManager.createExpandedWorld []) := by
  simp only [populateWorld, WorldManager.initializeWorld, WorldManager.addSecrets,
    WorldManager.addQuestItems, WorldManager.populateWorld]
  repeat (rw [exitTable_inRoom]; rotate_left; (intro r; exact ⟨rfl, rfl⟩))

theorem mem_exitTable (rooms : List (String × Room)) (kr : String × Room) (h : kr ∈ rooms) :
    (kr.1, kr.2.id, kr.2.exits) ∈ exitTable rooms :=
  List.mem_map.mpr ⟨kr, h, rfl⟩

theorem mapFind_isSome_of_mem_keys {α : Type} (m : List (String × α)) (k : String)
    (h : k ∈ m.map Prod.fst) : (mapFind m k).isSome = true := by
  induction m with
  | nil => simp at h
  | cons hd tl ih =>
    obtain ⟨a, v⟩ := hd
    by_cases hk : a = k
    · simp [mapFind, hk]
    · have : k ∈ tl.map Prod.fst := by
        simp only [List.map_cons, List.mem_cons] at h
        rcases h with h | h
        · exact absurd h.symm hk
        · exact h
      simp [mapFind, hk, ih this]

theorem mapFind_mem {α : Type} (m : List (String × α)) (k : String) (v : α)
    (h : mapFind m k = some v) : (k, v) ∈ m := by
  induction m with
  | nil => simp [mapFind] at h
  | cons hd tl ih =>
    obtain ⟨a, w⟩ := hd
    by_cases hk : a = k
    · simp [mapFind, hk] at h
      simp [hk, h]
    · simp [mapFind, hk] at h
      exact List.mem_cons_of_mem _ (ih h)

theorem getExit_mem (r : Room) (direction : String) (h : r.getExit direction ≠ "") :
    (direction, r.getExit direction) ∈ r.exits := by
  unfold Room.getExit at h ⊢
  cases hf : mapFind r.exits direction with
  | none => simp [hf] at h
  | some t => exact mapFind_mem _ _ _ hf

theorem isSome_world_iff (d : WorldDecls) (k : String) :
    (mapFind (populateWorld d) k).isSome =
      (mapFind (exitTable (WorldManager.createExpandedWorld [])) k).isSome := by
  rw [← exitTable_world d, mapFind_exitTable]
  cases mapFind (populateWorld d) k <;> rfl

theorem followExits_congr (rooms rooms' : List (String × Room))
    (h : exitTable rooms = exitTable rooms') (dirs : List String) :
    ∀ cur, followExits rooms cur dirs = followExits rooms' cur dirs := by
  have hex : ∀ k, (mapFind rooms k).map Room.exits = (mapFind rooms' k).map Room.exits := by
    intro k
    have h1 := mapFind_exitTable rooms k
    have h2 := mapFind_exitTable rooms' k
    rw [h] at h1
    rw [h1] at h2
    cases ha : mapFind rooms k <;> cases hb : mapFind rooms' k <;> simp [ha, hb] at h2 ⊢
    exact h2.2
  have hsome : ∀ k, (mapFind rooms k).isSome = (mapFind rooms' k).isSome := by
    intro k
    have := hex k
    cases ha : mapFind rooms k <;> cases hb : mapFind rooms' k <;> simp [ha, hb] at this ⊢
  induction dirs with
  | nil => intro cur; rfl
  | cons direction rest ih =>
    intro cur
    have h1 := hex cur
    cases ha : mapFind rooms cur with
    | none =>
      cases hb : mapFind rooms' cur with
      | none => simp [followExits, ha, hb]
      | some r' => simp [ha, hb] at h1
    | some r =>
      cases hb : mapFind rooms' cur with
      | none => simp [ha, hb] at h1
      | some r' =>
        have hx : r.exits = r'.exits := by simpa [ha, hb] using h1
        have hg : r.getExit direction = r'.getExit direction := by
          simp [Room.getExit, hx]
        simp only [followExits, ha, hb, hg, hsome, ih]

theorem world_exits (d : WorldDecls) (k : String) :
    (mapFind (populateWorld d) k).map Room.exits =
      (mapFind (exitTable (WorldManager.createExpandedWorld [])) k).map (fun x => x.2) := by
  rw [← exitTable_world d, mapFind_exitTable]
  cases mapFind (populateWorld d) k <;> rfl

/-- Following exits from a room of the id set `S`, closed under the exits of
the table, ends in `S`. -/
theorem followExits_closed (rooms : List (String × Room)) (S : List String)
    (hclosed : ∀ x ∈ exitTable rooms, x.1 ∈ S → ∀ ex ∈ x.2.2, ex.2 ∈ S)
    (dirs : List String) :
    ∀ cur, cur ∈ S → ∀ t, followExits rooms cur dirs = some t → t ∈ S := by
  induction dirs with
  | nil =>
    intro cur hcur t ht
    simp only [followExits, Option.some.injEq] at ht
    rw [← ht]; exact hcur
  | cons direction rest ih =>
    intro cur hcur t ht
    cases hr : mapFind rooms cur with
    | none => simp [followExits, hr] at ht
    | some r =>
      simp only [followExits, hr] at ht
      by_cases he : r.getExit direction = ""
      · simp [he] at ht
      · simp only [he, if_false] at ht
        by_cases hs : (mapFind rooms (r.getExit direction)).isSome = true
        · simp only [hs, if_true] at ht
          have hmem := mem_exitTable rooms (cur, r) (mapFind_mem rooms cur r hr)
          have hnext := hclosed _ hmem hcur _ (getExit_mem r direction he)
          exact ih _ hnext t ht
        · simp [hs] at ht

/-! ### Tokens -/

theorem upper_cases (c : Char) (h : c.toNat ≥ 65 ∧ c.toNat ≤ 90) (P : Char → Prop)
    (hP : ∀ n : Fin 26, P (Char.ofNat (65 + n.val))) : P c := by
  have hc : Char.ofNat c.toNat = c := Char.ofNat_toNat c
  obtain ⟨k, hk⟩ : ∃ k : Fin 26, c.toNat = 65 + k.val :=
    ⟨⟨c.toNat - 65, by omega⟩, by simp; omega⟩
  rw [← hc, hk]
  exact hP k

theorem toLower_of_not_upper (c : Char) (h : ¬ (c.toNat ≥ 65 ∧ c.toNat ≤ 90)) :
    c.toLower = c := by
  simp [Char.toLower, h]

theorem toLower_idem (c : Char) : c.toLower.toLower = c.toLower := by
  by_cases h : c.toNat ≥ 65 ∧ c.toNat ≤ 90
  · exact upper_cases c h (fun c => c.toLower.toLower = c.toLower) (by decide)
  · rw [toLower_of_not_upper c h, toLower_of_not_upper c h]

theorem isSpace_toLower (c : Char) : isSpace c.toLower = isSpace c := by
  by_cases h : c.toNat ≥ 65 ∧ c.toNat ≤ 90
  · exact upper_cases c h (fun c => isSpace c.toLower = isSpace c) (by decide)
  · rw [toLower_of_not_upper c h]

theorem toLower_not_upper (c : Char) : ¬ (c.toLower.toNat ≥ 65 ∧ c.toLower.toNat ≤ 90) := by
  by_cases h : c.toNat ≥ 65 ∧ c.toNat ≤ 90
  · exact upper_cases c h (fun c => ¬ (c.toLower.toNat ≥ 65 ∧ c.toLower.toNat ≤ 90))
      (by decide)
  · rw [toLower_of_not_upper c h]; exact h

theorem tokensAux_eq_split (cs : List Char) :
    ∀ cur, tokensAux cs cur =
      (List.modifyHead (fun w => cur.reverse ++ w) (cs.splitOnP isSpace)).filter
        (fun w => !w.isEmpty) := by
  induction cs with
  | nil =>
    intro cur
    cases cur with
    | nil => simp [tokensAux, List.modifyHead]
    | cons a as => simp [tokensAux, List.modifyHead]
  | cons c cs ih =>
    intro cur
    by_cases hc : isSpace c = true
    · have h0 := ih []
      simp only [List.reverse_nil, List.nil_append] at h0
      have hid : List.modifyHead (fun w : List Char => w) (List.splitOnP isSpace cs) =
          List.splitOnP isSpace cs := by
        cases List.splitOnP isSpace cs <;> rfl
      rw [hid] at h0
      cases cur with
      | nil => simp [tokensAux, hc, List.modifyHead, h0]
      | cons a as => simp [tokensAux, hc, List.modifyHead, h0]
    · have h1 := ih (c :: cur)
      simp only [tokensAux, hc, List.splitOnP_cons, if_false, Bool.false_eq_true, h1,
        List.modifyHead_modifyHead]
      congr 2
      funext w
      simp

theorem tokensAux_spec (cs : List Char) : tokensAux cs [] = specRuns cs := by
  rw [tokensAux_eq_split cs [], specRuns]
  congr 1
  cases List.splitOnP isSpace cs <;> rfl

theorem tokensAux_mem (cs : List Char) :
    ∀ cur, (∀ c ∈ cur, isSpace c = false) →
      ∀ w ∈ tokensAux cs cur, w ≠ [] ∧ ∀ c ∈ w, isSpace c = false := by
  induction cs with
  | nil =>
    intro cur hcur w hw
    cases cur with
    | nil => simp [tokensAux] at hw
    | cons a as =>
      simp only [tokensAux, List.isEmpty_cons, if_false, Bool.false_eq_true,
        List.mem_singleton] at hw
      subst hw
      exact ⟨by simp, fun c hc => hcur c (List.mem_reverse.mp hc)⟩
  | cons c cs ih =>
    intro cur hcur w hw
    by_cases hc : isSpace c = true
    · cases cur with
      | nil =>
        simp only [tokensAux, hc, if_true, List.isEmpty_nil] at hw
        exact ih [] (by simp) w hw
      | cons a as =>
        simp only [tokensAux, hc, if_true, List.isEmpty_cons, if_false, Bool.false_eq_true,
          List.mem_cons] at hw
        rcases hw with hw | hw
        · subst hw
          exact ⟨by simp, fun x hx => hcur x (List.mem_reverse.mp hx)⟩
        · exact ih [] (by simp) w hw
    · simp only [tokensAux, hc, if_false, Bool.false_eq_true] at hw
      refine ih (c :: cur) ?_ w hw
      intro x hx
      rcases List.mem_cons.mp hx with rfl | hx
      · simpa using hc
      · exact hcur x hx

theorem tokensAux_eq_nil (cs : List Char) :
    ∀ cur, tokensAux cs cur = [] ↔ cur = [] ∧ ∀ c ∈ cs, isSpace c = true := by
  induction cs with
  | nil =>
    intro cur
    cases cur <;> simp [tokensAux]
  | cons c cs ih =>
    intro cur
    by_cases hc : isSpace c = true
    · cases cur with
      | nil => simp [tokensAux, hc, ih []]
      | cons a as => simp [tokensAux, hc]
    · simp [tokensAux, hc, ih (c :: cur)]

theorem tokensAux_map (f : Char → Char) (hf : ∀ c, isSpace (f c) = isSpace c)
    (cs : List Char) :
    ∀ cur, tokensAux (cs.map f) (cur.map f) = (tokensAux cs cur).map (List.map f) := by
  induction cs with
  | nil =>
    intro cur
    cases cur <;> simp [tokensAux]
  | cons c cs ih =>
    intro cur
    by_cases hc : isSpace c = true
    · have h0 := ih []
      simp only [List.map_nil] at h0
      cases cur with
      | nil => simp [tokensAux, hc, hf, h0]
      | cons a as => simp [tokensAux, hc, hf, h0]
    · have h1 := ih (c :: cur)
      simp only [List.map_cons] at h1
      simp [tokensAux, hc, hf, h1]

theorem tokensAux_append_word (w : List Char) (cs : List Char)
    (hw : ∀ c ∈ w, isSpace c = false) :
    ∀ cur, tokensAux (w ++ cs) cur = tokensAux cs (w.reverse ++ cur) := by
  induction w with
  | nil => intro cur; rfl
  | cons a as ih =>
    intro cur
    have ha : isSpace a = false := hw a (List.mem_cons_self _ _)
    have := ih (fun c hc => hw c (List.mem_cons_of_mem _ hc)) (a :: cur)
    simp [tokensAux, ha, this]

/-- The characters of words joined by single spaces. -/
theorem tokens_join (rest : List (List Char)) :
    ∀ t : List Char, t ≠ [] → (∀ c ∈ t, isSpace c = false) →
      (∀ w ∈ rest, w ≠ [] ∧ ∀ c ∈ w, isSpace c = false) →
      tokensAux (rest.foldl (fun acc w => acc ++ ' ' :: w) t) [] = t :: rest := by
  have key : ∀ (rest : List (List Char)) (t cur : List Char),
      (∀ c ∈ t, isSpace c = false) → cur.reverse ++ t ≠ [] →
      (∀ w ∈ rest, w ≠ [] ∧ ∀ c ∈ w, isSpace c = false) →
      tokensAux (t ++ (rest.map (fun w => ' ' :: w)).flatten) cur =
        (cur.reverse ++ t) :: rest := by
    intro rest
    induction rest with
    | nil =>
      intro t cur ht hne _
      have h1 := tokensAux_append_word t [] ht cur
      simp only [List.map_nil, List.flatten_nil, List.append_nil] at h1 ⊢
      rw [h1]
      have hne2 : t.reverse ++ cur ≠ [] := by
        intro h
        apply hne
        have := congrArg List.reverse h
        simpa using this
      cases hcur : t.reverse ++ cur with
      | nil => exact absurd hcur hne2
      | cons a as =>
        simp only [tokensAux, List.isEmpty_cons, if_false, Bool.false_eq_true]
        rw [← hcur]
        simp
    | cons w rest ih =>
      intro t cur ht hne hall
      have hw := hall w (List.mem_cons_self _ _)
      have h1 := tokensAux_append_word t (' ' :: w ++ (rest.map (fun w => ' ' :: w)).flatten)
        ht cur
      have hne2 : t.reverse ++ cur ≠ [] := by
        intro h
        apply hne
        have := congrArg List.reverse h
        simpa using this
      have hsp : isSpace ' ' = true := by decide
      have h2 := ih w [] hw.2 (by simpa using hw.1)
        (fun x hx => hall x (List.mem_cons_of_mem _ hx))
      simp only [List.map_cons, List.flatten_cons, List.cons_append, List.append_assoc] at h1 ⊢
      rw [h1]
      cases hcur : t.reverse ++ cur with
      | nil => exact absurd hcur hne2
      | cons a as =>
        simp only [tokensAux, hsp, if_true, List.isEmpty_cons, if_false, Bool.false_eq_true]
        rw [← hcur]
        simp only [List.reverse_nil, List.nil_append] at h2
        rw [h2]
        simp
  have hfold : ∀ (rest : List (List Char)) (t : List Char),
      rest.foldl (fun acc w => acc ++ ' ' :: w) t =
        t ++ (rest.map (fun w => ' ' :: w)).flatten := by
    intro rest
    induction rest with
    | nil => intro t; simp
    | cons w rest ih => intro t; simp [ih]
  intro t hne ht hall
  rw [hfold]
  have := key rest t [] ht (by simpa using hne) hall
  simpa using this

theorem fullItemName_data (more : List String) :
    ∀ first : String, (fullItemName first more).data =
      (more.map String.data).foldl (fun acc w => acc ++ ' ' :: w) first.data := by
  induction more with
  | nil => intro first; rfl
  | cons w rest ih =>
    intro first
    have := ih (first ++ " " ++ w)
    simp only [fullItemName, List.foldl_cons, List.map_cons] at this ⊢
    rw [this]
    simp [String.data_append]

theorem intercalate_eq (first : String) (more : List String) :
    " ".intercalate (first :: more) = fullItemName first more := by
  have h : ∀ (more : List String) (acc : String),
      String.intercalate.go acc " " more = fullItemName acc more := by
    intro more
    induction more with
    | nil => intro acc; rfl
    | cons w rest ih => intro acc; simp [String.intercalate.go, fullItemName, ih]
  exact h more first

theorem parseCommand_eq_lower (input : String) :
    parseCommand input = (tokensAux (input.data.map Char.toLower) []).map String.mk := by
  have := tokensAux_map Char.toLower isSpace_toLower input.data []
  simp only [List.map_nil] at this
  rw [this]
  simp [parseCommand, toLowerCase]

/-! ### The two front ends and reachable states -/

/-- The real-time pickup agrees with `handleTake` on the name of the first
item of the room unless that name is "crystal shard". -/
theorem pickup_eq_take (s : GameState) (cur : Room) (first : Item) (rest : List Item)
    (hroom : s.room = some cur) (hitems : cur.items = first :: rest)
    (hn : first.name ≠ "crystal shard") :
    pickupNearbyItem s = handleTake first.name s := by
  have hfind : cur.items.find? (fun it => it.name == first.name) = some first := by
    rw [hitems]
    exact List.find?_cons_of_pos _ (by simp)
  rw [handleTake_found s cur first.name first hroom hfind]
  unfold pickupNearbyItem
  rw [hroom]
  dsimp only
  rw [hitems]
  dsimp only
  have hfind2 : ((first :: rest).find? fun it => it.name == first.name) = some first :=
    List.find?_cons_of_pos _ (by simp)
  have htake : ({ cur with items := first :: rest } : Room) = cur := by
    rw [← hitems]
  have h1 : (cur.takeItem first.name).1 = some first := by
    unfold Room.takeItem
    rw [hfind]
  rw [h1]
  dsimp only
  rw [if_neg hn]
  split <;> rfl

theorem findNearestEnemy_none (hasRenderer : Bool) (rt : RealTimeState) :
    (findNearestEnemy hasRenderer rt).1 = none ∧
    (findNearestEnemy hasRenderer rt).2.game = rt.game := by
  unfold findNearestEnemy
  cases hasRenderer
  · exact ⟨rfl, rfl⟩
  · cases rt.game.room with
    | none => exact ⟨rfl, rfl⟩
    | some cur =>
      dsimp only
      cases cur.hasAliveEnemies
      · exact ⟨rfl, rfl⟩
      · cases firstAliveIdx cur.enemies <;> exact ⟨rfl, rfl⟩

theorem leftClick_game (hasRenderer cooldownExpired : Bool) (roll : Int)
    (rt : RealTimeState) :
    (leftClickAttack hasRenderer cooldownExpired roll rt).game = rt.game := by
  obtain ⟨h1, h2⟩ := findNearestEnemy_none hasRenderer rt
  unfold leftClickAttack
  cases hasRenderer
  · rfl
  · cases cooldownExpired
    · rfl
    · simp only [Bool.not_true, Bool.false_eq_true, if_false, if_true]
      generalize findNearestEnemy true rt = res at h1 h2
      obtain ⟨a, b⟩ := res
      cases a with
      | none => exact h2
      | some u => cases h1

theorem handleMove_frame (direction : String) (roll enemyType : Int) (s : GameState) :
    (handleMove direction roll enemyType s).player = s.player ∧
    (handleMove direction roll enemyType s).finalBossDefeated = s.finalBossDefeated := by
  unfold handleMove
  cases s.room with
  | none => exact ⟨rfl, rfl⟩
  | some cur =>
    dsimp only
    split
    · exact ⟨rfl, rfl⟩
    · split
      · exact ⟨rfl, rfl⟩
      · cases mapFind s.rooms (cur.getExit direction) with
        | none => exact ⟨rfl, rfl⟩
        | some dest =>
          dsimp only
          split
          · split <;> exact ⟨rfl, rfl⟩
          · exact ⟨rfl, rfl⟩

theorem Player.equipWeapon_journal (p : Player) (w : Option Item) :
    (p.equipWeapon w).memoryJournal = p.memoryJournal := by
  unfold Player.equipWeapon
  cases w with
  | none => rfl
  | some item =>
    dsimp only
    split <;> rfl

theorem handleTake_frame (n : String) (s : GameState) :
    (handleTake n s).finalBossDefeated = s.finalBossDefeated ∧
    (∀ x ∈ s.player.memoryJournal, x ∈ (handleTake n s).player.memoryJournal) := by
  unfold handleTake
  cases s.room with
  | none => exact ⟨rfl, fun _ h => h⟩
  | some cur =>
    dsimp only
    cases (cur.takeItem n).1 with
    | none => exact ⟨rfl, fun _ h => h⟩
    | some item =>
      refine ⟨rfl, ?_⟩
      intro x hx
      have h0 : x ∈ ((s.modifyRoom fun r => (r.takeItem n).2).player.addItem item).memoryJournal :=
        hx
      dsimp only
      split
      · rw [Player.equipWeapon_journal]
        split
        · exact Player.addMemory_subset _ _ _ h0
        · split
          · exact Player.addMemory_subset _ _ _ h0
          · split
            · exact Player.addMemory_subset _ _ _ h0
            · exact h0
      · split
        · exact Player.addMemory_subset _ _ _ h0
        · split
          · exact Player.addMemory_subset _ _ _ h0
          · split
            · exact Player.addMemory_subset _ _ _ h0
            · exact h0

/-- Every result of `processCommand` is the state itself or the result of one
of the five state-changing handlers. -/
theorem processCommand_cases (P : GameState → Prop) (command : List String)
    (env : CommandEnv) (s : GameState) (h0 : P s)
    (hmove : ∀ direction, P (handleMove direction env.moveRoll env.enemyType s))
    (htake : ∀ n, P (handleTake n s)) (huse : ∀ n, P (handleUse n s))
    (hattack : P (handleAttack env.combat s)) (hquit : P (handleQuit env.quitLine s)) :
    P (processCommand command env s) := by
  have hite : ∀ (c : Prop) [Decidable c] (a b : GameState), P a → P b →
      P (if c then a else b) := by
    intro c _ a b ha hb
    split
    · exact ha
    · exact hb
  unfold processCommand
  cases command with
  | nil => exact h0
  | cons action args =>
    dsimp only
    apply hite
    · exact h0
    apply hite
    · cases args with
      | nil => exact h0
      | cons a _ => exact hmove a
    apply hite
    · exact hmove _
    apply hite
    · exact hmove _
    apply hite
    · exact hmove _
    apply hite
    · exact hmove _
    apply hite
    · cases args with
      | nil => exact h0
      | cons a more => exact htake _
    apply hite
    · cases args with
      | nil => exact h0
      | cons a _ => exact huse a
    apply hite
    · exact hattack
    apply hite
    · exact h0
    apply hite
    · exact h0
    apply hite
    · exact h0
    apply hite
    · exact h0
    apply hite
    · exact h0
    apply hite
    · exact hquit
    apply hite
    · exact h0
    · exact h0

theorem combatRound_flagRecorded (i : Nat) (inp : CombatInput) (s : GameState)
    (h : FlagRecorded s) : FlagRecorded (combatRound i inp s).1 := by
  intro hf
  rcases combatRound_flags i inp s with ⟨h1, h2⟩ | ⟨_, h2⟩
  · rw [h2]
    exact h (by rw [← h1]; exact hf)
  · rw [h2]
    exact Player.mem_addMemory _ _

theorem processCommand_flagRecorded (command : List String) (env : CommandEnv)
    (s : GameState) (h : FlagRecorded s) : FlagRecorded (processCommand command env s) := by
  apply processCommand_cases FlagRecorded command env s h
  · intro direction hf
    obtain ⟨h1, h2⟩ := handleMove_frame direction env.moveRoll env.enemyType s
    rw [h1]
    exact h (by rw [← h2]; exact hf)
  · intro n hf
    obtain ⟨h1, h2⟩ := handleTake_frame n s
    exact h2 _ (h (by rw [← h1]; exact hf))
  · intro n hf
    obtain ⟨h1, h2⟩ := handleUse_frame n s
    rw [h2]
    exact h (by rw [← h1]; exact hf)
  · exact handleAttack_preserves FlagRecorded combatRound_flagRecorded env.combat s h
  · unfold handleQuit
    cases env.quitLine with
    | none => exact h
    | some line =>
      dsimp only
      split
      · exact h
      · exact h

theorem checkRoomHazards_flagRecorded (s : GameState) (h : FlagRecorded s) :
    FlagRecorded (checkRoomHazards s) := by
  unfold checkRoomHazards
  cases s.room with
  | none => exact h
  | some cur =>
    dsimp only
    cases cur.hazard <;> exact h

theorem checkWinCondition_flagRecorded (s : GameState) (h : FlagRecorded s) :
    FlagRecorded (checkWinCondition s) := by
  unfold checkWinCondition
  split
  · exact h
  · exact h

theorem flagRecorded_ite (c : Prop) [Decidable c] (a b : GameState)
    (ha : FlagRecorded a) (hb : FlagRecorded b) : FlagRecorded (if c then a else b) := by
  split
  · exact ha
  · exact hb

theorem gameLoopStep_flagRecorded (input : String) (env : CommandEnv) (s : GameState)
    (h : FlagRecorded s) : FlagRecorded (gameLoopStep input env s) := by
  unfold gameLoopStep
  split
  · exact h
  · cases hp : parseCommand input with
    | nil => exact h
    | cons action args =>
      dsimp only
      have h1 : FlagRecorded (processCommand (action :: args) env s) :=
        processCommand_flagRecorded _ env s h
      have h2 : FlagRecorded
          { processCommand (action :: args) env s with
            turnsPlayed := (processCommand (action :: args) env s).turnsPlayed + 1 } := h1
      have h3 : FlagRecorded
          (if ({ processCommand (action :: args) env s with
                  turnsPlayed := (processCommand (action :: args) env s).turnsPlayed + 1
                } : GameState).gameRunning &&
              ({ processCommand (action :: args) env s with
                  turnsPlayed := (processCommand (action :: args) env s).turnsPlayed + 1
                } : GameState).player.isAlive
            then checkRoomHazards
              { processCommand (action :: args) env s with
                turnsPlayed := (processCommand (action :: args) env s).turnsPlayed + 1 }
            else
              { processCommand (action :: args) env s with
                turnsPlayed := (processCommand (action :: args) env s).turnsPlayed + 1 }) := by
        apply flagRecorded_ite
        · exact checkRoomHazards_flagRecorded _ h2
        · exact h2
      apply flagRecorded_ite
      · exact checkWinCondition_flagRecorded _ h3
      · exact h3

theorem startGame_isSome (d : WorldDecls) (playerName : String) :
    (startGame d playerName).isSome = true := by
  have hvil : (mapFind (populateWorld d) "village").isSome = true := by
    rw [isSome_world_iff]
    decide
  cases hv : mapFind (populateWorld d) "village" with
  | none => rw [hv] at hvil; cases hvil
  | some v =>
    obtain ⟨s0, hs, _⟩ := startGame_some d playerName v hv
    rw [hs]; rfl

theorem reachable_flagRecorded (d : WorldDecls) (playerName : String) (s : GameState)
    (h : Reachable d playerName s) : FlagRecorded s := by
  induction h with
  | start s0 hs =>
    intro hf
    cases hv : mapFind (populateWorld d) "village" with
    | none =>
      have : startGame d playerName = none := by
        unfold startGame
        dsimp only
        generalize populateWorld d = rooms at hv
        rw [hv]
      rw [this] at hs
      cases hs
    | some v =>
      obtain ⟨t, ht, _, _, _, _, hfb⟩ := startGame_some d playerName v hv
      rw [ht] at hs
      cases hs
      rw [hfb] at hf
      cases hf
  | command command env s _ ih => exact processCommand_flagRecorded command env s ih
  | round i inp s _ ih => exact combatRound_flagRecorded i inp s ih
  | hazards s _ ih => exact checkRoomHazards_flagRecorded s ih
  | winCheck s _ ih => exact checkWinCondition_flagRecorded s ih
  | turn input env s _ ih => exact gameLoopStep_flagRecorded input env s ih

theorem exVictoryState_reachable : Reachable exBossDecls "Hero" exVictoryState := by
  have h : (startGame exBossDecls "Hero").isSome = true := startGame_isSome exBossDecls "Hero"
  have hs : startGame exBossDecls "Hero" = some exBossStart := by
    unfold exBossStart
    cases hs : startGame exBossDecls "Hero" with
    | none => rw [hs] at h; cases h
    | some s0 => rfl
  exact Reachable.command ["attack"] exWolfFight _
    (Reachable.command ["north"] exEnv _ (Reachable.start exBossStart hs))

set_option maxRecDepth 1000000 in
theorem exVictoryState_facts :
    (processCommand ["north"] exEnv exBossStart).room.map
      (fun r => r.enemies.map (fun e => (e.name, e.type, e.health, e.attack, e.defense))) =
      some [("Forest Wolf", EnemyType.BOSS, 40, 15, 5)] ∧
    exVictoryState.finalBossDefeated = true ∧
    exVictoryState.player.health = 44 ∧
    exVictoryState.gameRunning = true ∧
    exVictoryState.room.map (fun r => r.enemies) = some [] := by
  decide

/-- C1 counterexample: for the damage amount `-2147483648` the subtraction
`damage - defense` overflows and wraps to a large positive amount: an enemy of
health 10 and defense 5 is left with health 0 and a new player (health 100
and defense 5) with health 0, where the formula
`max 0 (health - max 1 (damage - defense))` gives 9 and 99. -/
theorem C1_counterexample :
    ((Enemy.new "Goblin Scout" EnemyType.GOBLIN 10 8 5 15).takeDamage (-2147483648)).health =
      0 ∧
    max 0 ((Enemy.new "Goblin Scout" EnemyType.GOBLIN 10 8 5 15).health -
      max 1 (-2147483648 - (Enemy.new "Goblin Scout" EnemyType.GOBLIN 10 8 5 15).defense)) =
        9 ∧
    (((Player.new "Hero").takeDamage (-2147483648)).health = 0) ∧
    max 0 ((Player.new "Hero").health - max 1 (-2147483648 - (Player.new "Hero").defense)) =
      99 ∧
    ¬ (∀ (e : Enemy) (damage : Int),
      (e.takeDamage damage).health = max 0 (e.health - max 1 (damage - e.defense))) := by
  refine ⟨by decide, by decide, by decide, by decide, ?_⟩
  intro h
  exact absurd (h (Enemy.new "Goblin Scout" EnemyType.GOBLIN 10 8 5 15) (-2147483648))
    (by decide)

/-- C1 (amended): when neither `damage - defense` nor
`health - max 1 (damage - defense)` overflows, `Enemy::takeDamage` and
`Player::takeDamage` set the health to
`max 0 (health - max 1 (damage - defense))`; and for every damage amount a hit
on a target of positive health removes at least one health point, whatever
the defense. -/
theorem C1_takeDamage_formula (e : Enemy) (p : Player) (damage : Int) :
    (fitsInt (damage - e.defense) → fitsInt (e.health - max 1 (damage - e.defense)) →
      (e.takeDamage damage).health = max 0 (e.health - max 1 (damage - e.defense))) ∧
    (fitsInt (damage - p.defense) → fitsInt (p.health - max 1 (damage - p.defense)) →
      (p.takeDamage damage).health = max 0 (p.health - max 1 (damage - p.defense))) ∧
    (0 < e.health → (e.takeDamage damage).health + 1 ≤ e.health) ∧
    (0 < p.health → (p.takeDamage damage).health + 1 ≤ p.health) := by
  have hp : (p.takeDamage damage).health =
      max 0 (wrapInt (p.health - max 1 (wrapInt (damage - p.defense)))) := rfl
  refine ⟨Enemy.takeDamage_health_of_fits e damage, ?_, ?_, ?_⟩
  · intro h1 h2
    rw [hp, wrapInt_of_fits _ h1, wrapInt_of_fits _ h2]
  · intro h
    rw [Enemy.takeDamage_health]
    unfold wrapInt
    omega
  · intro h
    rw [hp]
    unfold wrapInt
    omega

/-- C1 witness: the factory boss (health 100, defense 8) hit for 20 keeps 88
health points, and a new player hit for 3 loses at least one. -/
theorem C1_takeDamage_formula_witness :
    (Enemy.createBoss.takeDamage 20).health =
      max 0 (Enemy.createBoss.health - max 1 (20 - Enemy.createBoss.defense)) ∧
    ((Player.new "Hero").takeDamage 3).health + 1 ≤ (Player.new "Hero").health :=
  ⟨(C1_takeDamage_formula Enemy.createBoss (Player.new "Hero") 20).1 (by decide) (by decide),
   (C1_takeDamage_formula Enemy.createBoss (Player.new "Hero") 3).2.2.2 (by decide)⟩

/-- C2: for an enemy constructed with positive health and any sequence of
`takeDamage` calls, afterwards `alive()` holds exactly when the health is
positive, the health lies in `0..maxHealth`, and once `alive()` is false it is
false after every later sequence of calls. -/
theorem C2_alive_one_way (name : String) (type : EnemyType)
    (health attack defense goldReward : Int) (hpos : 0 < health) (ds : List Int) :
    ((takeDamages (Enemy.new name type health attack defense goldReward) ds).alive = true ↔
      0 < (takeDamages (Enemy.new name type health attack defense goldReward) ds).health) ∧
    0 ≤ (takeDamages (Enemy.new name type health attack defense goldReward) ds).health ∧
    (takeDamages (Enemy.new name type health attack defense goldReward) ds).health ≤
      (takeDamages (Enemy.new name type health attack defense goldReward) ds).maxHealth ∧
    ((takeDamages (Enemy.new name type health attack defense goldReward) ds).alive = false →
      ∀ later : List Int,
        (takeDamages (takeDamages (Enemy.new name type health attack defense goldReward) ds)
          later).alive = false) := by
  have hinv := Enemy.Inv_takeDamages ds _
    (Enemy.Inv_new name type health attack defense goldReward hpos)
  refine ⟨Enemy.alive_iff_of_Inv _ hinv, hinv.1, hinv.2.1, ?_⟩
  intro hdead later
  exact Enemy.takeDamages_dead later _ hinv.1 hdead

/-- C2 witness: the factory boss (health 100, defense 8) after the hits 60 and
70 is dead with health 0, and stays dead after a further hit. -/
theorem C2_alive_one_way_witness :
    (0 : Int) < 100 ∧
    (takeDamages (Enemy.new "Shadow Lord" EnemyType.BOSS 100 20 8 100) [60, 70]).alive = false ∧
    (takeDamages (takeDamages (Enemy.new "Shadow Lord" EnemyType.BOSS 100 20 8 100) [60, 70])
      [5]).alive = false :=
  ⟨by decide, by decide,
   (C2_alive_one_way "Shadow Lord" EnemyType.BOSS 100 20 8 100 (by decide) [60, 70]).2.2.2
     (by decide) [5]⟩

/-- C3 counterexample: against a boss of defense `-2147483648` and health 100
the difference `effectiveAttack - defense` overflows: the claim's condition
`health ≤ max 1 (effectiveAttack - defense)` holds, but the hit removes one
health point, the boss stays in the room, no gold is paid and the session goes
on.  Against a boss with 2 health points and gold reward `2147483647` the hit
kills, and the sum `gold + goldReward` overflows: the gold goes from 50 to
`-2147483599`. -/
theorem C3_counterexample :
    exHugeArmourBoss.health ≤
      max 1 ((exState exHugeArmourBoss).player.getAttack - exHugeArmourBoss.defense) ∧
    (combatRound 0 (exAttack 18) (exState exHugeArmourBoss)).2 = false ∧
    (combatRound 0 (exAttack 18) (exState exHugeArmourBoss)).1.player.gold = 50 ∧
    (combatRound 0 (exAttack 18) (exState exHugeArmourBoss)).1.room.map
      (fun r => r.enemies.map (fun e => (e.health, e.alive))) = some [(99, true)] ∧
    exRichBoss.health ≤
      max 1 ((exState exRichBoss).player.getAttack - exRichBoss.defense) ∧
    (exState exRichBoss).player.gold + exRichBoss.goldReward = 2147483697 ∧
    (combatRound 0 (exAttack 18) (exState exRichBoss)).1.player.gold = -2147483599 := by
  decide

/-- C3 (amended): in a combat round where the player chooses attack, the
difference `effectiveAttack - defense` does not overflow and the hit kills the
enemy, the player gains exactly the gold reward when the sum fits in an `int`,
the enemy leaves the room's enemy list, the player's health is unchanged, the
session ends, and `finalBossDefeated` and the victory memory are set exactly
for a BOSS. -/
theorem C3_attack_kills (s : GameState) (cur : Room) (i : Nat) (e : Enemy) (inp : CombatInput)
    (hroom : s.room = some cur) (he : cur.enemies[i]? = some e) (halive : e.alive = true)
    (hplayer : s.player.isAlive = true) (hrun : s.gameRunning = true)
    (hchoice : isAttackChoice (toLowerCase inp.choice) = true)
    (hfit : fitsInt (s.player.getAttack - e.defense))
    (hkill : e.health ≤ max 1 (s.player.getAttack - e.defense)) :
    (fitsInt (s.player.attack + ((s.player.equippedWeapon.map Item.effect).getD 0)) →
      s.player.getAttack =
        s.player.attack + ((s.player.equippedWeapon.map Item.effect).getD 0)) ∧
    (combatRound i inp s).2 = true ∧
    (∀ rest, handleCombat i (inp :: rest) s = (combatRound i inp s).1) ∧
    (fitsInt (s.player.gold + e.goldReward) →
      (combatRound i inp s).1.player.gold = s.player.gold + e.goldReward) ∧
    (combatRound i inp s).1.player.health = s.player.health ∧
    (combatRound i inp s).1.currentRoom = s.currentRoom ∧
    (combatRound i inp s).1.room =
      some { cur with enemies := (cur.enemies.eraseIdx i).filter Enemy.alive } ∧
    (e.type = EnemyType.BOSS →
      (combatRound i inp s).1.finalBossDefeated = true ∧
      victoryMemory ∈ (combatRound i inp s).1.player.memoryJournal) ∧
    (e.type ≠ EnemyType.BOSS →
      (combatRound i inp s).1.finalBossDefeated = s.finalBossDefeated ∧
      (combatRound i inp s).1.player.memoryJournal = s.player.memoryJournal) := by
  have hdead := Enemy.takeDamage_dead_of_le e s.player.getAttack halive hfit hkill
  have hround := combatRound_kill s cur i e inp hroom he hchoice hdead
  obtain ⟨hrm, hgold, hhealth, hcur⟩ := kill_room_gold s cur i e inp hroom he hchoice hdead
  have hloop : s.enemyAlive i = true := by
    simp [GameState.enemyAlive, GameState.enemyAt_of_room s cur i hroom, he, halive]
  refine ⟨?_, ?_, ?_, ?_, hhealth, hcur, hrm, ?_, ?_⟩
  · intro hw
    unfold Player.getAttack
    cases hE : s.player.equippedWeapon with
    | none => simp
    | some w =>
      rw [hE] at hw
      exact wrapInt_of_fits _ hw
  · rw [hround]
  · intro rest
    simp [handleCombat, hloop, hplayer, hrun, hround]
  · intro hg
    rw [hgold, wrapInt_of_fits _ hg]
  · intro hb
    rw [hround]
    simp only [hb, if_true, GameState.modifyRoom]
    exact ⟨trivial, Player.mem_addMemory _ _⟩
  · intro hb
    rw [hround]
    simp only [hb, if_false, GameState.modifyRoom]
    exact ⟨rfl, rfl⟩

/-- C3 witness: a new player (attack 10) attacks the boss (defense 8) that has
2 health left: the round ends the session, pays the 100 gold and records the
victory. -/
theorem C3_attack_kills_witness :
    (combatRound 0 (exAttack 18) (exState exWeakBoss)).2 = true ∧
    (combatRound 0 (exAttack 18) (exState exWeakBoss)).1.player.gold =
      (exState exWeakBoss).player.gold + exWeakBoss.goldReward ∧
    (combatRound 0 (exAttack 18) (exState exWeakBoss)).1.finalBossDefeated = true :=
  have h := C3_attack_kills (exState exWeakBoss) (exKeep exWeakBoss) 0 exWeakBoss (exAttack 18)
    (by decide) (by decide) (by decide) (by decide) (by decide) (by decide) (by decide)
    (by decide)
  ⟨h.2.1, h.2.2.2.1 (by decide), (h.2.2.2.2.2.2.2.1 (by decide)).1⟩

/-- C4 counterexample: a player whose equipped weapon has effect
`-2147483648` has effective attack `-2147483638`; against a boss of defense 20
and health 100 the difference `effectiveAttack - defense` overflows.  The
claim's condition `max 1 (effectiveAttack - defense) < health` holds, but the
hit kills the boss: it leaves the room, its gold is paid and the session is
over without a retaliation. -/
theorem C4_counterexample :
    exCursedState.player.getAttack = -2147483638 ∧
    exCursedState.room.map (fun r => r.enemies) = some [exArmouredBoss] ∧
    max 1 (exCursedState.player.getAttack - exArmouredBoss.defense) < exArmouredBoss.health ∧
    (combatRound 0 (exAttack 18) exCursedState).1.room.map (fun r => r.enemies) = some [] ∧
    (combatRound 0 (exAttack 18) exCursedState).1.player.gold ≠ exCursedState.player.gold ∧
    (combatRound 0 (exAttack 18) exCursedState).1.player.health =
      exCursedState.player.health ∧
    (combatRound 0 (exAttack 18) exCursedState).2 = true := by
  decide

/-- C4 (amended): in a combat round where the player chooses attack, neither
`effectiveAttack - defense` nor the enemy's new health overflows and the enemy
survives, the enemy loses `max 1 (effectiveAttack - defense)` health and
retaliates once with its roll; when the two subtractions of the player's
`takeDamage` do not overflow the player's health becomes
`max 0 (h - max 1 (max 1 r - playerDefense))`; gold and the membership of the
room's enemy list are unchanged, and the session ends exactly when the
player's health has reached 0. -/
theorem C4_attack_survives (s : GameState) (cur : Room) (i : Nat) (e : Enemy)
    (inp : CombatInput)
    (hroom : s.room = some cur) (he : cur.enemies[i]? = some e) (halive : e.alive = true)
    (hplayer : s.player.isAlive = true) (hrun : s.gameRunning = true)
    (hchoice : isAttackChoice (toLowerCase inp.choice) = true)
    (hfit : fitsInt (s.player.getAttack - e.defense))
    (hfit2 : fitsInt (e.health - max 1 (s.player.getAttack - e.defense)))
    (hsurv : max 1 (s.player.getAttack - e.defense) < e.health)
    (hroll : e.attack - 2 ≤ inp.attackRoll ∧ inp.attackRoll ≤ e.attack + 2) :
    (combatRound i inp s).1.room =
      some { cur with
        enemies := cur.enemies.set i
          { e with health := e.health - max 1 (s.player.getAttack - e.defense) } } ∧
    (combatRound i inp s).1.player = s.player.takeDamage (e.performAttack inp.attackRoll) ∧
    e.performAttack inp.attackRoll = max 1 inp.attackRoll ∧
    (fitsInt (max 1 inp.attackRoll - s.player.defense) →
      fitsInt (s.player.health - max 1 (max 1 inp.attackRoll - s.player.defense)) →
      (combatRound i inp s).1.player =
        { s.player with
          health := max 0 (s.player.health -
            max 1 (max 1 inp.attackRoll - s.player.defense)) }) ∧
    (combatRound i inp s).1.player.gold = s.player.gold ∧
    (combatRound i inp s).1.currentRoom = s.currentRoom ∧
    (combatRound i inp s).1.finalBossDefeated = s.finalBossDefeated ∧
    (combatRound i inp s).1.gameRunning = s.gameRunning ∧
    ((combatRound i inp s).2 = true ↔ (combatRound i inp s).1.player.health = 0) ∧
    (∀ rest, handleCombat i (inp :: rest) s =
      if (combatRound i inp s).1.player.health = 0 then (combatRound i inp s).1
      else handleCombat i rest (combatRound i inp s).1) ∧
    ((combatRound i inp s).1.enemyAlive i = true) ∧
    (max 1 (e.attack - 2) ≤ max 1 inp.attackRoll ∧
      max 1 inp.attackRoll ≤ max 1 (e.attack + 2)) := by
  have hsurv2 : (e.takeDamage s.player.getAttack).alive = true :=
    (Enemy.takeDamage_alive_iff e s.player.getAttack halive hfit hfit2).mpr hsurv
  have hof := Enemy.takeDamage_of_survives e s.player.getAttack hfit hfit2 hsurv
  have hnn : 0 ≤ ((playerAttack i s).player.takeDamage (max 1 inp.attackRoll)).health :=
    Player.takeDamage_health_nonneg _ _
  have hround := combatRound_survive s cur i e inp hroom he hchoice hsurv2
  have hloop : s.enemyAlive i = true := by
    simp [GameState.enemyAlive, GameState.enemyAt_of_room s cur i hroom, he, halive]
  have hroom2 := survive_room s cur i e inp hroom he hchoice hsurv2
  have hperf : e.performAttack inp.attackRoll = max 1 inp.attackRoll := by
    simp [Enemy.performAttack, halive]
  have hbrk : (combatRound i inp s).2 = true ↔ (combatRound i inp s).1.player.health = 0 := by
    rw [hround]
    simp only [Bool.not_eq_true']
    exact Player.isAlive_eq_false_iff _ hnn
  refine ⟨?_, ?_, hperf, ?_, ?_, ?_, ?_, ?_, hbrk, ?_, ?_, max_le_max (le_refl _) hroll.1,
    max_le_max (le_refl _) hroll.2⟩
  · rw [hroom2, hof]
  · rw [hround, hperf]; rfl
  · intro h3 h4
    rw [hround]
    show s.player.takeDamage (max 1 inp.attackRoll) = _
    unfold Player.takeDamage
    dsimp only
    rw [wrapInt_of_fits _ h3, wrapInt_of_fits _ h4]
  · rw [hround]; rfl
  · rw [hround]; rfl
  · rw [hround]; rfl
  · rw [hround]; rfl
  · intro rest
    by_cases h0 : (combatRound i inp s).1.player.health = 0
    · have hb := hbrk.mpr h0
      simp [handleCombat, hloop, hplayer, hrun, hb, h0]
    · have hb : (combatRound i inp s).2 = false := by
        cases hB : (combatRound i inp s).2
        · rfl
        · exact absurd (hbrk.mp hB) h0
      simp [handleCombat, hloop, hplayer, hrun, hb, h0]
  · rw [GameState.enemyAlive, GameState.enemyAt_of_room _ _ i hroom2]
    have hlt : i < cur.enemies.length := getElem?_lt _ _ _ he
    simp only [List.getElem?_set_self hlt]
    exact hsurv2

/-- C4 witness: a new player attacks the full-health boss, which survives with
98 health points and retaliates with roll 18: the player keeps 87 health
points, the gold is unchanged and the session goes on. -/
theorem C4_attack_survives_witness :
    (combatRound 0 (exAttack 18) (exState Enemy.createBoss)).1.player =
      { (exState Enemy.createBoss).player with
        health := max 0 ((exState Enemy.createBoss).player.health -
          max 1 (max 1 (exAttack 18).attackRoll - (exState Enemy.createBoss).player.defense)) } ∧
    (combatRound 0 (exAttack 18) (exState Enemy.createBoss)).1.player.gold =
      (exState Enemy.createBoss).player.gold ∧
    ((combatRound 0 (exAttack 18) (exState Enemy.createBoss)).2 = true ↔
      (combatRound 0 (exAttack 18) (exState Enemy.createBoss)).1.player.health = 0) :=
  have h := C4_attack_survives (exState Enemy.createBoss) (exKeep Enemy.createBoss) 0
    Enemy.createBoss (exAttack 18)
    (by decide) (by decide) (by decide) (by decide) (by decide) (by decide) (by decide)
    (by decide) (by decide) (by decide)
  ⟨h.2.2.2.1 (by decide) (by decide), h.2.2.2.2.1, h.2.2.2.2.2.2.2.2.1⟩

/-- C5: a flee attempt with draw at most 70 ends the session with the state
unchanged; with a draw above 70 the enemy retaliates exactly once, nothing but
the player changes, and the loop goes on exactly when the player's health is
still positive. -/
theorem C5_flee (s : GameState) (cur : Room) (i : Nat) (e : Enemy) (inp : CombatInput)
    (hroom : s.room = some cur) (he : cur.enemies[i]? = some e) (halive : e.alive = true)
    (hplayer : s.player.isAlive = true) (hrun : s.gameRunning = true)
    (hna : isAttackChoice (toLowerCase inp.choice) = false)
    (hnu : isUseChoice (toLowerCase inp.choice) = false)
    (hflee : isFleeChoice (toLowerCase inp.choice) = true)
    (hdraw : 1 ≤ inp.fleeRoll ∧ inp.fleeRoll ≤ 100) :
    (inp.fleeRoll ≤ 70 →
      combatRound i inp s = (s, true) ∧ ∀ rest, handleCombat i (inp :: rest) s = s) ∧
    (70 < inp.fleeRoll →
      (combatRound i inp s).1 =
        { s with player := s.player.takeDamage (e.performAttack inp.attackRoll) } ∧
      e.performAttack inp.attackRoll = max 1 inp.attackRoll ∧
      (combatRound i inp s).1.rooms = s.rooms ∧
      (combatRound i inp s).1.enemyAt i = some e ∧
      ((combatRound i inp s).2 = false ↔ 0 < (combatRound i inp s).1.player.health) ∧
      (∀ rest, handleCombat i (inp :: rest) s =
        if 0 < (combatRound i inp s).1.player.health
        then handleCombat i rest (combatRound i inp s).1
        else (combatRound i inp s).1) ∧
      (0 < (combatRound i inp s).1.player.health →
        ((combatRound i inp s).1.enemyAlive i && (combatRound i inp s).1.player.isAlive &&
          (combatRound i inp s).1.gameRunning) = true)) := by
  have hat : s.enemyAt i = some e := by rw [GameState.enemyAt_of_room s cur i hroom, he]
  have hloop : s.enemyAlive i = true := by
    simp [GameState.enemyAlive, hat, halive]
  have hperf : e.performAttack inp.attackRoll = max 1 inp.attackRoll := by
    simp [Enemy.performAttack, halive]
  constructor
  · intro hle
    have hround : combatRound i inp s = (s, true) := by
      simp [combatRound, hna, hnu, hflee, hle]
    refine ⟨hround, ?_⟩
    intro rest
    simp [handleCombat, hloop, hplayer, hrun, hround]
  · intro hgt
    have hng : ¬ inp.fleeRoll ≤ 70 := by omega
    have hea := enemyAttack_alive s i e inp.attackRoll hat halive
    have hround : combatRound i inp s =
        ({ s with player := s.player.takeDamage (max 1 inp.attackRoll) },
          !(s.player.takeDamage (max 1 inp.attackRoll)).isAlive) := by
      simp only [combatRound, hna, hnu, hflee, hng, if_true, if_false, hea]
      cases hA : (s.player.takeDamage (max 1 inp.attackRoll)).isAlive <;> simp
    have hbrk : (combatRound i inp s).2 = false ↔
        0 < (combatRound i inp s).1.player.health := by
      rw [hround]
      simp [Player.isAlive]
    refine ⟨?_, hperf, ?_, ?_, hbrk, ?_, ?_⟩
    · rw [hround, hperf]
    · rw [hround]
    · rw [hround]; exact hat
    · intro rest
      by_cases h0 : 0 < (combatRound i inp s).1.player.health
      · have hb := hbrk.mpr h0
        simp [handleCombat, hloop, hplayer, hrun, hb, h0]
      · have hb : (combatRound i inp s).2 = true := by
          cases hB : (combatRound i inp s).2
          · exact absurd (hbrk.mp hB) h0
          · rfl
        simp [handleCombat, hloop, hplayer, hrun, hb, h0]
    · intro h0
      rw [hround] at h0 ⊢
      have h2 : (s.player.takeDamage (max 1 inp.attackRoll)).isAlive = true := by
        simpa [Player.isAlive] using h0
      rw [Bool.and_eq_true, Bool.and_eq_true]
      exact ⟨⟨hloop, h2⟩, hrun⟩

/-- C5 witness: fleeing from the boss with draw 50 ends the session with the
state unchanged; with draw 90 the player is hit once and the enemy is as
before. -/
theorem C5_flee_witness :
    combatRound 0 (exFlee 50 18) (exState Enemy.createBoss) =
      (exState Enemy.createBoss, true) ∧
    (combatRound 0 (exFlee 90 18) (exState Enemy.createBoss)).1.enemyAt 0 =
      some Enemy.createBoss :=
  ⟨((C5_flee (exState Enemy.createBoss) (exKeep Enemy.createBoss) 0 Enemy.createBoss
      (exFlee 50 18) (by decide) (by decide) (by decide) (by decide) (by decide) (by decide)
      (by decide) (by decide) (by decide)).1 (by decide)).1,
   ((C5_flee (exState Enemy.createBoss) (exKeep Enemy.createBoss) 0 Enemy.createBoss
      (exFlee 90 18) (by decide) (by decide) (by decide) (by decide) (by decide) (by decide)
      (by decide) (by decide) (by decide)).2 (by decide)).2.2.2.1⟩

/-- C6: from a running state whose current room's first alive enemy is a BOSS,
when the player attacks every round, the rounds given bring the boss's health
to 0 and the player is alive afterwards: the boss is alive up to some round and
has health 0 after the next, it has left the room's enemy list, its gold was
paid, `finalBossDefeated` is true and the journal holds the victory string
exactly once, also after any further attack commands, and the next
`checkWinCondition` sets `gameWon` and clears `gameRunning`;
`checkWinCondition` changes nothing when the flag is false or the string is
not in the journal. -/
theorem C6_boss_defeat (s : GameState) (cur : Room) (boss : Enemy)
    (inputs : List CombatInput)
    (hroom : s.room = some cur) (hfirst : cur.getAliveEnemy = some boss)
    (htype : boss.type = EnemyType.BOSS) (hrun : s.gameRunning = true)
    (hj : s.player.memoryJournal.Nodup)
    (hatk : ∀ inp ∈ inputs, isAttackChoice (toLowerCase inp.choice) = true)
    (hdead : (takeDamages boss
      (List.replicate inputs.length s.player.getAttack)).alive = false)
    (hend : (handleAttack inputs s).player.isAlive = true) :
    (∃ k, k < inputs.length ∧
      (takeDamages boss (List.replicate k s.player.getAttack)).alive = true ∧
      (takeDamages boss (List.replicate (k + 1) s.player.getAttack)).alive = false ∧
      (takeDamages boss (List.replicate (k + 1) s.player.getAttack)).health = 0) ∧
    (∃ i, firstAliveIdx cur.enemies = some i ∧ cur.enemies[i]? = some boss ∧
      (handleAttack inputs s).room =
        some { cur with enemies := (cur.enemies.eraseIdx i).filter Enemy.alive }) ∧
    (handleAttack inputs s).player.gold = wrapInt (s.player.gold + boss.goldReward) ∧
    (handleAttack inputs s).finalBossDefeated = true ∧
    (handleAttack inputs s).player.memoryJournal.count victoryMemory = 1 ∧
    (∀ further : List (List CombatInput),
      (further.foldl (fun t cmd => handleAttack cmd t)
        (handleAttack inputs s)).finalBossDefeated = true ∧
      (further.foldl (fun t cmd => handleAttack cmd t)
        (handleAttack inputs s)).player.memoryJournal.count victoryMemory = 1) ∧
    (checkWinCondition (handleAttack inputs s)).gameWon = true ∧
    (checkWinCondition (handleAttack inputs s)).gameRunning = false ∧
    (∀ t : GameState,
      t.finalBossDefeated = false ∨ victoryMemory ∉ t.player.memoryJournal →
      checkWinCondition t = t) := by
  have hfirst2 : cur.enemies.find? Enemy.alive = some boss := hfirst
  obtain ⟨i, hidx, he, halive⟩ := firstAliveIdx_of_find cur.enemies boss hfirst2
  have hres : handleAttack inputs s = handleCombat i inputs s := by
    simp [handleAttack, hroom, hidx]
  have hloop : BossRecorded (handleAttack inputs s) ∧
      (handleAttack inputs s).room =
        some { cur with enemies := (cur.enemies.eraseIdx i).filter Enemy.alive } ∧
      (handleAttack inputs s).player.gold = wrapInt (s.player.gold + boss.goldReward) ∧
      (handleAttack inputs s).currentRoom = s.currentRoom := by
    rw [hres] at hend ⊢
    exact boss_loop i inputs s cur boss hroom he halive htype hrun hj hatk hdead hend
  obtain ⟨hrec, hrm, hgold, _⟩ := hloop
  refine ⟨dies_on_a_hit s.player.getAttack inputs.length boss halive hdead,
    ⟨i, hidx, he, hrm⟩, hgold, hrec.1, BossRecorded.count_eq_one _ hrec, ?_, ?_, ?_, ?_⟩
  · intro further
    have := foldl_handleAttack_bossRecorded further _ hrec
    exact ⟨this.1, BossRecorded.count_eq_one _ this⟩
  · simp [checkWinCondition, hrec.1, Player.hasMemory, hrec.2.1]
  · simp [checkWinCondition, hrec.1, Player.hasMemory, hrec.2.1]
  · intro t ht
    rcases ht with ht | ht
    · simp [checkWinCondition, ht]
    · simp [checkWinCondition, Player.hasMemory, ht]

/-- C6 witness: a new player (attack 10) attacks the boss (defense 8, attack
20) that has 4 health points left.  The boss survives the first hit and
retaliates with roll 18, which lies in `18..22`; the second hit brings its
health to 0: the boss has left the keep, the victory is recorded once, and the
win check ends the game. -/
theorem C6_boss_defeat_witness :
    (handleAttack [exAttack 18, exAttack 20] (exState exWoundedBoss)).player.health = 87 ∧
    (handleAttack [exAttack 18, exAttack 20] (exState exWoundedBoss)).room.map
      (fun r => r.enemies) = some [] ∧
    (handleAttack [exAttack 18, exAttack 20] (exState exWoundedBoss)).finalBossDefeated =
      true ∧
    (handleAttack [exAttack 18, exAttack 20]
      (exState exWoundedBoss)).player.memoryJournal.count victoryMemory = 1 ∧
    (checkWinCondition (handleAttack [exAttack 18, exAttack 20]
      (exState exWoundedBoss))).gameWon = true :=
  have h := C6_boss_defeat (exState exWoundedBoss) (exKeep exWoundedBoss)
    exWoundedBoss [exAttack 18, exAttack 20]
    (by decide) (by decide) (by decide) (by decide) (by decide)
    (by decide) (by decide) (by decide)
  ⟨by decide, by decide, h.2.2.2.1, h.2.2.2.2.1, h.2.2.2.2.2.2.1⟩

/-- C7: when the current room has an alive enemy, `handleMove` is rejected for
every direction: the whole game state (current room, player, every room) is
unchanged. -/
theorem C7_move_blocked (s : GameState) (cur : Room) (direction : String)
    (roll enemyType : Int)
    (hroom : s.room = some cur) (henemy : cur.hasAliveEnemies = true) :
    handleMove direction roll enemyType s = s := by
  simp [handleMove, hroom, henemy]

/-- C7 witness: with the boss alive in the keep, moving west is rejected. -/
theorem C7_move_blocked_witness :
    handleMove "west" 30 0 (exState Enemy.createBoss) = exState Enemy.createBoss :=
  C7_move_blocked (exState Enemy.createBoss) (exKeep Enemy.createBoss) "west" 30 0
    (by decide) (by decide)

/-- C8: a move from a room without alive enemy through an exit leading to a
room `D` of the map makes `D` current and visited and leaves the player
unchanged; `D` gets exactly one enemy appended, alive, not a BOSS and one of the
four `createRandomEnemy` variants, when `D` is "forest" or "cave" and the roll
is at most 60, and keeps its enemy list in every other case. -/
theorem C8_move_encounter (s : GameState) (cur dest : Room) (direction : String)
    (roll enemyType : Int)
    (hroom : s.room = some cur) (hno : cur.hasAliveEnemies = false)
    (hexit : cur.getExit direction ≠ "")
    (hdest : mapFind s.rooms (cur.getExit direction) = some dest)
    (hroll : 1 ≤ roll ∧ roll ≤ 100) :
    (handleMove direction roll enemyType s).currentRoom = cur.getExit direction ∧
    (handleMove direction roll enemyType s).player = s.player ∧
    (handleMove direction roll enemyType s).room =
      some { dest with
        visited := true,
        enemies :=
          if (cur.getExit direction = "forest" ∨ cur.getExit direction = "cave") ∧ roll ≤ 60
          then dest.enemies ++ [Enemy.createRandomEnemy enemyType]
          else dest.enemies } ∧
    ((cur.getExit direction = "forest" ∨ cur.getExit direction = "cave") ∧ 60 < roll →
      (handleMove direction roll enemyType s).room = some { dest with visited := true }) ∧
    (cur.getExit direction ≠ "forest" ∧ cur.getExit direction ≠ "cave" →
      (handleMove direction roll enemyType s).room = some { dest with visited := true }) ∧
    (Enemy.createRandomEnemy enemyType).alive = true ∧
    (Enemy.createRandomEnemy enemyType).type ≠ EnemyType.BOSS ∧
    Enemy.createRandomEnemy enemyType ∈
      [Enemy.new "Goblin Scout" EnemyType.GOBLIN 25 8 2 15,
       Enemy.new "Wild Wolf" EnemyType.WOLF 30 10 1 20,
       Enemy.new "Ancient Skeleton" EnemyType.SKELETON 35 12 4 25,
       Enemy.new "Restless Ghost" EnemyType.GHOST 20 15 0 30] := by
  have hmove := handleMove_success s cur dest direction roll enemyType hroom hno hexit hdest
  have hvis := (moved_room s dest (cur.getExit direction)
    (fun r => if !r.visited then r.setVisited true else r) hdest).trans
    (congrArg some (visit_eq dest))
  have henc : ((({ s with currentRoom := cur.getExit direction } : GameState).modifyRoom
      (fun r => if !r.visited then r.setVisited true else r)).modifyRoom
      (fun r => r.addEnemy (Enemy.createRandomEnemy enemyType))).room =
      some { dest with
        visited := true, enemies := dest.enemies ++ [Enemy.createRandomEnemy enemyType] } := by
    rw [GameState.room_modifyRoom, hvis]
    rfl
  have hmain : (handleMove direction roll enemyType s).room =
      some { dest with
        visited := true,
        enemies :=
          if (cur.getExit direction = "forest" ∨ cur.getExit direction = "cave") ∧ roll ≤ 60
          then dest.enemies ++ [Enemy.createRandomEnemy enemyType]
          else dest.enemies } := by
    rw [hmove]
    by_cases hD : cur.getExit direction = "forest" ∨ cur.getExit direction = "cave"
    · by_cases hr : roll ≤ 60
      · simp only [hD, hr, if_true, and_self]
        exact henc
      · simp only [hD, hr, if_true, if_false, and_false]
        exact hvis
    · simp only [hD, if_false, false_and]
      exact hvis
  refine ⟨?_, ?_, hmain, ?_, ?_, ?_, ?_, ?_⟩
  · rw [hmove]
    split
    · split <;> rfl
    · rfl
  · rw [hmove]
    split
    · split <;> rfl
    · rfl
  · intro h
    have hr : ¬ roll ≤ 60 := by omega
    rw [hmain]
    simp [hr]
  · intro h
    have hD : ¬ (cur.getExit direction = "forest" ∨ cur.getExit direction = "cave") := by
      intro hc
      rcases hc with hc | hc
      · exact h.1 hc
      · exact h.2 hc
    rw [hmain]
    simp [hD]
  · rcases createRandomEnemy_cases enemyType with h | h | h | h <;> rw [h] <;> decide
  · rcases createRandomEnemy_cases enemyType with h | h | h | h <;> rw [h] <;> decide
  · rcases createRandomEnemy_cases enemyType with h | h | h | h <;> rw [h] <;> simp

/-- C8 witness: moving north from the village into "forest" with roll 30
makes the forest current and appends the drawn skeleton. -/
theorem C8_move_encounter_witness :
    (handleMove "north" 30 2 exVillageState).currentRoom = exVillage.getExit "north" ∧
    (handleMove "north" 30 2 exVillageState).room =
      some { exForest with
        visited := true,
        enemies :=
          if (exVillage.getExit "north" = "forest" ∨ exVillage.getExit "north" = "cave") ∧
            (30 : Int) ≤ 60
          then exForest.enemies ++ [Enemy.createRandomEnemy 2]
          else exForest.enemies } :=
  have h := C8_move_encounter exVillageState exVillage exForest "north" 30 2
    (by decide) (by decide) (by decide) (by decide) (by decide)
  ⟨h.1, h.2.2.1⟩

/-- C9 (the code departs from the claim): the world that
`WorldManager::initialize` builds has no room stored under "forest" or "cave",
the only ids for which `handleMove` rolls an encounter; so a new game's move
north from the village enters `dark_forest`, a room created with biome
"forest", and for every encounter roll, also one at most 60, the enemy list of
`dark_forest` is the same as before the move: no enemy is added. -/
theorem C9_world_move_adds_no_enemy (d : WorldDecls) (playerName : String)
    (roll enemyType : Int) :
    mapFind (populateWorld d) "forest" = none ∧
    mapFind (populateWorld d) "cave" = none ∧
    ∃ s0, startGame d playerName = some s0 ∧
      (handleMove "north" roll enemyType s0).currentRoom = "dark_forest" ∧
      (mapFind s0.rooms "dark_forest").map Room.enemies =
        some [d.makeEnemy "Forest Wolf" 40 15 5] ∧
      (handleMove "north" roll enemyType s0).room.map Room.enemies =
        some [d.makeEnemy "Forest Wolf" 40 15 5] := by
  have hnf : mapFind (WorldManager.createExpandedWorld []) "forest" = none := by decide
  have hnc : mapFind (WorldManager.createExpandedWorld []) "cave" = none := by decide
  refine ⟨?_, ?_, ?_⟩
  · simp only [populateWorld, WorldManager.initializeWorld, WorldManager.addSecrets,
      WorldManager.addQuestItems, WorldManager.populateWorld, mapFind_inRoom]
    simp [hnf]
  · simp only [populateWorld, WorldManager.initializeWorld, WorldManager.addSecrets,
      WorldManager.addQuestItems, WorldManager.populateWorld, mapFind_inRoom]
    simp [hnc]
  have hv0 : (mapFind (WorldManager.createExpandedWorld []) "village").map
      (fun r => (r.exits, r.enemies)) =
      some ([("east", "stone_bridge"), ("north", "dark_forest"), ("south", "desert_road")],
        []) := by decide
  have hf0 : (mapFind (WorldManager.createExpandedWorld []) "dark_forest").map Room.enemies =
      some [] := by decide
  obtain ⟨v0, hv0f, hv0e⟩ : ∃ v0, mapFind (WorldManager.createExpandedWorld []) "village" =
      some v0 ∧ (v0.exits, v0.enemies) =
        ([("east", "stone_bridge"), ("north", "dark_forest"), ("south", "desert_road")],
          []) := by
    cases h : mapFind (WorldManager.createExpandedWorld []) "village" with
    | none => rw [h] at hv0; cases hv0
    | some v0 => rw [h] at hv0; exact ⟨v0, rfl, by simpa using hv0⟩
  obtain ⟨f0, hf0f, hf0e⟩ : ∃ f0, mapFind (WorldManager.createExpandedWorld []) "dark_forest" =
      some f0 ∧ f0.enemies = [] := by
    cases h : mapFind (WorldManager.createExpandedWorld []) "dark_forest" with
    | none => rw [h] at hf0; cases hf0
    | some f0 => rw [h] at hf0; exact ⟨f0, rfl, by simpa using hf0⟩
  have hvex : v0.exits =
      [("east", "stone_bridge"), ("north", "dark_forest"), ("south", "desert_road")] :=
    (Prod.mk.inj hv0e).1
  have hven : v0.enemies = [] := (Prod.mk.inj hv0e).2
  have hvillage : ∃ v, mapFind (populateWorld d) "village" = some v ∧
      v.exits = v0.exits ∧ v.enemies = v0.enemies := by
    simp only [populateWorld, WorldManager.initializeWorld, WorldManager.addSecrets,
      WorldManager.addQuestItems, WorldManager.populateWorld, mapFind_inRoom]
    simp [hv0f, Room.addItem, Room.addEnemy]
  have hforest : ∃ f, mapFind (populateWorld d) "dark_forest" = some f ∧
      f.enemies = [d.makeEnemy "Forest Wolf" 40 15 5] := by
    simp only [populateWorld, WorldManager.initializeWorld, WorldManager.addSecrets,
      WorldManager.addQuestItems, WorldManager.populateWorld, mapFind_inRoom]
    simp [hf0f, Room.addItem, Room.addEnemy, hf0e]
  obtain ⟨v, hv, hvx, hve⟩ := hvillage
  obtain ⟨f, hf, hfe⟩ := hforest
  obtain ⟨s0, hs, hrooms, hcur, _, _⟩ := startGame_some d playerName v hv
  refine ⟨s0, hs, ?_⟩
  have hroom : s0.room = some (v.setVisited true) := by
    simp [GameState.room, hrooms, hcur, mapFind_mapModify, hv]
  have hno : (v.setVisited true).hasAliveEnemies = false := by
    simp [Room.hasAliveEnemies, Room.getAliveEnemy, Room.setVisited, hve, hven]
  have hexit : (v.setVisited true).getExit "north" = "dark_forest" := by
    simp [Room.getExit, Room.setVisited, hvx, hvex, mapFind]
  have hdest : mapFind s0.rooms "dark_forest" = some f := by
    simp [hrooms, mapFind_mapModify, hf]
  have hmove := handleMove_success s0 (v.setVisited true) f "north" roll enemyType hroom hno
    (by rw [hexit]; decide) (by rw [hexit]; exact hdest)
  have hvis := (moved_room s0 f "dark_forest"
    (fun r => if !r.visited then r.setVisited true else r) hdest).trans
    (congrArg some (visit_eq f))
  rw [hexit] at hmove
  simp only [show ¬ ("dark_forest" = "forest" ∨ "dark_forest" = "cave") by decide,
    if_false] at hmove
  rw [hmove]
  refine ⟨rfl, ?_, ?_⟩
  · simp [hdest, hfe]
  · rw [hvis]
    simp [hfe]

/-- C10: when the current room holds an item named `n`, `handleTake n` removes
the first such item from the room (the others keep their order) and appends it
to the inventory, so the items of room and inventory together are the same as
before; a WEAPON becomes the equipped weapon and any other type leaves the
equipped weapon alone; for "rusty sword", "ancient key" and "crystal shard"
the matching memory is in the journal exactly once afterwards, and a pickup
made when that memory is already recorded leaves the journal as it is. -/
theorem C10_take (s : GameState) (cur : Room) (n : String)
    (hroom : s.room = some cur) (hhas : cur.hasItem n = true)
    (hj : s.player.memoryJournal.Nodup) :
    ∃ pre item post,
      cur.items = pre ++ item :: post ∧ item.name = n ∧ (∀ x ∈ pre, x.name ≠ n) ∧
      (handleTake n s).room = some { cur with items := pre ++ post } ∧
      (handleTake n s).player.inventory = s.player.inventory ++ [item] ∧
      (pre ++ post).length + (handleTake n s).player.inventory.length =
        cur.items.length + s.player.inventory.length ∧
      ((pre ++ post) ++ (handleTake n s).player.inventory).Perm
        (cur.items ++ s.player.inventory) ∧
      (item.type = ItemType.WEAPON → (handleTake n s).player.equippedWeapon = some item) ∧
      (item.type ≠ ItemType.WEAPON →
        (handleTake n s).player.equippedWeapon = s.player.equippedWeapon) ∧
      (n = "rusty sword" →
        (handleTake n s).player.memoryJournal.count swordMemory = 1 ∧
        (swordMemory ∈ s.player.memoryJournal →
          (handleTake n s).player.memoryJournal = s.player.memoryJournal)) ∧
      (n = "ancient key" →
        (handleTake n s).player.memoryJournal.count keyMemory = 1 ∧
        (keyMemory ∈ s.player.memoryJournal →
          (handleTake n s).player.memoryJournal = s.player.memoryJournal)) ∧
      (n = "crystal shard" →
        (handleTake n s).player.memoryJournal.count crystalMemory = 1 ∧
        (crystalMemory ∈ s.player.memoryJournal →
          (handleTake n s).player.memoryJournal = s.player.memoryJournal)) ∧
      (handleTake n s).player.memoryJournal.Nodup := by
  obtain ⟨item, hfind⟩ := find_isSome_of_any _ cur.items hhas
  obtain ⟨pre, post, hsplit, hpre, hitem, herase⟩ := find_split _ cur.items item hfind
  have hname : item.name = n := by simpa using hitem
  have htake := handleTake_found s cur n item hroom hfind
  have hroom2 : (handleTake n s).room = some { cur with items := pre ++ post } := by
    rw [htake]
    have : ∀ (t : GameState) (p : Player),
        ({ t with player := p } : GameState).room = t.room := fun _ _ => rfl
    rw [this, GameState.room_modifyRoom, hroom]
    simp [Room.takeItem, hfind, herase]
  -- the player after the memory triggers, before the weapon is equipped
  have hmem : ∀ (m : String),
      ((s.player.addItem item).addMemory m).inventory = s.player.inventory ++ [item] ∧
      ((s.player.addItem item).addMemory m).equippedWeapon = s.player.equippedWeapon ∧
      ((s.player.addItem item).addMemory m).memoryJournal.count m = 1 ∧
      ((s.player.addItem item).addMemory m).memoryJournal.Nodup ∧
      (m ∈ s.player.memoryJournal →
        ((s.player.addItem item).addMemory m).memoryJournal = s.player.memoryJournal) := by
    intro m
    have hj2 : (s.player.addItem item).memoryJournal.Nodup := hj
    refine ⟨(Player.addMemory_inventory _ m).1, (Player.addMemory_inventory _ m).2,
      Player.addMemory_count _ m hj2, Player.addMemory_nodup _ m hj2, ?_⟩
    intro hm
    have : m ∈ (s.player.addItem item).memoryJournal := hm
    rw [Player.addMemory_of_mem _ m this]
    rfl
  have hequip : ∀ (p : Player),
      (p.equipWeapon (some item)).inventory = p.inventory ∧
      (p.equipWeapon (some item)).memoryJournal = p.memoryJournal ∧
      (item.type = ItemType.WEAPON → (p.equipWeapon (some item)).equippedWeapon = some item) := by
    intro p
    unfold Player.equipWeapon
    dsimp only
    split
    · exact ⟨rfl, rfl, fun _ => rfl⟩
    · rename_i h
      exact ⟨rfl, rfl, fun hw => absurd hw h⟩
  -- the three trigger names are distinct strings
  have hne1 : ¬ ("ancient key" = "rusty sword") := by decide
  have hne2 : ¬ ("crystal shard" = "rusty sword") := by decide
  have hne3 : ¬ ("crystal shard" = "ancient key") := by decide
  have hplayer : ∃ p : Player,
      (handleTake n s).player =
        (if item.type = ItemType.WEAPON then p.equipWeapon (some item) else p) ∧
      p.inventory = s.player.inventory ++ [item] ∧
      p.equippedWeapon = s.player.equippedWeapon ∧
      p.memoryJournal.Nodup ∧
      (n = "rusty sword" → p.memoryJournal.count swordMemory = 1 ∧
        (swordMemory ∈ s.player.memoryJournal → p.memoryJournal = s.player.memoryJournal)) ∧
      (n = "ancient key" → p.memoryJournal.count keyMemory = 1 ∧
        (keyMemory ∈ s.player.memoryJournal → p.memoryJournal = s.player.memoryJournal)) ∧
      (n = "crystal shard" → p.memoryJournal.count crystalMemory = 1 ∧
        (crystalMemory ∈ s.player.memoryJournal →
          p.memoryJournal = s.player.memoryJournal)) := by
    refine ⟨if item.name = "rusty sword" then (s.player.addItem item).addMemory swordMemory
        else if item.name = "ancient key" then (s.player.addItem item).addMemory keyMemory
        else if item.name = "crystal shard" then (s.player.addItem item).addMemory crystalMemory
        else s.player.addItem item, ?_, ?_⟩
    · rw [htake]
    · rw [hname]
      by_cases h1 : n = "rusty sword"
      · subst h1
        simp only [if_true]
        obtain ⟨a, b, c, e, f⟩ := hmem swordMemory
        exact ⟨a, b, e, fun _ => ⟨c, f⟩, fun h => absurd h.symm hne1,
          fun h => absurd h.symm hne2⟩
      · by_cases h2 : n = "ancient key"
        · subst h2
          simp only [h1, if_true, if_false]
          obtain ⟨a, b, c, e, f⟩ := hmem keyMemory
          exact ⟨a, b, e, fun h => h.elim, fun _ => ⟨c, f⟩,
            fun h => absurd h.symm hne3⟩
        · by_cases h3 : n = "crystal shard"
          · subst h3
            simp only [h1, h2, if_true, if_false]
            obtain ⟨a, b, c, e, f⟩ := hmem crystalMemory
            exact ⟨a, b, e, fun h => h.elim, fun h => h.elim, fun _ => ⟨c, f⟩⟩
          · simp only [h1, h2, h3, if_false]
            exact ⟨rfl, rfl, hj, fun h => h.elim, fun h => h.elim, fun h => h.elim⟩
  obtain ⟨p, hp, hinv, heq, hnd, hs1, hs2, hs3⟩ := hplayer
  have hinv2 : (handleTake n s).player.inventory = s.player.inventory ++ [item] := by
    rw [hp]
    split
    · rw [(hequip p).1, hinv]
    · exact hinv
  have hjr : (handleTake n s).player.memoryJournal = p.memoryJournal := by
    rw [hp]
    split
    · exact (hequip p).2.1
    · rfl
  refine ⟨pre, item, post, hsplit, hname, ?_, hroom2, hinv2, ?_, ?_, ?_, ?_, ?_, ?_, ?_, ?_⟩
  · intro x hx hxn
    have := hpre x hx
    simp [hxn] at this
  · rw [hinv2, hsplit]
    simp
    omega
  · rw [hinv2, hsplit]
    have h1 : (pre ++ post ++ (s.player.inventory ++ [item])).Perm
        (pre ++ post ++ ([item] ++ s.player.inventory)) :=
      List.Perm.append_left _ List.perm_append_comm
    have h2 : (pre ++ post ++ ([item] ++ s.player.inventory)) =
        pre ++ (post ++ [item]) ++ s.player.inventory := by simp
    have h3 : (pre ++ (post ++ [item]) ++ s.player.inventory).Perm
        (pre ++ ([item] ++ post) ++ s.player.inventory) :=
      List.Perm.append_right _ (List.Perm.append_left _ List.perm_append_comm)
    have h4 : pre ++ ([item] ++ post) ++ s.player.inventory =
        pre ++ item :: post ++ s.player.inventory := by simp
    rw [h2] at h1
    rw [h4] at h3
    exact h1.trans h3
  · intro hw
    rw [hp]
    simp only [hw, if_true]
    exact (hequip p).2.2 hw
  · intro hw
    rw [hp]
    simp only [hw, if_false]
    exact heq
  · intro h
    rw [hjr]
    exact hs1 h
  · intro h
    rw [hjr]
    exact hs2 h
  · intro h
    rw [hjr]
    exact hs3 h
  · rw [hjr]
    exact hnd

/-- C10 witness: taking the rusty sword in the village equips it and records
the sword memory once. -/
theorem C10_take_witness :
    ∃ item : Item, item.name = "rusty sword" ∧
      (handleTake "rusty sword" exVillageState).player.inventory =
        exVillageState.player.inventory ++ [item] ∧
      (handleTake "rusty sword" exVillageState).player.memoryJournal.count swordMemory = 1 := by
  obtain ⟨_, item, _, _, h2, _, _, h5, _, _, _, _, h10, _⟩ :=
    C10_take exVillageState exVillage "rusty sword" (by decide) (by decide) (by decide)
  exact ⟨item, h2, h5, (h10 rfl).1⟩

/-- C11 (the code departs from the claim): in a new game the village holds
the items "Health Potion", "Wooden Shield" and "Quest Journal"; the command
line "take Health Potion" parses to the lower-cased tokens take, health,
potion, so `processCommand` looks for an item named "health potion", finds
none, and returns the state unchanged: the item stays in the room and the
inventory stays empty. -/
theorem C11_world_take_fails (d : WorldDecls) (playerName : String) (env : CommandEnv) :
    ∃ s0, startGame d playerName = some s0 ∧
      s0.room.map (fun r => r.items.map Item.name) =
        some ["Health Potion", "Wooden Shield", "Quest Journal"] ∧
      s0.player.inventory = [] ∧
      parseCommand "take Health Potion" = ["take", "health", "potion"] ∧
      processCommand (parseCommand "take Health Potion") env s0 = s0 ∧
      processCommand (parseCommand "take health potion") env s0 = s0 ∧
      gameLoopStep "take Health Potion" env s0 =
        { s0 with turnsPlayed := s0.turnsPlayed + 1 } := by
  have hv0 : (mapFind (WorldManager.createExpandedWorld []) "village").map
      (fun r => (r.items, r.hazard)) = some ([], HazardType.NONE) := by decide
  obtain ⟨v0, hv0f, hv0i, hv0h⟩ : ∃ v0, mapFind (WorldManager.createExpandedWorld []) "village" =
      some v0 ∧ v0.items = [] ∧ v0.hazard = HazardType.NONE := by
    cases h : mapFind (WorldManager.createExpandedWorld []) "village" with
    | none => rw [h] at hv0; cases hv0
    | some v0 =>
      rw [h] at hv0
      simp at hv0
      exact ⟨v0, rfl, hv0.1, hv0.2⟩
  obtain ⟨v, hv, hvi, hvh⟩ : ∃ v, mapFind (populateWorld d) "village" = some v ∧
      v.items =
        [Item.new "Health Potion" "Restores 50 health"
           (d.itemType WorldItemKind.CONSUMABLE) 50 0,
         Item.new "Wooden Shield" "Basic protection" (d.itemType WorldItemKind.EQUIPMENT) 20 0,
         Item.new "Quest Journal" "Tracks your adventure" (d.itemType WorldItemKind.QUEST) 0 0] ∧
      v.hazard = HazardType.NONE := by
    simp only [populateWorld, WorldManager.initializeWorld, WorldManager.addSecrets,
      WorldManager.addQuestItems, WorldManager.populateWorld, mapFind_inRoom]
    simp [hv0f, Room.addItem, Room.addEnemy, hv0i, hv0h]
  obtain ⟨s0, hs, hrooms, hcur, hpl, hrun⟩ := startGame_some d playerName v hv
  have hroom : s0.room = some (v.setVisited true) := by
    simp [GameState.room, hrooms, hcur, mapFind_mapModify, hv]
  have hp1 : parseCommand "take Health Potion" = ["take", "health", "potion"] := by decide
  have hp2 : parseCommand "take health potion" = ["take", "health", "potion"] := by decide
  have hname : fullItemName "health" ["potion"] = "health potion" := by decide
  have htake : handleTake "health potion" s0 = s0 := by
    simp [handleTake, hroom, Room.takeItem, Room.setVisited, hvi, Item.new]
  have hproc : processCommand ["take", "health", "potion"] env s0 = s0 := by
    have : processCommand ["take", "health", "potion"] env s0 =
        handleTake (fullItemName "health" ["potion"]) s0 := by
      simp [processCommand]
    rw [this, hname, htake]
  refine ⟨s0, hs, ?_, ?_, hp1, ?_, ?_, ?_⟩
  · rw [hroom]
    simp [Room.setVisited, hvi, Item.new]
  · rw [hpl]; rfl
  · rw [hp1, hproc]
  · rw [hp2, hproc]
  · have hne : ("take Health Potion" : String) ≠ "" := by decide
    have hal : s0.player.isAlive = true := by rw [hpl]; rfl
    have hhaz : ∀ t : Int, checkRoomHazards { s0 with turnsPlayed := t } =
        { s0 with turnsPlayed := t } := by
      intro t
      have hr : ({ s0 with turnsPlayed := t } : GameState).room = some (v.setVisited true) :=
        hroom
      simp [checkRoomHazards, hr, Room.setVisited, hvh]
    have hfb : s0.finalBossDefeated = false := hrun.2
    simp only [gameLoopStep, hne, if_false, hp1, hproc, hhaz]
    simp [hrun.1, hal, checkWinCondition, hfb]

/-- C12 counterexample: a new player (health 100, maximum 100) holding a
POTION of effect `2147483647` uses it: the sum `health + effect` overflows and
the health becomes `-2147483549`, where `min (health + e) maxHealth` is 100. -/
theorem C12_counterexample :
    exElixirState.player.getItem "elixir" = some exElixir ∧
    exElixir.type = ItemType.POTION ∧ 0 ≤ exElixir.effect ∧
    min (exElixirState.player.health + exElixir.effect) exElixirState.player.maxHealth =
      100 ∧
    (handleUse "elixir" exElixirState).player.health = -2147483549 := by
  decide

/-- C12 (amended): when the first inventory item named `n` is a POTION with
effect `e ≥ 0` and the sum `health + e` does not overflow, `handleUse n` sets the
player's health to `min (health + e) maxHealth`, removes exactly that item from
the inventory, the others keeping their order, and changes nothing else in the
game state. -/
theorem C12_use_potion (s : GameState) (n : String) (item : Item)
    (hget : s.player.getItem n = some item) (htype : item.type = ItemType.POTION)
    (heff : 0 ≤ item.effect) (hfit : fitsInt (s.player.health + item.effect)) :
    ∃ pre post,
      s.player.inventory = pre ++ item :: post ∧ (∀ x ∈ pre, x.name ≠ n) ∧ item.name = n ∧
      handleUse n s =
        { s with
          player :=
            { s.player with
              health := min (s.player.health + item.effect) s.player.maxHealth,
              inventory := pre ++ post } } ∧
      (handleUse n s).player.health =
        min (s.player.health + item.effect) s.player.maxHealth ∧
      (handleUse n s).player.inventory = pre ++ post ∧
      (handleUse n s).player.gold = s.player.gold ∧
      (handleUse n s).player.equippedWeapon = s.player.equippedWeapon ∧
      (handleUse n s).player.memoryJournal = s.player.memoryJournal ∧
      (handleUse n s).rooms = s.rooms ∧
      (s.player.health ≤ s.player.maxHealth →
        s.player.health ≤ (handleUse n s).player.health) := by
  obtain ⟨pre, post, hsplit, hpre, hitem, herase⟩ :=
    find_split _ s.player.inventory item hget
  have hname : item.name = n := by simpa using hitem
  have huse : handleUse n s =
      { s with
        player :=
          { s.player with
            health := min (s.player.health + item.effect) s.player.maxHealth,
            inventory := pre ++ post } } := by
    simp only [handleUse, hget, htype, if_true, Player.heal, Player.removeItem, herase,
      wrapInt_of_fits _ hfit]
  refine ⟨pre, post, hsplit, ?_, hname, huse, ?_, ?_, ?_, ?_, ?_, ?_, ?_⟩
  · intro x hx hxn
    have := hpre x hx
    simp [hxn] at this
  · rw [huse]
  · rw [huse]
  · rw [huse]
  · rw [huse]
  · rw [huse]
  · rw [huse]
  · intro hle
    rw [huse]
    exact le_min (by omega) hle

/-- C12 witness: a player with 60 of 100 health points holding the village's
health potion (effect 20) uses it: the health becomes 80, the potion is gone,
and gold and rooms are as before. -/
theorem C12_use_potion_witness :
    exWoundedState.player.health = 60 ∧
    (handleUse "health potion" exWoundedState).player.health = 80 ∧
    (handleUse "health potion" exWoundedState).player.inventory = [] ∧
    (handleUse "health potion" exWoundedState).player.gold = exWoundedState.player.gold ∧
    (handleUse "health potion" exWoundedState).rooms = exWoundedState.rooms := by
  obtain ⟨pre, post, hsplit, _, _, _, hhealth, hinv, hgold, _, _, hrooms, _⟩ :=
    C12_use_potion exWoundedState "health potion"
      (Item.new "health potion" "A small vial of red liquid" ItemType.POTION 25 20)
      (by decide) (by decide) (by decide) (by decide)
  refine ⟨by decide, ?_, by decide, hgold, hrooms⟩
  rw [hhealth]
  decide

/-- C13 (the code departs from the claim): in the engine's own temple (exits
north to keep and west to village) a player who picked up the ancient key, a
KEY, uses it: the room has the same two exit directions as before, and the
exit north, which led to keep, now leads to chamber. -/
theorem C13_key_overwrites_north :
    (handleTake "ancient key" (exWorldState "temple")).room.map Room.id = some "temple" ∧
    ((handleTake "ancient key" (exWorldState "temple")).player.getItem "ancient key").map
      Item.type = some ItemType.KEY ∧
    (handleTake "ancient key" (exWorldState "temple")).room.map Room.exits =
      some [("north", "keep"), ("west", "village")] ∧
    (handleUse "ancient key" (handleTake "ancient key" (exWorldState "temple"))).room.map
      Room.exits = some [("north", "chamber"), ("west", "village")] ∧
    (handleUse "ancient key" (handleTake "ancient key" (exWorldState "temple"))).room.map
      (fun r => r.getAvailableExits.length) =
      (handleTake "ancient key" (exWorldState "temple")).room.map
        (fun r => r.getAvailableExits.length) ∧
    (handleTake "ancient key" (exWorldState "temple")).room.map
      (fun r => r.getExit "north") = some "keep" ∧
    (handleUse "ancient key" (handleTake "ancient key" (exWorldState "temple"))).room.map
      (fun r => r.getExit "north") = some "chamber" := by
  decide

/-- C14 (the code departs from the claim): the take branch of
`processCommand` calls `handleTake` with all remaining words joined by single
spaces, but the use branch calls `handleUse` with the first remaining word
only; so with a "health potion" in the inventory the command use health
potion changes nothing, while `handleUse "health potion"` consumes the
potion. -/
theorem C14_use_first_word_only :
    (∀ (first : String) (more : List String) (env : CommandEnv) (s : GameState),
      processCommand ("take" :: first :: more) env s =
        handleTake (fullItemName first more) s ∧
      processCommand ("get" :: first :: more) env s =
        handleTake (fullItemName first more) s ∧
      processCommand ("pick" :: first :: more) env s =
        handleTake (fullItemName first more) s) ∧
    (∀ (first : String) (more : List String) (env : CommandEnv) (s : GameState),
      processCommand ("use" :: first :: more) env s = handleUse first s) ∧
    fullItemName "health" ["potion"] = "health potion" ∧
    processCommand ["take", "health", "potion"] exEnv (exWorldState "village") =
      handleTake "health potion" (exWorldState "village") ∧
    processCommand ["use", "health", "potion"] exEnv
      (handleTake "health potion" (exWorldState "village")) =
      handleTake "health potion" (exWorldState "village") ∧
    handleUse "health potion" (handleTake "health potion" (exWorldState "village")) ≠
      handleTake "health potion" (exWorldState "village") ∧
    (handleUse "health potion"
      (handleTake "health potion" (exWorldState "village"))).player.inventory = [] ∧
    (processCommand ["use", "health", "potion"] exEnv
      (handleTake "health potion" (exWorldState "village"))).player.inventory.map Item.name =
      ["health potion"] := by
  refine ⟨?_, ?_, by decide, by decide, by decide, by decide, by decide, by decide⟩
  · intro first more env s
    refine ⟨?_, ?_, ?_⟩ <;> simp [processCommand]
  · intro first more env s
    simp [processCommand]

/-- C15 (the code departs from the claim): `checkRoomHazards` passes the
amounts 2 and 1 to `Player::takeDamage`, which subtracts the defense first; a
new player (health 100, defense 5) in the CURSED chamber ends at 99, not 98,
and in general the loss is `max 1 (2 - defense)` or `max 1 (1 - defense)`,
computed in `int` arithmetic. -/
theorem C15_hazard_uses_defense :
    exChamber.hazard = HazardType.CURSED ∧
    (exWorldState "chamber").room = some exChamber ∧
    (exWorldState "chamber").player.health = 100 ∧
    (exWorldState "chamber").player.defense = 5 ∧
    (checkRoomHazards (exWorldState "chamber")).player.health = 99 ∧
    (∀ (p : Player) (r : Room) (key : String) (run won boss : Bool) (turns : Int),
      (checkRoomHazards
        { player := p, rooms := [(key, r)], currentRoom := key, gameRunning := run,
          gameWon := won, turnsPlayed := turns, finalBossDefeated := boss }).player.health =
        if r.hazard = HazardType.NONE then p.health
        else if r.hazard = HazardType.POISON ∨ r.hazard = HazardType.CURSED then
          max 0 (wrapInt (p.health - max 1 (wrapInt (2 - p.defense))))
        else max 0 (wrapInt (p.health - max 1 (wrapInt (1 - p.defense))))) := by
  refine ⟨by decide, by decide, by decide, by decide, by decide, ?_⟩
  intro p r key run won boss turns
  have hroom : GameState.room ⟨p, [(key, r)], key, run, won, turns, boss⟩ = some r := by
    simp [GameState.room, mapFind]
  simp only [checkRoomHazards, hroom]
  cases r.hazard <;> simp [Player.takeDamage]

/-- C17: invalid game actions change no state.  In a state with current room
`cur`: `handleMove` into a direction without exit (no alive enemy present),
`handleAttack` without an alive enemy, and `handleUse` of a name the player
does not hold, of a WEAPON, TREASURE or QUEST_ITEM, or of a KEY outside the
pair ("temple", "ancient key") each return the state they were given. -/
theorem C17_invalid_actions (s : GameState) (cur : Room) (hroom : s.room = some cur) :
    (∀ (direction : String) (roll enemyType : Int),
      cur.hasAliveEnemies = false → cur.getExit direction = "" →
      handleMove direction roll enemyType s = s) ∧
    (∀ inputs : List CombatInput, cur.hasAliveEnemies = false → handleAttack inputs s = s) ∧
    (∀ name : String, s.player.hasItem name = false → handleUse name s = s) ∧
    (∀ (name : String) (item : Item), s.player.getItem name = some item →
      item.type = ItemType.WEAPON ∨ item.type = ItemType.TREASURE ∨
        item.type = ItemType.QUEST_ITEM →
      handleUse name s = s) ∧
    (∀ (name : String) (item : Item), s.player.getItem name = some item →
      item.type = ItemType.KEY → ¬ (cur.id = "temple" ∧ name = "ancient key") →
      handleUse name s = s) := by
  refine ⟨?_, ?_, ?_, ?_, ?_⟩
  · intro direction roll enemyType hno hexit
    simp [handleMove, hroom, hno, hexit]
  · intro inputs hno
    have hfind : cur.enemies.find? Enemy.alive = none := by
      simpa [Room.hasAliveEnemies, Room.getAliveEnemy] using hno
    simp [handleAttack, hroom, firstAliveIdx_none_of_find _ hfind]
  · intro name hhas
    have := find_none_of_any_false _ s.player.inventory hhas
    simp [handleUse, Player.getItem, this]
  · intro name item hget ht
    have h1 : item.type ≠ ItemType.POTION := by
      rcases ht with h | h | h <;> rw [h] <;> decide
    have h2 : item.type ≠ ItemType.KEY := by
      rcases ht with h | h | h <;> rw [h] <;> decide
    simp [handleUse, hget, h1, h2]
  · intro name item hget ht hpair
    have h1 : ¬ (ItemType.KEY = ItemType.POTION) := by decide
    simp only [handleUse, hget, ht, h1, hroom, if_false, if_true, hpair]

/-- C17 witness: a new player in the fallback village cannot go south, has
nothing to attack, and holds no lamp. -/
theorem C17_invalid_actions_witness :
    handleMove "south" 30 0 (exWorldState "village") = exWorldState "village" ∧
    handleAttack [exAttack 18] (exWorldState "village") = exWorldState "village" ∧
    handleUse "lamp" (exWorldState "village") = exWorldState "village" :=
  have h := C17_invalid_actions (exWorldState "village") exVillage (by decide)
  ⟨h.1 "south" 30 0 (by decide) (by decide), h.2.1 [exAttack 18] (by decide),
   h.2.2.1 "lamp" (by decide)⟩

/-- C18: when some item of the room is named `n`, `Room::takeItem n` returns
the first such item and the item list loses exactly that position, all other
items (also later ones named `n`) keeping their order; when no item is named
`n` it returns nothing and the room is unchanged. -/
theorem C18_takeItem (r : Room) (n : String) :
    (r.hasItem n = true →
      ∃ pre item post,
        r.items = pre ++ item :: post ∧ (∀ x ∈ pre, x.name ≠ n) ∧ item.name = n ∧
        r.takeItem n = (some item, { r with items := pre ++ post })) ∧
    (r.hasItem n = false → r.takeItem n = (none, r)) := by
  constructor
  · intro hhas
    obtain ⟨item, hfind⟩ := find_isSome_of_any _ r.items hhas
    obtain ⟨pre, post, hsplit, hpre, hitem, herase⟩ := find_split _ r.items item hfind
    refine ⟨pre, item, post, hsplit, ?_, by simpa using hitem, ?_⟩
    · intro x hx hxn
      have := hpre x hx
      simp [hxn] at this
    · simp [Room.takeItem, hfind, herase]
  · intro hhas
    have := find_none_of_any_false _ r.items hhas
    simp [Room.takeItem, this]

/-- C18 witness: the fallback temple gives up its crystal shard and keeps the
ancient key; it holds no lamp. -/
theorem C18_takeItem_witness :
    (∃ pre item post,
      exTemple.items = pre ++ item :: post ∧ (∀ x ∈ pre, x.name ≠ "crystal shard") ∧
      item.name = "crystal shard" ∧
      exTemple.takeItem "crystal shard" = (some item, { exTemple with items := pre ++ post })) ∧
    exTemple.takeItem "lamp" = (none, exTemple) :=
  ⟨(C18_takeItem exTemple "crystal shard").1 (by decide),
   (C18_takeItem exTemple "lamp").2 (by decide)⟩

/-- C19: `getAliveEnemy` returns the first enemy in insertion order that is
alive, and nothing exactly when `hasAliveEnemies` is false;
`removeDeadEnemies` keeps exactly the alive enemies in their order, is
idempotent, and does not change the result of `getAliveEnemy`. -/
theorem C19_alive_enemies (r : Room) :
    (∀ e, r.getAliveEnemy = some e →
      ∃ pre post, r.enemies = pre ++ e :: post ∧ (∀ x ∈ pre, x.alive = false) ∧
        e.alive = true) ∧
    ((∃ e ∈ r.enemies, e.alive = true) → ∃ e, r.getAliveEnemy = some e) ∧
    (r.getAliveEnemy = none ↔ r.hasAliveEnemies = false) ∧
    r.removeDeadEnemies.enemies = r.enemies.filter Enemy.alive ∧
    (∀ e, e ∈ r.removeDeadEnemies.enemies ↔ e ∈ r.enemies ∧ e.alive = true) ∧
    r.removeDeadEnemies.enemies.Sublist r.enemies ∧
    r.removeDeadEnemies.removeDeadEnemies = r.removeDeadEnemies ∧
    r.removeDeadEnemies.getAliveEnemy = r.getAliveEnemy := by
  refine ⟨?_, ?_, ?_, rfl, ?_, ?_, ?_, ?_⟩
  · intro e he
    obtain ⟨pre, post, h1, h2, h3, _⟩ := find_split Enemy.alive r.enemies e he
    exact ⟨pre, post, h1, h2, h3⟩
  · intro h
    obtain ⟨e, he, ha⟩ := h
    apply find_isSome_of_any
    simp only [List.any_eq_true]
    exact ⟨e, he, ha⟩
  · unfold Room.hasAliveEnemies
    cases r.getAliveEnemy <;> simp
  · intro e
    simp [Room.removeDeadEnemies, List.mem_filter]
  · exact List.filter_sublist r.enemies
  · simp [Room.removeDeadEnemies, List.filter_filter]
  · simp [Room.removeDeadEnemies, Room.getAliveEnemy, find_filter_self]

/-- C19 witness: in the keep holding a dead goblin before the boss, the boss
is the enemy returned. -/
theorem C19_alive_enemies_witness :
    ∃ pre post,
      ((exKeep ((Enemy.createRandomEnemy 0).takeDamage 50)).addEnemy Enemy.createBoss).enemies =
        pre ++ Enemy.createBoss :: post ∧
      (∀ x ∈ pre, x.alive = false) ∧ Enemy.createBoss.alive = true :=
  (C19_alive_enemies
    ((exKeep ((Enemy.createRandomEnemy 0).takeDamage 50)).addEnemy Enemy.createBoss)).1
    Enemy.createBoss (by decide)

/-- C20: after `addExit d t`, `getExit d` is `t` whatever was there before,
`getExit` of any other direction is unchanged, and repeating the same
`addExit` changes nothing; a direction for which no exit was added, in a new
room or after any additions for other directions, yields the empty string. -/
theorem C20_exits (r : Room) (d d' t : String) (hne : d' ≠ d) :
    (r.addExit d t).getExit d = t ∧
    (r.addExit d t).getExit d' = r.getExit d' ∧
    (r.addExit d t).addExit d t = r.addExit d t ∧
    (∀ id name description : String, (Room.new id name description).getExit d = "") ∧
    (∀ (id name description : String) (adds : List (String × String)),
      (∀ a ∈ adds, a.1 ≠ d) →
      ((adds.foldl (fun room a => room.addExit a.1 a.2)
        (Room.new id name description)).getExit d = "")) := by
  refine ⟨?_, ?_, ?_, ?_, ?_⟩
  · simp [Room.addExit, Room.getExit, mapFind_mapAssign]
  · simp [Room.addExit, Room.getExit, mapFind_mapAssign, hne]
  · simp [Room.addExit, mapAssign_idem]
  · intro id name description
    rfl
  · intro id name description adds
    have key : ∀ (room : Room), room.getExit d = "" → (∀ a ∈ adds, a.1 ≠ d) →
        (adds.foldl (fun room a => room.addExit a.1 a.2) room).getExit d = "" := by
      induction adds with
      | nil => intro room h _; exact h
      | cons a rest ih =>
        intro room h hall
        have ha : d ≠ a.1 := fun h => hall a (List.mem_cons_self _ _) h.symm
        refine ih (room.addExit a.1 a.2) ?_ (fun b hb => hall b (List.mem_cons_of_mem _ hb))
        simpa [Room.addExit, Room.getExit, mapFind_mapAssign, ha] using h
    exact key _ rfl

/-- C20 witness: in the fallback temple, redirecting north leaves west
alone. -/
theorem C20_exits_witness :
    (exTemple.addExit "north" "chamber").getExit "north" = "chamber" ∧
    (exTemple.addExit "north" "chamber").getExit "west" = exTemple.getExit "west" :=
  have h := C20_exits exTemple "north" "west" "chamber" (by decide)
  ⟨h.1, h.2.1⟩

/-- C21: `addMemory m` leaves the player unchanged when `m` is already in the
journal and appends `m` at the end otherwise; `hasMemory m` holds afterwards;
after any sequence of `addMemory` calls a duplicate-free journal (such as the
empty journal of a new player) is duplicate-free, and the journal before the
calls is a start segment of the journal after them. -/
theorem C21_journal (p : Player) (m : String) :
    (m ∈ p.memoryJournal → p.addMemory m = p) ∧
    (m ∉ p.memoryJournal → (p.addMemory m).memoryJournal = p.memoryJournal ++ [m]) ∧
    (p.addMemory m).hasMemory m = true ∧
    (∀ ms : List String, p.memoryJournal.Nodup →
      (ms.foldl Player.addMemory p).memoryJournal.Nodup) ∧
    (∀ (name : String) (ms : List String),
      (ms.foldl Player.addMemory (Player.new name)).memoryJournal.Nodup) ∧
    (∀ ms : List String,
      p.memoryJournal <+: (ms.foldl Player.addMemory p).memoryJournal) ∧
    (∀ ms later : List String,
      (ms.foldl Player.addMemory p).memoryJournal <+:
        ((ms ++ later).foldl Player.addMemory p).memoryJournal) := by
  have hnodup : ∀ (ms : List String) (q : Player), q.memoryJournal.Nodup →
      (ms.foldl Player.addMemory q).memoryJournal.Nodup := by
    intro ms
    induction ms with
    | nil => intro q h; exact h
    | cons a rest ih => intro q h; exact ih _ (Player.addMemory_nodup q a h)
  have hpre : ∀ (ms : List String) (q : Player),
      q.memoryJournal <+: (ms.foldl Player.addMemory q).memoryJournal := by
    intro ms
    induction ms with
    | nil => intro q; exact List.prefix_refl _
    | cons a rest ih =>
      intro q
      refine List.IsPrefix.trans ?_ (ih (q.addMemory a))
      rw [Player.addMemory_journal]
      split
      · exact List.prefix_refl _
      · exact List.prefix_append _ _
  refine ⟨Player.addMemory_of_mem p m, ?_, ?_, fun ms h => hnodup ms p h, ?_, fun ms => hpre ms p, ?_⟩
  · intro h
    rw [Player.addMemory_journal]
    simp [h]
  · simp [Player.hasMemory, Player.mem_addMemory]
  · intro name ms
    exact hnodup ms _ List.nodup_nil
  · intro ms later
    rw [List.foldl_append]
    exact hpre later _

/-- C21 witness: adding the sword memory twice to a new player records it
once. -/
theorem C21_journal_witness :
    ((Player.new "Hero").addMemory swordMemory).memoryJournal =
      (Player.new "Hero").memoryJournal ++ [swordMemory] ∧
    ((Player.new "Hero").addMemory swordMemory).addMemory swordMemory =
      (Player.new "Hero").addMemory swordMemory :=
  ⟨(C21_journal (Player.new "Hero") swordMemory).2.1 (by decide),
   (C21_journal ((Player.new "Hero").addMemory swordMemory) swordMemory).1 (by decide)⟩

/-- C22 counterexample: `heal 2147483647` and `addGold 2147483647` have
non-negative amounts, but on a new player the sums `health + amount` and
`gold + amount` overflow: the health becomes `-2147483549` and the gold
`-2147483599`. -/
theorem C22_counterexample :
    (PlayerOp.heal 2147483647).valid = true ∧
    ([PlayerOp.heal 2147483647].foldl PlayerOp.run (Player.new "Hero")).health =
      -2147483549 ∧
    (PlayerOp.addGold 2147483647).valid = true ∧
    ([PlayerOp.addGold 2147483647].foldl PlayerOp.run (Player.new "Hero")).gold =
      -2147483599 ∧
    ¬ (∀ ops : List PlayerOp, (∀ op ∈ ops, op.valid = true) →
      0 ≤ (ops.foldl PlayerOp.run (Player.new "Hero")).health ∧
      0 ≤ (ops.foldl PlayerOp.run (Player.new "Hero")).gold) := by
  refine ⟨by decide, by decide, by decide, by decide, ?_⟩
  intro h
  exact absurd (h [PlayerOp.heal 2147483647] (by decide)).1 (by decide)

/-- C22 (amended): a new player has health 100, maxHealth 100, attack 10 and
also defense 5 and gold 50; after any sequence of `takeDamage` (any amount),
`heal`, `addGold` and `spendGold` calls with non-negative heal and gold amounts in
which no `heal` and no `addGold` overflows, the health is within
`0..maxHealth` and the gold is not negative; `spendGold s` returns true exactly
when `gold ≥ s`, and leaves the player unchanged when it returns false. -/
theorem C22_player_invariant (name : String) (ops : List PlayerOp)
    (hvalid : ∀ op ∈ ops, op.valid = true)
    (hsafe : PlayerOp.noOverflow (Player.new name) ops = true) :
    (Player.new name).health = 100 ∧ (Player.new name).maxHealth = 100 ∧
    (Player.new name).attack = 10 ∧ (Player.new name).defense = 5 ∧
    (Player.new name).gold = 50 ∧
    0 ≤ (ops.foldl PlayerOp.run (Player.new name)).health ∧
    (ops.foldl PlayerOp.run (Player.new name)).health ≤
      (ops.foldl PlayerOp.run (Player.new name)).maxHealth ∧
    0 ≤ (ops.foldl PlayerOp.run (Player.new name)).gold ∧
    (∀ (q : Player) (amount : Int),
      ((q.spendGold amount).2 = true ↔ q.gold ≥ amount) ∧
      ((q.spendGold amount).2 = false → (q.spendGold amount).1 = q) ∧
      ((q.spendGold amount).2 = true → fitsInt (q.gold - amount) →
        (q.spendGold amount).1.gold = q.gold - amount)) := by
  have hstep : ∀ (q : Player) (op : PlayerOp), op.valid = true →
      PlayerOp.noOverflow q [op] = true →
      (0 ≤ q.health ∧ q.health ≤ q.maxHealth ∧ 0 ≤ q.gold ∧ q.gold ≤ 2147483647 ∧
        q.maxHealth ≤ 2147483647) →
      (0 ≤ (op.run q).health ∧ (op.run q).health ≤ (op.run q).maxHealth ∧
        0 ≤ (op.run q).gold ∧ (op.run q).gold ≤ 2147483647 ∧
        (op.run q).maxHealth ≤ 2147483647) := by
    intro q op hv hs hq
    obtain ⟨h0, h1, h2, h3, h4⟩ := hq
    cases op with
    | takeDamage damage =>
      refine ⟨le_max_left _ _, ?_, h2, h3, h4⟩
      show max 0 (wrapInt (q.health - max 1 (wrapInt (damage - q.defense)))) ≤ q.maxHealth
      unfold wrapInt
      omega
    | heal amount =>
      have ha : 0 ≤ amount := by simpa [PlayerOp.valid] using hv
      have hf : fitsInt (q.health + amount) := by
        simpa [PlayerOp.noOverflow] using hs
      refine ⟨?_, ?_, h2, h3, h4⟩
      · show 0 ≤ min (wrapInt (q.health + amount)) q.maxHealth
        rw [wrapInt_of_fits _ hf]
        omega
      · show min (wrapInt (q.health + amount)) q.maxHealth ≤ q.maxHealth
        exact min_le_right _ _
    | addGold amount =>
      have ha : 0 ≤ amount := by simpa [PlayerOp.valid] using hv
      have hf : fitsInt (q.gold + amount) := by
        simpa [PlayerOp.noOverflow] using hs
      refine ⟨h0, h1, ?_, ?_, h4⟩
      · show 0 ≤ wrapInt (q.gold + amount)
        rw [wrapInt_of_fits _ hf]
        omega
      · show wrapInt (q.gold + amount) ≤ 2147483647
        exact (fitsInt_wrapInt _).2
    | spendGold amount =>
      have ha : 0 ≤ amount := by simpa [PlayerOp.valid] using hv
      simp only [PlayerOp.run, Player.spendGold]
      split
      · rename_i hg
        refine ⟨h0, h1, ?_, ?_, h4⟩
        · show 0 ≤ wrapInt (q.gold - amount)
          unfold wrapInt
          omega
        · show wrapInt (q.gold - amount) ≤ 2147483647
          exact (fitsInt_wrapInt _).2
      · exact ⟨h0, h1, h2, h3, h4⟩
  have hsplit : ∀ (q : Player) (op : PlayerOp) (rest : List PlayerOp),
      PlayerOp.noOverflow q (op :: rest) = true →
      PlayerOp.noOverflow q [op] = true ∧ PlayerOp.noOverflow (op.run q) rest = true := by
    intro q op rest h
    cases op <;> simp_all [PlayerOp.noOverflow, PlayerOp.run]
  have hall : ∀ (l : List PlayerOp) (q : Player), (∀ op ∈ l, op.valid = true) →
      PlayerOp.noOverflow q l = true →
      (0 ≤ q.health ∧ q.health ≤ q.maxHealth ∧ 0 ≤ q.gold ∧ q.gold ≤ 2147483647 ∧
        q.maxHealth ≤ 2147483647) →
      (0 ≤ (l.foldl PlayerOp.run q).health ∧
        (l.foldl PlayerOp.run q).health ≤ (l.foldl PlayerOp.run q).maxHealth ∧
        0 ≤ (l.foldl PlayerOp.run q).gold ∧ (l.foldl PlayerOp.run q).gold ≤ 2147483647 ∧
        (l.foldl PlayerOp.run q).maxHealth ≤ 2147483647) := by
    intro l
    induction l with
    | nil => intro q _ _ h; exact h
    | cons op rest ih =>
      intro q hv hs h
      obtain ⟨hs1, hs2⟩ := hsplit q op rest hs
      exact ih (op.run q) (fun o ho => hv o (List.mem_cons_of_mem _ ho)) hs2
        (hstep q op (hv op (List.mem_cons_self _ _)) hs1 h)
  have hfin := hall ops (Player.new name) hvalid hsafe
    ⟨by show (0 : Int) ≤ 100; decide, by show (100 : Int) ≤ 100; decide,
      by show (0 : Int) ≤ 50; decide, by show (50 : Int) ≤ 2147483647; decide,
      by show (100 : Int) ≤ 2147483647; decide⟩
  refine ⟨rfl, rfl, rfl, rfl, rfl, hfin.1, hfin.2.1, hfin.2.2.1, ?_⟩
  intro q amount
  unfold Player.spendGold
  by_cases hg : q.gold ≥ amount
  · simp only [hg, if_true, true_iff, true_implies]
    refine ⟨trivial, ?_, ?_⟩
    · intro h; cases h
    · intro hf; exact wrapInt_of_fits _ hf
  · simp [hg]

/-- C22 witness: a new player who is hit for 200, healed by 30, paid 5 and
asked for 70 gold has health 30 and gold 55. -/
theorem C22_player_invariant_witness :
    0 ≤ ([PlayerOp.takeDamage 200, PlayerOp.heal 30, PlayerOp.addGold 5,
      PlayerOp.spendGold 70].foldl PlayerOp.run (Player.new "Hero")).health ∧
    0 ≤ ([PlayerOp.takeDamage 200, PlayerOp.heal 30, PlayerOp.addGold 5,
      PlayerOp.spendGold 70].foldl PlayerOp.run (Player.new "Hero")).gold :=
  have h := C22_player_invariant "Hero"
    [PlayerOp.takeDamage 200, PlayerOp.heal 30, PlayerOp.addGold 5, PlayerOp.spendGold 70]
    (by decide) (by decide)
  ⟨h.2.2.2.2.2.1, h.2.2.2.2.2.2.2.1⟩

/-- C29 counterexample: for the attack amount `-2147483648` against an enemy
of health 10 and defense 5 the difference `a - d` overflows: one hit kills,
although `1 * max 1 (a - d) < h`. -/
theorem C29_counterexample :
    (takeDamages (Enemy.new "Goblin Scout" EnemyType.GOBLIN 10 8 5 15)
      (List.replicate 1 (-2147483648))).alive = false ∧
    ((1 : Nat) : Int) *
      max 1 (-2147483648 - (Enemy.new "Goblin Scout" EnemyType.GOBLIN 10 8 5 15).defense) <
      (Enemy.new "Goblin Scout" EnemyType.GOBLIN 10 8 5 15).health ∧
    ¬ ((takeDamages (Enemy.new "Goblin Scout" EnemyType.GOBLIN 10 8 5 15)
        (List.replicate 1 (-2147483648))).alive = true ↔
      ((1 : Nat) : Int) *
        max 1 (-2147483648 - (Enemy.new "Goblin Scout" EnemyType.GOBLIN 10 8 5 15).defense) <
        (Enemy.new "Goblin Scout" EnemyType.GOBLIN 10 8 5 15).health) := by
  decide

/-- C29 (amended): for an alive enemy with health `h` and defense `d` in the
current room and a player whose effective attack `a` keeps `a - d` within the
range of `int`, after `k` successive `playerAttack` calls the enemy has taken
`k` hits of `a` and is alive exactly when `k * max 1 (a - d) < h`, that is
exactly when `k` is below the rounded-up quotient of `h` by `max 1 (a - d)`; it
is dead after `h` calls; the same holds of `k` successive `takeDamage a` calls
for every amount `a` with `a - d` in range; the factory boss attacked by a new
player (attack 10) is alive after 49 attacks and dead after 50. -/
theorem C29_hits_to_kill (s : GameState) (cur : Room) (i : Nat) (e : Enemy) (k : Nat)
    (hroom : s.room = some cur) (he : cur.enemies[i]? = some e) (halive : e.alive = true)
    (hfit : fitsInt (s.player.getAttack - e.defense)) (hhealth : e.health ≤ 2147483647) :
    (Nat.iterate (playerAttack i) k s).enemyAt i =
      some (takeDamages e (List.replicate k s.player.getAttack)) ∧
    ((Nat.iterate (playerAttack i) k s).enemyAlive i = true ↔
      (k : Int) * max 1 (s.player.getAttack - e.defense) < e.health) ∧
    ((Nat.iterate (playerAttack i) k s).enemyAlive i = true ↔
      (k : Int) < (e.health + max 1 (s.player.getAttack - e.defense) - 1) /
        max 1 (s.player.getAttack - e.defense)) ∧
    (Nat.iterate (playerAttack i) e.health.toNat s).enemyAlive i = false ∧
    (∀ a : Int, fitsInt (a - e.defense) →
      ((takeDamages e (List.replicate k a)).alive = true ↔
        (k : Int) * max 1 (a - e.defense) < e.health) ∧
      ((takeDamages e (List.replicate k a)).alive = true ↔
        (k : Int) < (e.health + max 1 (a - e.defense) - 1) / max 1 (a - e.defense)) ∧
      (takeDamages e (List.replicate e.health.toNat a)).alive = false) ∧
    (exState Enemy.createBoss).player.getAttack = 10 ∧
    (Nat.iterate (playerAttack 0) 49 (exState Enemy.createBoss)).enemyAlive 0 = true ∧
    (Nat.iterate (playerAttack 0) 50 (exState Enemy.createBoss)).enemyAlive 0 = false := by
  have hm : ∀ a : Int, (0 : Int) < max 1 (a - e.defense) := fun a =>
    lt_of_lt_of_le (by decide) (le_max_left _ _)
  have hk := iterate_playerAttack_alive i k s cur e hroom he
  have hh := iterate_playerAttack_alive i e.health.toNat s cur e hroom he
  have h1 := hits_alive_iff s.player.getAttack k e halive hfit hhealth
  have hboss : Enemy.createBoss.alive = true := by decide
  have hbroom : (exState Enemy.createBoss).room = some (exKeep Enemy.createBoss) := by decide
  have hbe : (exKeep Enemy.createBoss).enemies[0]? = some Enemy.createBoss := by decide
  have hatk : (exState Enemy.createBoss).player.getAttack = 10 := by decide
  have h49 : (takeDamages Enemy.createBoss (List.replicate 49 10)).alive = true :=
    (hits_alive_iff 10 49 Enemy.createBoss hboss (by decide) (by decide)).mpr (by decide)
  have h50 : (takeDamages Enemy.createBoss (List.replicate 50 10)).alive = false := by
    have := (hits_alive_iff 10 50 Enemy.createBoss hboss (by decide) (by decide)).not.mpr
      (by decide)
    simpa using this
  refine ⟨hk.1, ?_, ?_, ?_, ?_, hatk, ?_, ?_⟩
  · rw [hk.2]
    exact h1
  · rw [hk.2, h1]
    exact hits_ceil k _ _ (hm _)
  · rw [hh.2]
    exact dead_after_health_hits _ e halive hfit hhealth
  · intro a ha
    have h2 := hits_alive_iff a k e halive ha hhealth
    refine ⟨h2, ?_, dead_after_health_hits a e halive ha hhealth⟩
    rw [h2]
    exact hits_ceil k _ _ (hm a)
  · rw [(iterate_playerAttack_alive 0 49 _ _ _ hbroom hbe).2, hatk]
    exact h49
  · rw [(iterate_playerAttack_alive 0 50 _ _ _ hbroom hbe).2, hatk]
    exact h50

/-- C29 witness: a new player (attack 10) attacks the factory boss (health
100, defense 8) in the keep: after 49 attacks the boss is alive, since
49 * 2 < 100. -/
theorem C29_hits_to_kill_witness :
    ((Nat.iterate (playerAttack 0) 49 (exState Enemy.createBoss)).enemyAlive 0 = true ↔
      ((49 : Nat) : Int) *
        max 1 ((exState Enemy.createBoss).player.getAttack - Enemy.createBoss.defense) <
        Enemy.createBoss.health) ∧
    ((takeDamages Enemy.createBoss (List.replicate 49 20)).alive = true ↔
      ((49 : Nat) : Int) * max 1 (20 - Enemy.createBoss.defense) <
        Enemy.createBoss.health) :=
  ⟨(C29_hits_to_kill (exState Enemy.createBoss) (exKeep Enemy.createBoss) 0
      Enemy.createBoss 49 (by decide) (by decide) (by decide) (by decide) (by decide)).2.1,
   ((C29_hits_to_kill (exState Enemy.createBoss) (exKeep Enemy.createBoss) 0
      Enemy.createBoss 49 (by decide) (by decide) (by decide) (by decide)
      (by decide)).2.2.2.2.1 20 (by decide)).1⟩

/-- C23: the room map built by `WorldManager::initialize` has a room stored
under "village", so `startGame` does not fail; every room is stored under its
own id; and every exit of every room names a key of the map, so an exit that
`getExit` returns is always found by `handleMove`. -/
theorem C23_world_wellformed (d : WorldDecls) :
    (mapFind (populateWorld d) "village").isSome = true ∧
    (∀ playerName : String, (startGame d playerName).isSome = true) ∧
    (∀ kr ∈ populateWorld d, kr.2.id = kr.1) ∧
    (∀ kr ∈ populateWorld d, ∀ ex ∈ kr.2.exits,
      (mapFind (populateWorld d) ex.2).isSome = true) ∧
    (∀ (k : String) (r : Room) (direction : String),
      mapFind (populateWorld d) k = some r → r.getExit direction ≠ "" →
      (mapFind (populateWorld d) (r.getExit direction)).isSome = true) := by
  have hT : ∀ x ∈ exitTable (WorldManager.createExpandedWorld []),
      x.2.1 = x.1 ∧ ∀ ex ∈ x.2.2,
        (mapFind (exitTable (WorldManager.createExpandedWorld [])) ex.2).isSome = true := by
    decide
  have hvil : (mapFind (populateWorld d) "village").isSome = true := by
    rw [isSome_world_iff]
    decide
  have hex : ∀ kr ∈ populateWorld d, ∀ ex ∈ kr.2.exits,
      (mapFind (populateWorld d) ex.2).isSome = true := by
    intro kr hkr ex hexm
    have hm := mem_exitTable _ kr hkr
    rw [exitTable_world d] at hm
    rw [isSome_world_iff]
    exact (hT _ hm).2 ex hexm
  refine ⟨hvil, ?_, ?_, hex, ?_⟩
  · intro playerName
    cases hv : mapFind (populateWorld d) "village" with
    | none => rw [hv] at hvil; cases hvil
    | some v =>
      obtain ⟨s0, hs, _⟩ := startGame_some d playerName v hv
      rw [hs]; rfl
  · intro kr hkr
    have hm := mem_exitTable _ kr hkr
    rw [exitTable_world d] at hm
    exact (hT _ hm).1
  · intro k r direction hr hne
    exact hex (k, r) (mapFind_mem (populateWorld d) k r hr) (direction, r.getExit direction)
      (getExit_mem r direction hne)

/-- C23 witness: with the example declarations, the exit north of the village
names a room of the map. -/
theorem C23_world_wellformed_witness :
    (mapFind (populateWorld exDecls) "village").isSome = true ∧
    (startGame exDecls "Hero").isSome = true :=
  ⟨(C23_world_wellformed exDecls).1, (C23_world_wellformed exDecls).2.1 "Hero"⟩

/-- C24 (the code departs from the claim): in the world built by
`WorldManager::initialize` the room `village_market` has the exit west to
`village`, but the exits of `village` lead to `stone_bridge`, `dark_forest`
and `desert_road` only: no exit of the village leads back to the market. -/
theorem C24_market_has_no_way_back (d : WorldDecls) :
    (mapFind (populateWorld d) "village_market").map Room.exits =
      some [("west", "village")] ∧
    (mapFind (populateWorld d) "village").map Room.exits =
      some [("east", "stone_bridge"), ("north", "dark_forest"), ("south", "desert_road")] ∧
    (mapFind (populateWorld d) "village").map
      (fun r => r.exits.any (fun ex => ex.2 == "village_market")) = some false := by
  have h1 : (mapFind (exitTable (WorldManager.createExpandedWorld [])) "village_market").map
      (fun x => x.2) = some [("west", "village")] := by decide
  have h2 : (mapFind (exitTable (WorldManager.createExpandedWorld [])) "village").map
      (fun x => x.2) =
      some [("east", "stone_bridge"), ("north", "dark_forest"), ("south", "desert_road")] := by
    decide
  have e1 := (world_exits d "village_market").trans h1
  have e2 := (world_exits d "village").trans h2
  refine ⟨e1, e2, ?_⟩
  cases hv : mapFind (populateWorld d) "village" with
  | none => rw [hv] at e2; cases e2
  | some v =>
    rw [hv] at e2
    simp only [Option.map_some', Option.some.injEq] at e2
    simp only [Option.map_some', e2]
    decide

/-- C30 (the code departs from the claim): in the world built by
`WorldManager::initialize` no sequence of directions leads from `village` to
`village_market`, a room of the map; each of the other seventeen rooms is
reached by the path listed in `worldPaths`. -/
theorem C30_market_unreachable (d : WorldDecls) :
    (mapFind (populateWorld d) "village_market").isSome = true ∧
    (∀ dirs : List String,
      followExits (populateWorld d) "village" dirs ≠ some "village_market") ∧
    (∀ kp ∈ worldPaths, followExits (populateWorld d) "village" kp.2 = some kp.1) ∧
    (∀ kr ∈ populateWorld d,
      kr.1 = "village_market" ∨ kr.1 ∈ worldPaths.map Prod.fst) := by
  have hclosed : ∀ x ∈ exitTable (WorldManager.createExpandedWorld []),
      x.1 ∈ worldPaths.map Prod.fst → ∀ ex ∈ x.2.2, ex.2 ∈ worldPaths.map Prod.fst := by
    decide
  have hpaths : ∀ kp ∈ worldPaths,
      followExits (WorldManager.createExpandedWorld []) "village" kp.2 = some kp.1 := by
    decide
  have hkeys : ∀ x ∈ exitTable (WorldManager.createExpandedWorld []),
      x.1 = "village_market" ∨ x.1 ∈ worldPaths.map Prod.fst := by
    decide
  have hcongr := followExits_congr (populateWorld d) (WorldManager.createExpandedWorld [])
    (exitTable_world d)
  refine ⟨?_, ?_, ?_, ?_⟩
  · rw [isSome_world_iff]
    decide
  · intro dirs h
    rw [hcongr dirs "village"] at h
    have := followExits_closed _ _ hclosed dirs "village" (by decide) _ h
    exact absurd this (by decide)
  · intro kp hkp
    rw [hcongr kp.2 "village"]
    exact hpaths kp hkp
  · intro kr hkr
    have hm := mem_exitTable _ kr hkr
    rw [exitTable_world d] at hm
    exact hkeys _ hm

/-- C25: `parseCommand input` is the list of maximal whitespace-free runs of
the input, in order, each lower-cased; no token is empty or contains a
whitespace character or an upper-case ASCII letter (code 65 to 90); the result
is empty exactly when every character of the input is whitespace; inputs that
differ only in letter case give the same tokens; and parsing the tokens joined
by single spaces gives the tokens back. -/
theorem C25_parseCommand (input : String) :
    parseCommand input = parseCommandSpec input ∧
    (∀ t ∈ parseCommand input,
      t ≠ "" ∧ ∀ c ∈ t.data, isSpace c = false ∧ ¬ (65 ≤ c.toNat ∧ c.toNat ≤ 90)) ∧
    (parseCommand input = [] ↔ ∀ c ∈ input.data, isSpace c = true) ∧
    (∀ other : String, other.data.map Char.toLower = input.data.map Char.toLower →
      parseCommand other = parseCommand input) ∧
    parseCommand (toLowerCase input) = parseCommand input ∧
    parseCommand (" ".intercalate (parseCommand input)) = parseCommand input := by
  have hmem : ∀ t ∈ parseCommand input,
      ∃ w, w ∈ tokensAux input.data [] ∧ t = String.mk (w.map Char.toLower) := by
    intro t ht
    simp only [parseCommand, List.mem_map] at ht
    obtain ⟨w, hw, hwt⟩ := ht
    exact ⟨w, hw, hwt.symm⟩
  have htok : ∀ t ∈ parseCommand input,
      t.data ≠ [] ∧ (∀ c ∈ t.data, isSpace c = false) ∧
      (∀ c ∈ t.data, ¬ (65 ≤ c.toNat ∧ c.toNat ≤ 90)) ∧ t.data.map Char.toLower = t.data := by
    intro t ht
    obtain ⟨w, hw, rfl⟩ := hmem t ht
    obtain ⟨hne, hsp⟩ := tokensAux_mem input.data [] (by simp) w hw
    refine ⟨by simpa using hne, ?_, ?_, ?_⟩
    · intro c hc
      simp only [List.mem_map] at hc
      obtain ⟨x, hx, rfl⟩ := hc
      rw [isSpace_toLower]
      exact hsp x hx
    · intro c hc
      simp only [List.mem_map] at hc
      obtain ⟨x, hx, rfl⟩ := hc
      exact toLower_not_upper x
    · simp [toLower_idem]
  refine ⟨?_, ?_, ?_, ?_, ?_, ?_⟩
  · simp only [parseCommand, parseCommandSpec, tokensAux_spec]
    rfl
  · intro t ht
    obtain ⟨h1, h2, h3, _⟩ := htok t ht
    refine ⟨?_, fun c hc => ⟨h2 c hc, h3 c hc⟩⟩
    intro h
    rw [h] at h1
    exact h1 rfl
  · simp only [parseCommand, List.map_eq_nil_iff]
    rw [tokensAux_eq_nil]
    simp
  · intro other h
    rw [parseCommand_eq_lower, parseCommand_eq_lower, h]
  · rw [parseCommand_eq_lower, parseCommand_eq_lower]
    have : (toLowerCase input).data.map Char.toLower = input.data.map Char.toLower := by
      simp only [toLowerCase, List.map_map]
      exact List.map_congr_left (fun c _ => toLower_idem c)
    rw [this]
  · cases hp : parseCommand input with
    | nil => exact parseCommand_empty
    | cons t rest =>
      rw [intercalate_eq]
      have hall : ∀ x ∈ t :: rest,
          x.data ≠ [] ∧ (∀ c ∈ x.data, isSpace c = false) ∧
          (∀ c ∈ x.data, ¬ (65 ≤ c.toNat ∧ c.toNat ≤ 90)) ∧
          x.data.map Char.toLower = x.data := by
        intro x hx
        rw [← hp] at hx
        exact htok x hx
      have ht := hall t (List.mem_cons_self _ _)
      have hjoin := tokens_join (rest.map String.data) t.data ht.1 ht.2.1 (by
        intro w hw
        simp only [List.mem_map] at hw
        obtain ⟨x, hx, rfl⟩ := hw
        have := hall x (List.mem_cons_of_mem _ hx)
        exact ⟨this.1, this.2.1⟩)
      simp only [parseCommand, fullItemName_data, hjoin, List.map_cons, List.map_map]
      have hfix : ∀ x ∈ t :: rest, toLowerCase (String.mk x.data) = x := by
        intro x hx
        have := (hall x hx).2.2.2
        simp only [toLowerCase, this]
      rw [hfix t (List.mem_cons_self _ _)]
      congr 1
      have : ∀ l : List String, (∀ x ∈ l, toLowerCase (String.mk x.data) = x) →
          l.map ((fun w => toLowerCase (String.mk w)) ∘ String.data) = l := by
        intro l
        induction l with
        | nil => intro _; rfl
        | cons a as ih =>
          intro h
          simp only [List.map_cons, Function.comp_apply, h a (List.mem_cons_self _ _)]
          rw [ih (fun x hx => h x (List.mem_cons_of_mem _ hx))]
      exact this rest (fun x hx => hfix x (List.mem_cons_of_mem _ hx))

/-- C25 witness: a line typed in capitals parses like its lower-case form. -/
theorem C25_parseCommand_witness :
    parseCommand "TAKE  Rusty Sword" = parseCommand "take  rusty sword" ∧
    parseCommand "take  rusty sword" = ["take", "rusty", "sword"] :=
  ⟨(C25_parseCommand "take  rusty sword").2.2.2.1 "TAKE  Rusty Sword" (by decide),
   by decide⟩

/-- C26 (the code departs from the claim): in the state `exShardState` the
first item of the current room is the "crystal shard". The real-time pickup
`pickupNearbyItem` and the text handler `handleTake "crystal shard"` leave the
same room, inventory and equipped weapon, but the journals differ:
`handleTake` adds the crystal memory, `pickupNearbyItem` has no branch for
"crystal shard" and adds nothing. -/
theorem C26_pickup_misses_crystal_memory :
    exShardState.room.map (fun r => r.items.map (fun it => it.name)) =
      some ["crystal shard"] ∧
    (pickupNearbyItem exShardState).room = (handleTake "crystal shard" exShardState).room ∧
    (pickupNearbyItem exShardState).player.inventory =
      (handleTake "crystal shard" exShardState).player.inventory ∧
    (pickupNearbyItem exShardState).player.equippedWeapon =
      (handleTake "crystal shard" exShardState).player.equippedWeapon ∧
    (pickupNearbyItem exShardState).player.memoryJournal = [keyMemory] ∧
    (handleTake "crystal shard" exShardState).player.memoryJournal =
      [keyMemory, crystalMemory] ∧
    (pickupNearbyItem exShardState).player.memoryJournal ≠
      (handleTake "crystal shard" exShardState).player.memoryJournal := by
  decide

/-- C27 (the code departs from the claim): a left click never changes the game
state, because `findNearestEnemy` always returns the null pointer and the
attack block is skipped. In the state `exState exWeakBoss`, whose room holds an
alive boss, the text round kills the boss, pays its gold, sets
`finalBossDefeated`, records the victory memory and removes the boss from the
room, while the click leaves health, gold, flag, journal and enemy list as
they were. Even the attack block run on its own on the enemy that
`findNearestEnemy` stored pays the gold only: the flag stays false, the
journal stays empty and `updateCombat` leaves the dead boss in the room. -/
theorem C27_click_is_not_a_combat_round :
    (∀ (hasRenderer cooldownExpired : Bool) (roll : Int) (rt : RealTimeState),
      (leftClickAttack hasRenderer cooldownExpired roll rt).game = rt.game) ∧
    (exState exWeakBoss).enemyAlive 0 = true ∧
    (exState exWeakBoss).player.gold = 50 ∧
    (combatRound 0 (exAttack 18) (exState exWeakBoss)).1.finalBossDefeated = true ∧
    (combatRound 0 (exAttack 18) (exState exWeakBoss)).1.player.gold = 150 ∧
    (combatRound 0 (exAttack 18) (exState exWeakBoss)).1.player.memoryJournal =
      [victoryMemory] ∧
    (combatRound 0 (exAttack 18) (exState exWeakBoss)).1.room.map (fun r => r.enemies) =
      some [] ∧
    (leftClickAttack true true 18 (exRealTime (exState exWeakBoss))).game =
      exState exWeakBoss ∧
    (leftClickAttack true true 18
      (exRealTime (exState exWeakBoss))).game.finalBossDefeated = false ∧
    (attackBlock 18
      (findNearestEnemy true (exRealTime (exState exWeakBoss))).2).game.finalBossDefeated =
        false ∧
    (attackBlock 18
      (findNearestEnemy true (exRealTime (exState exWeakBoss))).2).game.player.gold = 150 ∧
    (attackBlock 18
      (findNearestEnemy true (exRealTime (exState exWeakBoss))).2).game.player.memoryJournal =
        [] ∧
    (updateCombat (attackBlock 18
      (findNearestEnemy true (exRealTime (exState exWeakBoss))).2)).game.room.map
        (fun r => r.enemies.map (fun e => (e.type, e.health))) =
      some [(EnemyType.BOSS, 0)] :=
  ⟨leftClick_game, by decide, by decide, by decide, by decide, by decide, by decide,
    by decide, by decide, by decide, by decide, by decide, by decide⟩

/-- C28: in every state reachable from a new game by text-mode commands,
combat rounds and passes of the game loop, a set `finalBossDefeated` implies
that the journal holds the victory string, so `hasMemory` answers true; hence
`checkWinCondition` depends on the flag alone: it ends the game in victory
when the flag is set and changes nothing when it is not. -/
theorem C28_flag_implies_victory_memory (d : WorldDecls) (playerName : String)
    (s : GameState) (h : Reachable d playerName s) :
    victoryMemory = "You have defeated the Shadow Lord and restored balance to the realm!" ∧
    (s.finalBossDefeated = true → victoryMemory ∈ s.player.memoryJournal) ∧
    (s.finalBossDefeated = true → s.player.hasMemory victoryMemory = true) ∧
    checkWinCondition s =
      (if s.finalBossDefeated then { s with gameWon := true, gameRunning := false }
       else s) := by
  have hinv : s.finalBossDefeated = true → victoryMemory ∈ s.player.memoryJournal :=
    reachable_flagRecorded d playerName s h
  have hmem : s.finalBossDefeated = true → s.player.hasMemory victoryMemory = true := by
    intro hf
    have := hinv hf
    simpa [Player.hasMemory] using this
  refine ⟨rfl, hinv, hmem, ?_⟩
  unfold checkWinCondition
  cases hf : s.finalBossDefeated with
  | false => rfl
  | true =>
    rw [hmem hf]
    rfl

/-- C28 witness: with declarations that build the world's enemies as BOSS, the
new game after the commands north and attack, in which the player (health 44
at the end) kills the Forest Wolf of the dark forest in eight rounds, is a
reachable state whose flag is set: the journal holds the victory string and
the win check ends the game in victory. -/
theorem C28_flag_implies_victory_memory_witness :
    Reachable exBossDecls "Hero" exVictoryState ∧
    exVictoryState.finalBossDefeated = true ∧
    victoryMemory ∈ exVictoryState.player.memoryJournal ∧
    exVictoryState.player.hasMemory victoryMemory = true ∧
    checkWinCondition exVictoryState =
      { exVictoryState with gameWon := true, gameRunning := false } :=
  ⟨exVictoryState_reachable, exVictoryState_facts.2.1,
    (C28_flag_implies_victory_memory exBossDecls "Hero" exVictoryState
      exVictoryState_reachable).2.1 exVictoryState_facts.2.1,
    (C28_flag_implies_victory_memory exBossDecls "Hero" exVictoryState
      exVictoryState_reachable).2.2.1 exVictoryState_facts.2.1,
    ((C28_flag_implies_victory_memory exBossDecls "Hero" exVictoryState
      exVictoryState_reachable).2.2.2).trans
      (if_pos exVictoryState_facts.2.1)⟩

end Realm
